import Mathlib

/-! Karma point-set toolkit (`src/Karma/kmath.h`) and buffer wrapper
(`src/OpenGL/opengldynamicbuffer.h`).

A shallow embedding of the template functions of `kmath.h` and of the two methods of
`OpenGLDynamicBuffer`.

The C++ scalar type `float` is embedded as `KFloat α`: values of a linearly ordered field `α`
together with the three IEEE special values `+infinity`, `-infinity` and `NaN`.  Every
arithmetic operation takes the rounding `rnd : α → KFloat α` of the format as a parameter and
applies it to the exact result of the operation, so that the operation rounds and overflows
as the format does.  Two roundings are used below: `KFloat.round32`, the round-to-nearest-even
of IEEE binary32 on the rationals (the arithmetic of the source), and `KFloat.fin`, which
does not round at all (exact arithmetic).  Comparisons do not round.  Signed zeros are not
modelled.

Iterator ranges `[begin, end)` are embedded as lists, `while (begin != end)` loops as left
folds of the loop body over the list.
-/

namespace Karma

/-- The scalar type `float`: values of `α` plus the IEEE special values. -/
inductive KFloat (α : Type) where
  | nan : KFloat α
  | ninf : KFloat α
  | pinf : KFloat α
  | fin : α → KFloat α
deriving DecidableEq, Repr

namespace KFloat

variable {α : Type} [LinearOrderedField α]

/-- The value `std::numeric_limits<float>::infinity()`. -/
def infinity : KFloat α := pinf

/-- Unary minus. -/
def neg : KFloat α → KFloat α
  | nan => nan
  | ninf => pinf
  | pinf => ninf
  | fin x => fin (-x)

/-- Addition `a + b`: the rounded sum; `infinity + (-infinity)` is `NaN`. -/
def add (rnd : α → KFloat α) : KFloat α → KFloat α → KFloat α
  | nan, _ => nan
  | _, nan => nan
  | fin x, fin y => rnd (x + y)
  | fin _, pinf => pinf
  | fin _, ninf => ninf
  | pinf, fin _ => pinf
  | ninf, fin _ => ninf
  | pinf, pinf => pinf
  | ninf, ninf => ninf
  | pinf, ninf => nan
  | ninf, pinf => nan

/-- Subtraction `a - b`. -/
def sub (rnd : α → KFloat α) (a b : KFloat α) : KFloat α := add rnd a (neg b)

/-- Multiplication `a * b`: the rounded product; `infinity * 0` is `NaN`. -/
def mul (rnd : α → KFloat α) : KFloat α → KFloat α → KFloat α
  | nan, _ => nan
  | _, nan => nan
  | fin x, fin y => rnd (x * y)
  | fin x, pinf => if 0 < x then pinf else if x < 0 then ninf else nan
  | fin x, ninf => if 0 < x then ninf else if x < 0 then pinf else nan
  | pinf, fin y => if 0 < y then pinf else if y < 0 then ninf else nan
  | ninf, fin y => if 0 < y then ninf else if y < 0 then pinf else nan
  | pinf, pinf => pinf
  | ninf, ninf => pinf
  | pinf, ninf => ninf
  | ninf, pinf => ninf

/-- Division `a / b`: the rounded quotient; a non-zero value over zero is an infinity, `0/0`
and `infinity/infinity` are `NaN`. -/
def div (rnd : α → KFloat α) : KFloat α → KFloat α → KFloat α
  | nan, _ => nan
  | _, nan => nan
  | fin x, fin y =>
      if y = 0 then (if 0 < x then pinf else if x < 0 then ninf else nan) else rnd (x / y)
  | fin _, pinf => fin 0
  | fin _, ninf => fin 0
  | pinf, fin y => if y < 0 then ninf else pinf
  | ninf, fin y => if y < 0 then pinf else ninf
  | pinf, pinf => nan
  | ninf, ninf => nan
  | pinf, ninf => nan
  | ninf, pinf => nan

/-- The comparison `a < b`; false as soon as one side is `NaN`. -/
def lt : KFloat α → KFloat α → Bool
  | nan, _ => false
  | _, nan => false
  | fin x, fin y => decide (x < y)
  | fin _, pinf => true
  | fin _, ninf => false
  | pinf, _ => false
  | ninf, fin _ => true
  | ninf, pinf => true
  | ninf, ninf => false

/-- The comparison `a > b`. -/
def gt (a b : KFloat α) : Bool := lt b a

/-- The comparison `a == b`; false as soon as one side is `NaN`. -/
def eq : KFloat α → KFloat α → Bool
  | fin x, fin y => decide (x = y)
  | pinf, pinf => true
  | ninf, ninf => true
  | _, _ => false

/-- The comparison `a <= b`; false as soon as one side is `NaN`. -/
def le (a b : KFloat α) : Bool := lt a b || eq a b

/-- The conversion `float(n)` of a count: the count, rounded. -/
def ofCount (rnd : α → KFloat α) (n : Nat) : KFloat α := rnd (n : α)

/-- Whether the value is finite (neither infinite nor `NaN`). -/
def isFinite : KFloat α → Bool
  | fin _ => true
  | _ => false

/-- The value held by a finite `float` (and `0` for the special values). -/
def value : KFloat α → α
  | fin x => x
  | _ => 0

/-- The running minimum kept by `if (m > v) m = v` over the values `l`, started at `a`. -/
def runMin (a : KFloat α) (l : List (KFloat α)) : KFloat α :=
  l.foldl (fun a v => if gt a v then v else a) a

/-- The running maximum kept by `if (m < v) m = v` over the values `l`, started at `a`. -/
def runMax (a : KFloat α) (l : List (KFloat α)) : KFloat α :=
  l.foldl (fun a v => if lt a v then v else a) a

/-- The square root of a `float`: the rounded square root, from a square root `sqrt` on `α`
(a parameter, since an ordered field need not have one); `NaN` on negative values. -/
def sqrt (rnd : α → KFloat α) (sqrt : α → α) : KFloat α → KFloat α
  | nan => nan
  | ninf => nan
  | pinf => pinf
  | fin x => if x < 0 then nan else rnd (sqrt x)

/-! ### The binary32 format

`round32 x` is the binary32 value nearest to the rational `x`, ties to the even significand:
24 significant bits, exponents from `-126` to `127`, subnormal values below `2 ^ (-126)`, and
an infinity when the rounded magnitude reaches `2 ^ 128`. -/

/-- The integer nearest to `r`, ties to the even one. -/
def roundHalfEven (r : ℚ) : ℤ :=
  if r - ⌊r⌋ < 1 / 2 then ⌊r⌋
  else if 1 / 2 < r - ⌊r⌋ then ⌊r⌋ + 1
  else if ⌊r⌋ % 2 = 0 then ⌊r⌋ else ⌊r⌋ + 1

/-- The exponent of the binade of a positive magnitude `a`: the greatest `e` with
`2 ^ e <= a`, kept between `-126` (subnormal values) and `127`. -/
def binade (a : ℚ) : ℤ := max (-126) (min 127 (Int.log 2 a))

/-- The rounding of IEEE binary32, round to nearest, ties to even. -/
def round32 (x : ℚ) : KFloat ℚ :=
  if x = 0 then fin 0
  else
    let q : ℚ := 2 ^ (binade |x| - 23)
    let n : ℤ := roundHalfEven (|x| / q)
    if (2 : ℚ) ^ (128 : ℤ) ≤ n * q then (if 0 < x then pinf else ninf)
    else fin (if 0 < x then n * q else -(n * q))

end KFloat

/-- Modelled from the spec: `KVector3D` (header `<KVector3D>`, not under `src/`), "a
3-component floating-point value with addition, subtraction, scalar division/multiplication,
dot product"; the default constructor gives the zero vector, as the accumulation
`centroid += ...` in `findAverageCentroid` relies on. -/
structure KVector3D (α : Type) where
  x : KFloat α
  y : KFloat α
  z : KFloat α
deriving DecidableEq, Repr

namespace KVector3D

variable {α : Type} [LinearOrderedField α]

/-- The default constructor `KVector3D()`. -/
def zero : KVector3D α := ⟨.fin 0, .fin 0, .fin 0⟩

/-- The setter `setX`. -/
def setX (v : KVector3D α) (a : KFloat α) : KVector3D α := { v with x := a }

/-- The setter `setY`. -/
def setY (v : KVector3D α) (a : KFloat α) : KVector3D α := { v with y := a }

/-- The setter `setZ`. -/
def setZ (v : KVector3D α) (a : KFloat α) : KVector3D α := { v with z := a }

/-- Componentwise `v + w` (also `v += w`). -/
def add (rnd : α → KFloat α) (v w : KVector3D α) : KVector3D α :=
  ⟨KFloat.add rnd v.x w.x, KFloat.add rnd v.y w.y, KFloat.add rnd v.z w.z⟩

/-- Componentwise `v - w`. -/
def sub (rnd : α → KFloat α) (v w : KVector3D α) : KVector3D α :=
  ⟨KFloat.sub rnd v.x w.x, KFloat.sub rnd v.y w.y, KFloat.sub rnd v.z w.z⟩

/-- The product `k * v` of a scalar and a vector. -/
def smul (rnd : α → KFloat α) (k : KFloat α) (v : KVector3D α) : KVector3D α :=
  ⟨KFloat.mul rnd k v.x, KFloat.mul rnd k v.y, KFloat.mul rnd k v.z⟩

/-- The quotient `v / k` of a vector by a scalar (also `v /= k`). -/
def divScalar (rnd : α → KFloat α) (v : KVector3D α) (k : KFloat α) : KVector3D α :=
  ⟨KFloat.div rnd v.x k, KFloat.div rnd v.y k, KFloat.div rnd v.z k⟩

/-- The static function `KVector3D::dotProduct`. -/
def dotProduct (rnd : α → KFloat α) (v w : KVector3D α) : KFloat α :=
  KFloat.add rnd (KFloat.add rnd (KFloat.mul rnd v.x w.x) (KFloat.mul rnd v.y w.y))
    (KFloat.mul rnd v.z w.z)

/-- Componentwise unary minus `-v`. -/
def neg (v : KVector3D α) : KVector3D α := ⟨KFloat.neg v.x, KFloat.neg v.y, KFloat.neg v.z⟩

/-- The method `length()`: the square root of `x*x + y*y + z*z`. -/
def length (rnd : α → KFloat α) (sqrt : α → α) (v : KVector3D α) : KFloat α :=
  KFloat.sqrt rnd sqrt
    (KFloat.add rnd (KFloat.add rnd (KFloat.mul rnd v.x v.x) (KFloat.mul rnd v.y v.y))
      (KFloat.mul rnd v.z v.z))

/-- The vector with the three given coordinates. -/
def ofCoords (a b c : α) : KVector3D α := ⟨.fin a, .fin b, .fin c⟩

/-- Whether every coordinate is finite. -/
def isFinite (v : KVector3D α) : Bool := v.x.isFinite && v.y.isFinite && v.z.isFinite

end KVector3D

/-- The struct `MinMax<T>`, fields in declaration order. -/
structure MinMax (T : Type) where
  max : T
  min : T
deriving DecidableEq, Repr

/-- The typedef `MinMaxKVector3D`. -/
abbrev MinMaxKVector3D (α : Type) := MinMax (KVector3D α)

/-- The typedef `MinMaxKVector3DContainer`. -/
abbrev MinMaxKVector3DContainer (α : Type) := List (MinMaxKVector3D α)

variable {α : Type} [LinearOrderedField α]

/-- The functor `DefaultAccessor<Val>`. -/
def DefaultAccessor {V : Type} (v : V) : V := v

/-- The functor `DefaultMutator<Val>`: keeps the point. -/
def DefaultMutator (v : KVector3D α) (_dotProd : KFloat α) (_axis : KVector3D α) :
    KVector3D α := v

/-- The functor `AxisMutator<Val>`: the projection `dotProd * axis`. -/
def AxisMutator (rnd : α → KFloat α) (_v : KVector3D α) (dotProd : KFloat α)
    (axis : KVector3D α) : KVector3D α := KVector3D.smul rnd dotProd axis

/-! ## `findMinMaxBounds` -/

/-- One iteration of the loop of `findMinMaxBounds` (the six `if` statements in order). -/
def findMinMaxBoundsStep (m : MinMaxKVector3D α) (vector : KVector3D α) : MinMaxKVector3D α :=
  let m := if KFloat.gt m.min.x vector.x then { m with min := m.min.setX vector.x } else m
  let m := if KFloat.gt m.min.y vector.y then { m with min := m.min.setY vector.y } else m
  let m := if KFloat.gt m.min.z vector.z then { m with min := m.min.setZ vector.z } else m
  let m := if KFloat.lt m.max.x vector.x then { m with max := m.max.setX vector.x } else m
  let m := if KFloat.lt m.max.y vector.y then { m with max := m.max.setY vector.y } else m
  let m := if KFloat.lt m.max.z vector.z then { m with max := m.max.setZ vector.z } else m
  m

/-- The function `Karma::findMinMaxBounds`. -/
def findMinMaxBounds {E : Type} (seq : List E) (accessor : E → KVector3D α) :
    MinMaxKVector3D α :=
  let m : MinMaxKVector3D α :=
    { min := ⟨KFloat.infinity, KFloat.infinity, KFloat.infinity⟩
      max := ⟨KFloat.neg KFloat.infinity, KFloat.neg KFloat.infinity,
        KFloat.neg KFloat.infinity⟩ }
  seq.foldl (fun m e => findMinMaxBoundsStep m (accessor e)) m

/-! ## Single-axis and multi-axis extremal queries -/

/-- The local variables of `findExtremalAlongAxis` that live across iterations. -/
structure ExtremalState (α : Type) where
  minProjDist : KFloat α
  maxProjDist : KFloat α
  maxMin : MinMaxKVector3D α

/-- One iteration of the loop of `findExtremalAlongAxis`, for the accessed point `vector`. -/
def findExtremalAlongAxisStep (rnd : α → KFloat α) (axis : KVector3D α)
    (mutator : KVector3D α → KFloat α → KVector3D α → KVector3D α)
    (s : ExtremalState α) (vector : KVector3D α) : ExtremalState α :=
  let signedDist := KVector3D.dotProduct rnd vector axis
  let s :=
    if KFloat.gt signedDist s.maxProjDist then
      { s with maxProjDist := signedDist
               maxMin := { s.maxMin with max := mutator vector signedDist axis } }
    else s
  let s :=
    if KFloat.lt signedDist s.minProjDist then
      { s with minProjDist := signedDist
               maxMin := { s.maxMin with min := mutator vector signedDist axis } }
    else s
  s

/-- The state of `findExtremalAlongAxis` when the loop is entered. -/
def findExtremalAlongAxisInit : ExtremalState α :=
  { minProjDist := KFloat.infinity
    maxProjDist := KFloat.neg KFloat.infinity
    maxMin := { max := KVector3D.zero, min := KVector3D.zero } }

/-- The function `Karma::findExtremalAlongAxis`. -/
def findExtremalAlongAxis (rnd : α → KFloat α) {E : Type} (seq : List E)
    (axis : KVector3D α) (accessor : E → KVector3D α)
    (mutator : KVector3D α → KFloat α → KVector3D α → KVector3D α) : MinMaxKVector3D α :=
  (seq.foldl (fun s e => findExtremalAlongAxisStep rnd axis mutator s (accessor e))
    findExtremalAlongAxisInit).maxMin

/-- The function `Karma::findExtremalPointsAlongAxis`. -/
def findExtremalPointsAlongAxis (rnd : α → KFloat α) {E : Type} (seq : List E)
    (axis : KVector3D α) (accessor : E → KVector3D α) : MinMaxKVector3D α :=
  findExtremalAlongAxis rnd seq axis accessor DefaultMutator

/-- The function `Karma::findExtremalProjectedPointsAlongAxis`. -/
def findExtremalProjectedPointsAlongAxis (rnd : α → KFloat α) {E : Type} (seq : List E)
    (axis : KVector3D α) (accessor : E → KVector3D α) : MinMaxKVector3D α :=
  findExtremalAlongAxis rnd seq axis accessor (AxisMutator rnd)

/-- The function `Karma::findExtremalAlongAxes`: `results.push_back` once per axis. -/
def findExtremalAlongAxes (rnd : α → KFloat α) {E A : Type} (vecs : List E)
    (axes : List A) (vAccessor : E → KVector3D α) (aAccessor : A → KVector3D α)
    (mutator : KVector3D α → KFloat α → KVector3D α → KVector3D α) :
    MinMaxKVector3DContainer α :=
  axes.foldl
    (fun results a =>
      results ++ [findExtremalAlongAxis rnd vecs (aAccessor a) vAccessor mutator])
    []

/-- The function `Karma::findExtremalPointsAlongAxes`. -/
def findExtremalPointsAlongAxes (rnd : α → KFloat α) {E A : Type} (vecs : List E)
    (axes : List A) (vAccessor : E → KVector3D α) (aAccessor : A → KVector3D α) :
    MinMaxKVector3DContainer α :=
  findExtremalAlongAxes rnd vecs axes vAccessor aAccessor DefaultMutator

/-- The function `Karma::findExtremalProjectedPointsAlongAxes`. -/
def findExtremalProjectedPointsAlongAxes (rnd : α → KFloat α) {E A : Type} (vecs : List E)
    (axes : List A) (vAccessor : E → KVector3D α) (aAccessor : A → KVector3D α) :
    MinMaxKVector3DContainer α :=
  findExtremalAlongAxes rnd vecs axes vAccessor aAccessor (AxisMutator rnd)

/-! ## `findAverageCentroid` -/

/-- The function `Karma::findAverageCentroid`. -/
def findAverageCentroid (rnd : α → KFloat α) {E : Type} (seq : List E)
    (accessor : E → KVector3D α) : KVector3D α :=
  let count := seq.length
  let centroid := seq.foldl (fun c e => KVector3D.add rnd c (accessor e)) KVector3D.zero
  KVector3D.divScalar rnd centroid (KFloat.ofCount rnd count)

/-! ## `covarianceMatrix` -/

/-- Modelled from the spec: `KMatrix3x3` (header `<KMatrix3x3>`, not under `src/`), "a 3x3
floating-point matrix supporting indexed element access": `m i j` is the element `m[i][j]`. -/
abbrev KMatrix3x3 (α : Type) := Fin 3 → Fin 3 → KFloat α

/-- The assignment `m[i][j] = v`. -/
def KMatrix3x3.set (m : KMatrix3x3 α) (i j : Fin 3) (v : KFloat α) : KMatrix3x3 α :=
  fun a b => if a = i ∧ b = j then v else m a b

/-- The six accumulators `e00, e11, e22, e01, e02, e12` of `covarianceMatrix`. -/
structure CovarianceSums (α : Type) where
  e00 : KFloat α
  e11 : KFloat α
  e22 : KFloat α
  e01 : KFloat α
  e02 : KFloat α
  e12 : KFloat α

/-- One iteration of the second loop of `covarianceMatrix`, for the accessed point `v`. -/
def covarianceMatrixStep (rnd : α → KFloat α) (center : KVector3D α) (e : CovarianceSums α)
    (v : KVector3D α) : CovarianceSums α :=
  let vCentered := KVector3D.sub rnd v center
  { e00 := KFloat.add rnd e.e00 (KFloat.mul rnd vCentered.x vCentered.x)
    e11 := KFloat.add rnd e.e11 (KFloat.mul rnd vCentered.y vCentered.y)
    e22 := KFloat.add rnd e.e22 (KFloat.mul rnd vCentered.z vCentered.z)
    e01 := KFloat.add rnd e.e01 (KFloat.mul rnd vCentered.x vCentered.y)
    e02 := KFloat.add rnd e.e02 (KFloat.mul rnd vCentered.x vCentered.z)
    e12 := KFloat.add rnd e.e12 (KFloat.mul rnd vCentered.y vCentered.z) }

/-- The function `Karma::covarianceMatrix`.  The value `covariance0` is the default-constructed
`KMatrix3x3 covariance`, whose constructor is not under `src/`; all nine of its elements are
assigned before it is returned. -/
def covarianceMatrix (rnd : α → KFloat α) {E : Type} (covariance0 : KMatrix3x3 α)
    (seq : List E) (accessor : E → KVector3D α) : KMatrix3x3 α :=
  let count := seq.length
  let k := KFloat.div rnd (.fin 1) (KFloat.ofCount rnd count)
  -- Calculate average center
  let center := seq.foldl (fun c e => KVector3D.add rnd c (accessor e)) KVector3D.zero
  let center := KVector3D.divScalar rnd center (KFloat.ofCount rnd count)
  -- Calculate covariance matrix
  let e := seq.foldl (fun e p => covarianceMatrixStep rnd center e (accessor p))
    ⟨.fin 0, .fin 0, .fin 0, .fin 0, .fin 0, .fin 0⟩
  -- Apply scale to whole matrix
  let covariance := covariance0
  let covariance := covariance.set 0 0 (KFloat.mul rnd k e.e00)
  let covariance := covariance.set 1 1 (KFloat.mul rnd k e.e11)
  let covariance := covariance.set 2 2 (KFloat.mul rnd k e.e22)
  let covariance :=
    (covariance.set 1 0 (KFloat.mul rnd k e.e01)).set 0 1 (KFloat.mul rnd k e.e01)
  let covariance :=
    (covariance.set 2 0 (KFloat.mul rnd k e.e02)).set 0 2 (KFloat.mul rnd k e.e02)
  let covariance :=
    (covariance.set 2 1 (KFloat.mul rnd k e.e12)).set 1 2 (KFloat.mul rnd k e.e12)
  covariance

/-! ## `maxSeperatedAlongAxis` -/

/-- The variables of `maxSeperatedAlongAxis` that live across iterations: the two running
projections and the two output cells `*min` and `*max`. -/
structure SeparatedState (α : Type) where
  maxProjDist : KFloat α
  minProjDist : KFloat α
  min : KVector3D α
  max : KVector3D α

/-- One iteration of the loop of `maxSeperatedAlongAxis`, for the accessed point `p`. -/
def maxSeperatedAlongAxisStep (rnd : α → KFloat α) (axis : KVector3D α)
    (s : SeparatedState α) (p : KVector3D α) : SeparatedState α :=
  let sDist := KVector3D.dotProduct rnd p axis
  let s := if KFloat.gt sDist s.maxProjDist then { s with maxProjDist := sDist, max := p } else s
  let s := if KFloat.lt sDist s.minProjDist then { s with minProjDist := sDist, min := p } else s
  s

/-- The function `Karma::maxSeperatedAlongAxis`: `min0` and `max0` are the contents of the
output cells `*min` and `*max` before the call, the result is their contents `(*min, *max)`
after it. -/
def maxSeperatedAlongAxis (rnd : α → KFloat α) {E : Type} (seq : List E)
    (f : E → KVector3D α) (axis : KVector3D α) (min0 max0 : KVector3D α) :
    KVector3D α × KVector3D α :=
  let s := seq.foldl (fun s e => maxSeperatedAlongAxisStep rnd axis s (f e))
    { maxProjDist := KFloat.neg KFloat.infinity, minProjDist := KFloat.infinity,
      min := min0, max := max0 }
  (s.min, s.max)

/-! ## `calculateCentroid` -/

/-- The four local arrays of `calculateCentroid<N>`. -/
structure CentroidState (α : Type) (N : Nat) where
  maximum : Fin N → KVector3D α
  minimum : Fin N → KVector3D α
  maxProjDist : Fin N → KFloat α
  minProjDist : Fin N → KFloat α

/-- The arrays of `calculateCentroid<N>` when the projection loop is entered: `maximum` and
`minimum` default-constructed, every `maxProjDist[i]` at `-infinity` and every
`minProjDist[i]` at `infinity` (the base-case loop assigns every index below `N`). -/
def calculateCentroidInit (N : Nat) : CentroidState α N :=
  { maximum := fun _ => KVector3D.zero
    minimum := fun _ => KVector3D.zero
    maxProjDist := fun _ => KFloat.neg KFloat.infinity
    minProjDist := fun _ => KFloat.infinity }

/-- The body of the inner loop `for (i = 0; i < N; ++i)` of `calculateCentroid<N>`, for the
accessed point `p` and the index `i`. -/
def calculateCentroidAxisStep (rnd : α → KFloat α) {N : Nat} (axes : Fin N → KVector3D α)
    (p : KVector3D α) (s : CentroidState α N) (i : Fin N) : CentroidState α N :=
  let sDist := KVector3D.dotProduct rnd p (axes i)
  let s :=
    if KFloat.gt sDist (s.maxProjDist i) then
      { s with maxProjDist := Function.update s.maxProjDist i sDist
               maximum := Function.update s.maximum i (KVector3D.smul rnd sDist (axes i)) }
    else s
  let s :=
    if KFloat.lt sDist (s.minProjDist i) then
      { s with minProjDist := Function.update s.minProjDist i sDist
               minimum := Function.update s.minimum i (KVector3D.smul rnd sDist (axes i)) }
    else s
  s

/-- One iteration of the projection loop of `calculateCentroid<N>`: the inner loop over all
`N` indices for the accessed point `p`. -/
def calculateCentroidPointStep (rnd : α → KFloat α) {N : Nat} (axes : Fin N → KVector3D α)
    (s : CentroidState α N) (p : KVector3D α) : CentroidState α N :=
  (List.finRange N).foldl (calculateCentroidAxisStep rnd axes p) s

/-- One iteration of the last loop of `calculateCentroid<N>`, for the index `i` (which runs
over `0, 1, 2` whatever `N` is): it assigns `extents[i]` and adds to `centroid`.  For
`i >= N` the iteration reads `maximum[i]` past the end of the array, which has no defined
result: `none`. -/
def calculateCentroidFinalStep (rnd : α → KFloat α) (sqrt : α → α) {N : Nat}
    (s : CentroidState α N) (r : KVector3D α × (Fin N → KFloat α)) (i : Nat) :
    Option (KVector3D α × (Fin N → KFloat α)) :=
  if h : i < N then
    let extents := Function.update r.2 ⟨i, h⟩
      (KVector3D.length rnd sqrt (KVector3D.sub rnd (s.maximum ⟨i, h⟩) (s.minimum ⟨i, h⟩)))
    let centroid := KVector3D.add rnd r.1
      (KVector3D.divScalar rnd (KVector3D.add rnd (s.maximum ⟨i, h⟩) (s.minimum ⟨i, h⟩))
        (.fin 2))
    some (centroid, extents)
  else none

/-- The function `Karma::calculateCentroid<N>`: `extents` is the content of the output array
before the call; the result is the returned centroid with the content of `extents` after the
call, or `none` when the call reads past the end of its arrays. -/
def calculateCentroid (rnd : α → KFloat α) (sqrt : α → α) {E : Type} (N : Nat)
    (seq : List E) (f : E → KVector3D α) (axes : Fin N → KVector3D α)
    (extents : Fin N → KFloat α) : Option (KVector3D α × (Fin N → KFloat α)) :=
  -- Project all points onto each axis, store min/max projections.
  let s := seq.foldl (fun s e => calculateCentroidPointStep rnd axes s (f e))
    (calculateCentroidInit N)
  -- Calculate the centroid via the min/max of axes
  [0, 1, 2].foldlM (calculateCentroidFinalStep rnd sqrt s)
    (KVector3D.ofCoords 0 0 0, extents)

/-! ## Reference definitions for the statements

These follow the wording of the specification; the theorems below compare them with the
embedded functions. -/

/-- Component `i` of a vector: `x`, `y`, `z` for `i = 0, 1, 2`. -/
def KVector3D.coord (v : KVector3D α) (i : Fin 3) : KFloat α :=
  match i with
  | 0 => v.x
  | 1 => v.y
  | 2 => v.z

/-- The arithmetic mean of component `i` of the accessed points: their exact sum over their
number. -/
def meanCoord {E : Type} (seq : List E) (accessor : E → KVector3D α) (i : Fin 3) : α :=
  (seq.map fun e => ((accessor e).coord i).value).sum / (seq.length : α)

/-- The population covariance of components `i` and `j` about the mean:
`(1/n) * sum of (p[i] - m[i]) * (p[j] - m[j])` over the accessed points `p`. -/
def covarianceSpec {E : Type} (seq : List E) (accessor : E → KVector3D α) (i j : Fin 3) : α :=
  1 / (seq.length : α) *
    (seq.map fun e =>
      (((accessor e).coord i).value - meanCoord seq accessor i) *
        (((accessor e).coord j).value - meanCoord seq accessor j)).sum

/-- The entries at index `i` of the four arrays of `calculateCentroid<N>`, seen as the state
of the single-axis query on `axes[i]`. -/
def CentroidState.axisState {N : Nat} (s : CentroidState α N) (i : Fin N) : ExtremalState α :=
  { minProjDist := s.minProjDist i
    maxProjDist := s.maxProjDist i
    maxMin := { max := s.maximum i, min := s.minimum i } }

/-- The term `(max + min) / 2` that the last loop of `calculateCentroid<N>` adds for one
axis. -/
def axisMidpoint (rnd : α → KFloat α) (q : MinMaxKVector3D α) : KVector3D α :=
  KVector3D.divScalar rnd (KVector3D.add rnd q.max q.min) (.fin 2)

/-- The distance `(max - min).length()` between the two extremes of one axis. -/
def axisExtent (rnd : α → KFloat α) (sqrt : α → α) (q : MinMaxKVector3D α) : KFloat α :=
  KVector3D.length rnd sqrt (KVector3D.sub rnd q.max q.min)

/-- The two points `(1,0,0)` and `(-1,0,0)`, symmetric about the origin along the x axis. -/
def samplePoints : List (KVector3D ℚ) :=
  [KVector3D.ofCoords 1 0 0, KVector3D.ofCoords (-1) 0 0]

/-- The axis `(1,0,0)`. -/
def sampleAxis : KVector3D ℚ := KVector3D.ofCoords 1 0 0

/-- Three points of which the first two have the same, greatest, projection on the x axis. -/
def tiePoints : List (KVector3D ℚ) :=
  [KVector3D.ofCoords 1 0 0, KVector3D.ofCoords 1 5 0, KVector3D.ofCoords (-1) 0 0]

/-- The three coordinate axes `(1,0,0)`, `(0,1,0)`, `(0,0,1)`. -/
def unitAxes (i : Fin 3) : KVector3D ℚ :=
  match i with
  | 0 => KVector3D.ofCoords 1 0 0
  | 1 => KVector3D.ofCoords 0 1 0
  | 2 => KVector3D.ofCoords 0 0 1

/-- The two points `(1,2,3)` and `(3,0,1)`, opposite corners of a box centred at `(2,1,2)`. -/
def boxPoints : List (KVector3D ℚ) :=
  [KVector3D.ofCoords 1 2 3, KVector3D.ofCoords 3 0 1]

/-- The point `(2^127, 0, 0)`, whose first coordinate is a binary32 value of the greatest
binade. -/
def hugePoint : KVector3D ℚ := KVector3D.ofCoords (2 ^ 127) 0 0

/-- The point `(2^127, 1, 0)`. -/
def hugePoint2 : KVector3D ℚ := KVector3D.ofCoords (2 ^ 127) 1 0

/-- The point `(2^127, 2^127, 0)`. -/
def hugeDiagonal : KVector3D ℚ := KVector3D.ofCoords (2 ^ 127) (2 ^ 127) 0

/-- The axis `(2,0,0)`. -/
def doubleAxis : KVector3D ℚ := KVector3D.ofCoords 2 0 0

/-- The axis `(1,1,0)`. -/
def diagonalAxis : KVector3D ℚ := KVector3D.ofCoords 1 1 0

/-- The two points `(2^24, 0, 0)` and `(2^24, 1, 0)`: their exact projections on `(1,1,0)`
are `2^24` and `2^24 + 1`, and the second one is not a binary32 value. -/
def roundingTiePoints : List (KVector3D ℚ) :=
  [KVector3D.ofCoords 16777216 0 0, KVector3D.ofCoords 16777216 1 0]

end Karma

/-! ## The buffer wrapper (`src/OpenGL/opengldynamicbuffer.h`)

Values of type `size_t` are natural numbers below `2 ^ w`, with `w` the width of `size_t`;
products are reduced modulo `2 ^ w`. -/

/-- Modelled from the spec: the base class `OpenGLBuffer` (header `<OpenGLBuffer>`, not under
`src/`), as far as `reserve` uses it: whether the buffer is created and its size in bytes. -/
structure OpenGLBuffer where
  created : Bool
  size : Nat
deriving DecidableEq, Repr

/-- Modelled from the spec: `OpenGLBuffer::isCreated()`. -/
def OpenGLBuffer.isCreated (b : OpenGLBuffer) : Bool := b.created

/-- Modelled from the spec: `OpenGLBuffer::allocate(count)`, after which the buffer is
created with `count` bytes of storage. -/
def OpenGLBuffer.allocate (_b : OpenGLBuffer) (count : Nat) : OpenGLBuffer :=
  { created := true, size := count }

/-- The method `OpenGLDynamicBuffer<T>::reserve`, with `elementSize = sizeof(T)`. -/
def OpenGLDynamicBuffer.reserve (w elementSize : Nat) (b : OpenGLBuffer) (elements : Nat) :
    OpenGLBuffer :=
  let sizeInBytes := (elementSize * elements) % 2 ^ w
  if !b.isCreated || b.size < sizeInBytes then b.allocate sizeInBytes else b

/-- The method `OpenGLDynamicBuffer<T>::mapRange`, with `elementSize = sizeof(T)`.  The
function `baseMapRange` is `OpenGLBuffer::mapRange(offset, length, access)` of the base class
(not under `src/`); the `static_cast` of its result does not change the address. -/
def OpenGLDynamicBuffer.mapRange {F P : Type} (w elementSize : Nat)
    (baseMapRange : Nat → Nat → F → P) (offset count : Nat) (access : F) : P :=
  baseMapRange offset ((elementSize * count) % 2 ^ w) access

namespace Karma

/-! ## The binary32 rounding at the values used below -/

namespace KFloat

theorem log2_eq (a : ℚ) (e : ℤ) (ha : 0 < a) (h1 : (2 : ℚ) ^ e ≤ a)
    (h2 : a < (2 : ℚ) ^ (e + 1)) : Int.log 2 a = e := by
  have h3 := (Int.zpow_le_iff_le_log (R := ℚ) (b := 2) (by norm_num) ha).mp
    (by exact_mod_cast h1)
  have h4 := (Int.lt_zpow_iff_log_lt (R := ℚ) (b := 2) (by norm_num) ha).mp
    (by exact_mod_cast h2)
  omega

theorem round32_zero : round32 0 = fin 0 := by
  simp [round32]

theorem round32_one : round32 1 = fin 1 := by
  have hb : binade |(1 : ℚ)| = 0 := by
    rw [binade, log2_eq _ 0 (by norm_num) (by norm_num) (by norm_num)]; rfl
  simp only [round32, hb]
  norm_num [roundHalfEven]

theorem round32_neg_one : round32 (-1) = fin (-1) := by
  have hb : binade |(-1 : ℚ)| = 0 := by
    rw [binade, log2_eq _ 0 (by norm_num) (by norm_num) (by norm_num)]; rfl
  simp only [round32, hb]
  norm_num [roundHalfEven]

theorem round32_two : round32 2 = fin 2 := by
  have hb : binade |(2 : ℚ)| = 1 := by
    rw [binade, log2_eq _ 1 (by norm_num) (by norm_num) (by norm_num)]; rfl
  simp only [round32, hb]
  norm_num [roundHalfEven]

theorem round32_half : round32 (1 / 2) = fin (1 / 2) := by
  have ha : |(1 / 2 : ℚ)| = 1 / 2 := abs_of_pos (by norm_num)
  have hb : binade (1 / 2 : ℚ) = -1 := by
    rw [binade, log2_eq _ (-1) (by norm_num) (by norm_num) (by norm_num)]; rfl
  simp only [round32, ha, hb]
  norm_num [roundHalfEven]

theorem round32_two_pow_127 : round32 (2 ^ 127) = fin (2 ^ 127) := by
  have hb : binade |(2 : ℚ) ^ 127| = 127 := by
    rw [binade, log2_eq _ 127 (by positivity) (by norm_num) (by norm_num)]; rfl
  simp only [round32, hb]
  norm_num [roundHalfEven]

theorem round32_two_pow_128 : round32 (2 ^ 128) = pinf := by
  have hb : binade |(2 : ℚ) ^ 128| = 127 := by
    rw [binade, log2_eq _ 128 (by positivity) (by norm_num) (by norm_num)]; rfl
  simp only [round32, hb]
  norm_num [roundHalfEven]

/-- Rounding at work: `1/3` is not a binary32 value, and `2^24 + 1` lies halfway between two
of them and goes to the even one. -/
theorem round32_third : round32 (1 / 3) = fin (11184811 / 33554432) := by
  have ha : |(1 / 3 : ℚ)| = 1 / 3 := abs_of_pos (by norm_num)
  have hb : binade (1 / 3 : ℚ) = -2 := by
    rw [binade, log2_eq _ (-2) (by norm_num) (by norm_num) (by norm_num)]; rfl
  have hq : (1 / 3 : ℚ) / 2 ^ (-2 - 23 : ℤ) = 33554432 / 3 := by norm_num
  have hf : ⌊(33554432 / 3 : ℚ)⌋ = 11184810 := by
    rw [Int.floor_eq_iff]; norm_num
  simp only [round32, ha, hb, roundHalfEven, hq, hf]
  norm_num

theorem round32_tie : round32 16777217 = fin 16777216 := by
  have hb : binade |(16777217 : ℚ)| = 24 := by
    rw [binade, log2_eq _ 24 (by norm_num) (by norm_num) (by norm_num)]; rfl
  simp only [round32, hb]
  norm_num [roundHalfEven]

end KFloat

/-! ## Running minima and maxima -/

section Lists

variable {α : Type} [LinearOrderedField α]

theorem foldl_min_le_init (xs : List α) (a : α) : xs.foldl min a ≤ a := by
  induction xs generalizing a with
  | nil => simp
  | cons x xs ih => exact le_trans (ih (min a x)) (min_le_left a x)

theorem foldl_min_le_of_mem (xs : List α) (a x : α) (hx : x ∈ xs) : xs.foldl min a ≤ x := by
  induction xs generalizing a with
  | nil => simp at hx
  | cons y ys ih =>
    rcases List.mem_cons.mp hx with h | h
    · subst h
      exact le_trans (foldl_min_le_init ys (min a x)) (min_le_right a x)
    · exact ih (min a y) h

theorem le_foldl_max_init (xs : List α) (a : α) : a ≤ xs.foldl max a := by
  induction xs generalizing a with
  | nil => simp
  | cons x xs ih => exact le_trans (le_max_left a x) (ih (max a x))

theorem le_foldl_max_of_mem (xs : List α) (a x : α) (hx : x ∈ xs) : x ≤ xs.foldl max a := by
  induction xs generalizing a with
  | nil => simp at hx
  | cons y ys ih =>
    rcases List.mem_cons.mp hx with h | h
    · subst h
      exact le_trans (le_max_right a x) (le_foldl_max_init ys (max a x))
    · exact ih (max a y) h

end Lists

namespace KFloat

variable {α : Type} [LinearOrderedField α]

@[simp] theorem lt_fin_fin (x y : α) : lt (fin x) (fin y) = decide (x < y) := rfl

@[simp] theorem lt_fin_pinf (x : α) : lt (fin x) (pinf : KFloat α) = true := rfl

@[simp] theorem lt_ninf_fin (x : α) : lt (ninf : KFloat α) (fin x) = true := rfl

@[simp] theorem le_fin_fin (x y : α) : le (fin x) (fin y) = decide (x ≤ y) := by
  simp only [le, lt, eq]
  by_cases h : x ≤ y
  · rcases lt_or_eq_of_le h with h1 | h1 <;> simp [h, h1]
  · have h1 : ¬ x < y := fun h2 => h (le_of_lt h2)
    have h2 : ¬ x = y := fun h2 => h (le_of_eq h2)
    simp [h, h1, h2]

@[simp] theorem add_fin_fin (rnd : α → KFloat α) (x y : α) :
    add rnd (fin x) (fin y) = rnd (x + y) := rfl

@[simp] theorem sub_fin_fin (rnd : α → KFloat α) (x y : α) :
    sub rnd (fin x) (fin y) = rnd (x - y) := by
  simp [sub, neg, add, sub_eq_add_neg]

@[simp] theorem mul_fin_fin (rnd : α → KFloat α) (x y : α) :
    mul rnd (fin x) (fin y) = rnd (x * y) := rfl

theorem div_fin_fin (rnd : α → KFloat α) (x y : α) (hy : y ≠ 0) :
    div rnd (fin x) (fin y) = rnd (x / y) := by
  simp [div, hy]

theorem eq_fin_of_isFinite {a : KFloat α} (h : a.isFinite = true) : a = fin a.value := by
  cases a <;> simp_all [isFinite, value]

theorem runMin_fin (a : α) (xs : List α) :
    runMin (fin a) (xs.map fin) = fin (xs.foldl min a) := by
  induction xs generalizing a with
  | nil => rfl
  | cons x xs ih =>
    have h : (if gt (fin a) (fin x) then fin x else fin a) = fin (min a x) := by
      by_cases hx : x < a
      · simp [gt, hx, min_eq_right (le_of_lt hx)]
      · simp [gt, hx, min_eq_left (not_lt.mp hx)]
    simp only [runMin, List.map_cons, List.foldl_cons, h]
    exact ih (min a x)

theorem runMax_fin (a : α) (xs : List α) :
    runMax (fin a) (xs.map fin) = fin (xs.foldl max a) := by
  induction xs generalizing a with
  | nil => rfl
  | cons x xs ih =>
    have h : (if lt (fin a) (fin x) then fin x else fin a) = fin (max a x) := by
      by_cases hx : a < x
      · simp [hx, max_eq_right (le_of_lt hx)]
      · simp [hx, max_eq_left (not_lt.mp hx)]
    simp only [runMax, List.map_cons, List.foldl_cons, h]
    exact ih (max a x)

theorem runMin_pinf_cons (x : α) (xs : List α) :
    runMin pinf (fin x :: xs.map fin) = fin (xs.foldl min x) := by
  have h : runMin pinf (fin x :: xs.map fin) = runMin (fin x) (xs.map fin) := by
    simp [runMin, gt]
  rw [h, runMin_fin]

theorem runMax_ninf_cons (x : α) (xs : List α) :
    runMax ninf (fin x :: xs.map fin) = fin (xs.foldl max x) := by
  have h : runMax ninf (fin x :: xs.map fin) = runMax (fin x) (xs.map fin) := by
    simp [runMax]
  rw [h, runMax_fin]

end KFloat

/-! ## `findMinMaxBounds`: the box contains the points -/

section Bounds

variable {α : Type} [LinearOrderedField α]

theorem findMinMaxBoundsStep_eq (m : MinMaxKVector3D α) (v : KVector3D α) :
    findMinMaxBoundsStep m v =
      { min := ⟨if KFloat.gt m.min.x v.x then v.x else m.min.x,
                if KFloat.gt m.min.y v.y then v.y else m.min.y,
                if KFloat.gt m.min.z v.z then v.z else m.min.z⟩
        max := ⟨if KFloat.lt m.max.x v.x then v.x else m.max.x,
                if KFloat.lt m.max.y v.y then v.y else m.max.y,
                if KFloat.lt m.max.z v.z then v.z else m.max.z⟩ } := by
  obtain ⟨⟨a, b, c⟩, ⟨d, e, f⟩⟩ := m
  cases h1 : KFloat.gt d v.x <;> cases h2 : KFloat.gt e v.y <;> cases h3 : KFloat.gt f v.z <;>
    cases h4 : KFloat.lt a v.x <;> cases h5 : KFloat.lt b v.y <;> cases h6 : KFloat.lt c v.z <;>
    simp [findMinMaxBoundsStep, KVector3D.setX, KVector3D.setY, KVector3D.setZ,
      h1, h2, h3, h4, h5, h6]

theorem findMinMaxBounds_foldl {E : Type} (seq : List E) (accessor : E → KVector3D α)
    (m : MinMaxKVector3D α) :
    seq.foldl (fun m e => findMinMaxBoundsStep m (accessor e)) m =
      { min := ⟨KFloat.runMin m.min.x (seq.map fun e => (accessor e).x),
                KFloat.runMin m.min.y (seq.map fun e => (accessor e).y),
                KFloat.runMin m.min.z (seq.map fun e => (accessor e).z)⟩
        max := ⟨KFloat.runMax m.max.x (seq.map fun e => (accessor e).x),
                KFloat.runMax m.max.y (seq.map fun e => (accessor e).y),
                KFloat.runMax m.max.z (seq.map fun e => (accessor e).z)⟩ } := by
  induction seq generalizing m with
  | nil => rfl
  | cons e es ih =>
    rw [List.foldl_cons, ih, findMinMaxBoundsStep_eq]
    rfl

theorem KFloat.map_eq_map_fin (l : List (KFloat α)) (hfin : ∀ v ∈ l, v.isFinite = true) :
    l = (l.map KFloat.value).map KFloat.fin := by
  induction l with
  | nil => rfl
  | cons v vs ih =>
    have hv := KFloat.eq_fin_of_isFinite (hfin v (List.mem_cons_self v vs))
    have hvs := ih (fun w hw => hfin w (List.mem_cons_of_mem v hw))
    simp only [List.map_cons]
    rw [← hvs, ← hv]

theorem KFloat.runMin_runMax_spec (l : List (KFloat α)) (hne : l ≠ [])
    (hfin : ∀ v ∈ l, v.isFinite = true) :
    KFloat.le (KFloat.runMin .pinf l) (KFloat.runMax .ninf l) = true ∧
      ∀ v ∈ l, KFloat.le (KFloat.runMin .pinf l) v = true ∧
        KFloat.le v (KFloat.runMax .ninf l) = true := by
  rw [KFloat.map_eq_map_fin l hfin]
  cases h : l.map KFloat.value with
  | nil => simp at h; exact absurd h hne
  | cons x xs =>
    simp only [List.map_cons]
    rw [KFloat.runMin_pinf_cons, KFloat.runMax_ninf_cons]
    refine ⟨?_, ?_⟩
    · simpa using le_trans (foldl_min_le_init xs x) (le_foldl_max_init xs x)
    · intro v hv
      rcases List.mem_cons.mp hv with hv | hv
      · subst hv
        simpa using ⟨foldl_min_le_init xs x, le_foldl_max_init xs x⟩
      · obtain ⟨y, hy, rfl⟩ := List.mem_map.mp hv
        simpa using ⟨foldl_min_le_of_mem xs x y hy, le_foldl_max_of_mem xs x y hy⟩

omit [LinearOrderedField α] in
theorem KVector3D.isFinite_iff (v : KVector3D α) :
    v.isFinite = true ↔
      v.x.isFinite = true ∧ v.y.isFinite = true ∧ v.z.isFinite = true := by
  simp [KVector3D.isFinite, and_assoc]

/-- C1: for a non-empty sequence whose accessed points have exact coordinates, the box
returned by `findMinMaxBounds` has `min <= max` in each of the components x, y and z, and
every accessed point lies between `min` and `max` in each component. -/
theorem findMinMaxBounds_contains {E : Type} (seq : List E) (accessor : E → KVector3D α)
    (hne : seq ≠ []) (hfin : ∀ e ∈ seq, (accessor e).isFinite = true) :
    (KFloat.le (findMinMaxBounds seq accessor).min.x (findMinMaxBounds seq accessor).max.x = true ∧
      KFloat.le (findMinMaxBounds seq accessor).min.y (findMinMaxBounds seq accessor).max.y = true ∧
      KFloat.le (findMinMaxBounds seq accessor).min.z (findMinMaxBounds seq accessor).max.z = true) ∧
    ∀ e ∈ seq,
      (KFloat.le (findMinMaxBounds seq accessor).min.x (accessor e).x = true ∧
        KFloat.le (accessor e).x (findMinMaxBounds seq accessor).max.x = true) ∧
      (KFloat.le (findMinMaxBounds seq accessor).min.y (accessor e).y = true ∧
        KFloat.le (accessor e).y (findMinMaxBounds seq accessor).max.y = true) ∧
      (KFloat.le (findMinMaxBounds seq accessor).min.z (accessor e).z = true ∧
        KFloat.le (accessor e).z (findMinMaxBounds seq accessor).max.z = true) := by
  have key : ∀ c : KVector3D α → KFloat α,
      (∀ v : KVector3D α, v.isFinite = true → (c v).isFinite = true) →
      KFloat.le (KFloat.runMin .pinf (seq.map fun e => c (accessor e)))
          (KFloat.runMax .ninf (seq.map fun e => c (accessor e))) = true ∧
        ∀ e ∈ seq,
          KFloat.le (KFloat.runMin .pinf (seq.map fun e => c (accessor e))) (c (accessor e)) = true ∧
          KFloat.le (c (accessor e)) (KFloat.runMax .ninf (seq.map fun e => c (accessor e))) = true := by
    intro c hc
    have h := KFloat.runMin_runMax_spec (seq.map fun e => c (accessor e))
      (by simpa using hne)
      (by
        intro v hv
        obtain ⟨e, he, rfl⟩ := List.mem_map.mp hv
        exact hc _ (hfin e he))
    exact ⟨h.1, fun e he => h.2 _ (List.mem_map.mpr ⟨e, he, rfl⟩)⟩
  have hx := key KVector3D.x (fun v hv => ((KVector3D.isFinite_iff v).mp hv).1)
  have hy := key KVector3D.y (fun v hv => ((KVector3D.isFinite_iff v).mp hv).2.1)
  have hz := key KVector3D.z (fun v hv => ((KVector3D.isFinite_iff v).mp hv).2.2)
  simp only [findMinMaxBounds, findMinMaxBounds_foldl, KFloat.infinity, KFloat.neg]
  exact ⟨⟨hx.1, hy.1, hz.1⟩, fun e he => ⟨hx.2 e he, hy.2 e he, hz.2 e he⟩⟩

/-- C1, at the two points `(0,5,-1)` and `(2,3,4)` over the rationals. -/
theorem findMinMaxBounds_contains_witness :
    ([KVector3D.ofCoords (0 : ℚ) 5 (-1), KVector3D.ofCoords 2 3 4] ≠ [] ∧
      ∀ e ∈ [KVector3D.ofCoords (0 : ℚ) 5 (-1), KVector3D.ofCoords 2 3 4],
        (DefaultAccessor e).isFinite = true) ∧
    ((KFloat.le
        (findMinMaxBounds [KVector3D.ofCoords (0 : ℚ) 5 (-1), KVector3D.ofCoords 2 3 4]
          DefaultAccessor).min.x
        (findMinMaxBounds [KVector3D.ofCoords (0 : ℚ) 5 (-1), KVector3D.ofCoords 2 3 4]
          DefaultAccessor).max.x = true) ∧
      (findMinMaxBounds [KVector3D.ofCoords (0 : ℚ) 5 (-1), KVector3D.ofCoords 2 3 4]
          DefaultAccessor) =
        { min := KVector3D.ofCoords 0 3 (-1), max := KVector3D.ofCoords 2 5 4 }) := by
  have hne : [KVector3D.ofCoords (0 : ℚ) 5 (-1), KVector3D.ofCoords 2 3 4] ≠ [] := by simp
  have hfin : ∀ e ∈ [KVector3D.ofCoords (0 : ℚ) 5 (-1), KVector3D.ofCoords 2 3 4],
      (DefaultAccessor e).isFinite = true := by
    intro e he
    simp only [List.mem_cons, List.mem_singleton, List.not_mem_nil, or_false] at he
    rcases he with rfl | rfl <;> rfl
  refine ⟨⟨hne, hfin⟩, (findMinMaxBounds_contains _ _ hne hfin).1.1, ?_⟩
  simp only [findMinMaxBounds, findMinMaxBounds_foldl, KFloat.infinity, KFloat.neg]
  norm_num [KFloat.runMin, KFloat.runMax, KVector3D.ofCoords, DefaultAccessor, KFloat.gt]

end Bounds

/-! ## `findExtremalAlongAxis`: the loop invariant -/

section Extremal

variable {α : Type} [LinearOrderedField α] {rnd : α → KFloat α}

theorem findExtremalAlongAxisStep_eq (axis : KVector3D α)
    (mutator : KVector3D α → KFloat α → KVector3D α → KVector3D α)
    (s : ExtremalState α) (v : KVector3D α) :
    findExtremalAlongAxisStep rnd axis mutator s v =
      { minProjDist :=
          if KFloat.lt (KVector3D.dotProduct rnd v axis) s.minProjDist then KVector3D.dotProduct rnd v axis
          else s.minProjDist
        maxProjDist :=
          if KFloat.gt (KVector3D.dotProduct rnd v axis) s.maxProjDist then KVector3D.dotProduct rnd v axis
          else s.maxProjDist
        maxMin :=
          { max :=
              if KFloat.gt (KVector3D.dotProduct rnd v axis) s.maxProjDist then
                mutator v (KVector3D.dotProduct rnd v axis) axis
              else s.maxMin.max
            min :=
              if KFloat.lt (KVector3D.dotProduct rnd v axis) s.minProjDist then
                mutator v (KVector3D.dotProduct rnd v axis) axis
              else s.maxMin.min } } := by
  obtain ⟨a, b, ⟨c, d⟩⟩ := s
  cases h1 : KFloat.gt (KVector3D.dotProduct rnd v axis) b <;>
    cases h2 : KFloat.lt (KVector3D.dotProduct rnd v axis) a <;>
    simp [findExtremalAlongAxisStep, h1, h2]

/-- In exact arithmetic the projection of a finite point on a finite axis is finite. -/
theorem KVector3D.dotProduct_finite (v w : KVector3D α) (hv : v.isFinite = true)
    (hw : w.isFinite = true) :
    KVector3D.dotProduct KFloat.fin v w =
      .fin (v.x.value * w.x.value + v.y.value * w.y.value + v.z.value * w.z.value) := by
  obtain ⟨hv1, hv2, hv3⟩ := (KVector3D.isFinite_iff v).mp hv
  obtain ⟨hw1, hw2, hw3⟩ := (KVector3D.isFinite_iff w).mp hw
  unfold KVector3D.dotProduct
  rw [KFloat.eq_fin_of_isFinite hv1, KFloat.eq_fin_of_isFinite hv2,
    KFloat.eq_fin_of_isFinite hv3, KFloat.eq_fin_of_isFinite hw1,
    KFloat.eq_fin_of_isFinite hw2, KFloat.eq_fin_of_isFinite hw3]
  simp [KFloat.value]

theorem KVector3D.dotProduct_isFinite (v w : KVector3D α) (hv : v.isFinite = true)
    (hw : w.isFinite = true) : (KVector3D.dotProduct KFloat.fin v w).isFinite = true := by
  rw [KVector3D.dotProduct_finite v w hv hw]
  rfl

/-- The loop of `findExtremalAlongAxis` keeps, on both sides, the first element of the
processed prefix whose projection is extremal.  `pre` is the prefix already processed (not
empty), `rest` what is still to come. -/
theorem findExtremalAlongAxis_foldl_inv {E : Type} (axis : KVector3D α)
    (accessor : E → KVector3D α)
    (mutator : KVector3D α → KFloat α → KVector3D α → KVector3D α)
    (rest pre : List E) (s : ExtremalState α)
    (hd : ∀ e ∈ rest, (KVector3D.dotProduct rnd (accessor e) axis).isFinite = true)
    (hmax : ∃ l1 e l2, pre = l1 ++ e :: l2 ∧
      (∀ x ∈ l1, (KVector3D.dotProduct rnd (accessor x) axis).value <
        (KVector3D.dotProduct rnd (accessor e) axis).value) ∧
      (∀ x ∈ l2, (KVector3D.dotProduct rnd (accessor x) axis).value ≤
        (KVector3D.dotProduct rnd (accessor e) axis).value) ∧
      s.maxProjDist = .fin (KVector3D.dotProduct rnd (accessor e) axis).value ∧
      s.maxMin.max = mutator (accessor e) (KVector3D.dotProduct rnd (accessor e) axis) axis)
    (hmin : ∃ l1 e l2, pre = l1 ++ e :: l2 ∧
      (∀ x ∈ l1, (KVector3D.dotProduct rnd (accessor e) axis).value <
        (KVector3D.dotProduct rnd (accessor x) axis).value) ∧
      (∀ x ∈ l2, (KVector3D.dotProduct rnd (accessor e) axis).value ≤
        (KVector3D.dotProduct rnd (accessor x) axis).value) ∧
      s.minProjDist = .fin (KVector3D.dotProduct rnd (accessor e) axis).value ∧
      s.maxMin.min = mutator (accessor e) (KVector3D.dotProduct rnd (accessor e) axis) axis) :
    (∃ l1 e l2, pre ++ rest = l1 ++ e :: l2 ∧
      (∀ x ∈ l1, (KVector3D.dotProduct rnd (accessor x) axis).value <
        (KVector3D.dotProduct rnd (accessor e) axis).value) ∧
      (∀ x ∈ l2, (KVector3D.dotProduct rnd (accessor x) axis).value ≤
        (KVector3D.dotProduct rnd (accessor e) axis).value) ∧
      (rest.foldl (fun s e => findExtremalAlongAxisStep rnd axis mutator s (accessor e))
          s).maxMin.max = mutator (accessor e) (KVector3D.dotProduct rnd (accessor e) axis) axis) ∧
    (∃ l1 e l2, pre ++ rest = l1 ++ e :: l2 ∧
      (∀ x ∈ l1, (KVector3D.dotProduct rnd (accessor e) axis).value <
        (KVector3D.dotProduct rnd (accessor x) axis).value) ∧
      (∀ x ∈ l2, (KVector3D.dotProduct rnd (accessor e) axis).value ≤
        (KVector3D.dotProduct rnd (accessor x) axis).value) ∧
      (rest.foldl (fun s e => findExtremalAlongAxisStep rnd axis mutator s (accessor e))
          s).maxMin.min = mutator (accessor e) (KVector3D.dotProduct rnd (accessor e) axis) axis) := by
  induction rest generalizing pre s with
  | nil =>
    obtain ⟨l1, e, l2, h1, h2, h3, -, h5⟩ := hmax
    obtain ⟨k1, f, k2, g1, g2, g3, -, g5⟩ := hmin
    simp only [List.append_nil, List.foldl_nil]
    exact ⟨⟨l1, e, l2, h1, h2, h3, h5⟩, ⟨k1, f, k2, g1, g2, g3, g5⟩⟩
  | cons y ys ih =>
    have hy := KFloat.eq_fin_of_isFinite (hd y (List.mem_cons_self y ys))
    have hys : ∀ e ∈ ys, (KVector3D.dotProduct rnd (accessor e) axis).isFinite = true :=
      fun e he => hd e (List.mem_cons_of_mem y he)
    have happ : pre ++ y :: ys = (pre ++ [y]) ++ ys := by simp
    rw [List.foldl_cons, happ]
    apply ih (pre ++ [y]) _ hys
    · obtain ⟨l1, e, l2, h1, h2, h3, h4, h5⟩ := hmax
      rw [findExtremalAlongAxisStep_eq]
      by_cases hlt : (KVector3D.dotProduct rnd (accessor e) axis).value <
          (KVector3D.dotProduct rnd (accessor y) axis).value
      · refine ⟨l1 ++ e :: l2, y, [], by simp [h1], ?_, by simp, ?_, ?_⟩
        · intro x hx
          rcases List.mem_append.mp hx with hx | hx
          · exact lt_trans (h2 x hx) hlt
          · rcases List.mem_cons.mp hx with hx | hx
            · subst hx; exact hlt
            · exact lt_of_le_of_lt (h3 x hx) hlt
        · have : KFloat.gt (KVector3D.dotProduct rnd (accessor y) axis) s.maxProjDist = true := by
            rw [hy, h4]; simpa [KFloat.gt] using hlt
          simp only [this, if_true]
          exact hy
        · have : KFloat.gt (KVector3D.dotProduct rnd (accessor y) axis) s.maxProjDist = true := by
            rw [hy, h4]; simpa [KFloat.gt] using hlt
          simp only [this, if_true]
      · refine ⟨l1, e, l2 ++ [y], by simp [h1], h2, ?_, ?_, ?_⟩
        · intro x hx
          rcases List.mem_append.mp hx with hx | hx
          · exact h3 x hx
          · simp only [List.mem_singleton] at hx
            subst hx; exact not_lt.mp hlt
        · have : KFloat.gt (KVector3D.dotProduct rnd (accessor y) axis) s.maxProjDist = false := by
            rw [hy, h4]; simpa [KFloat.gt] using hlt
          simp only [this, Bool.false_eq_true, if_false]
          exact h4
        · have : KFloat.gt (KVector3D.dotProduct rnd (accessor y) axis) s.maxProjDist = false := by
            rw [hy, h4]; simpa [KFloat.gt] using hlt
          simp only [this, Bool.false_eq_true, if_false]
          exact h5
    · obtain ⟨l1, e, l2, h1, h2, h3, h4, h5⟩ := hmin
      rw [findExtremalAlongAxisStep_eq]
      by_cases hlt : (KVector3D.dotProduct rnd (accessor y) axis).value <
          (KVector3D.dotProduct rnd (accessor e) axis).value
      · refine ⟨l1 ++ e :: l2, y, [], by simp [h1], ?_, by simp, ?_, ?_⟩
        · intro x hx
          rcases List.mem_append.mp hx with hx | hx
          · exact lt_trans hlt (h2 x hx)
          · rcases List.mem_cons.mp hx with hx | hx
            · subst hx; exact hlt
            · exact lt_of_lt_of_le hlt (h3 x hx)
        · have : KFloat.lt (KVector3D.dotProduct rnd (accessor y) axis) s.minProjDist = true := by
            rw [hy, h4]; simpa using hlt
          simp only [this, if_true]
          exact hy
        · have : KFloat.lt (KVector3D.dotProduct rnd (accessor y) axis) s.minProjDist = true := by
            rw [hy, h4]; simpa using hlt
          simp only [this, if_true]
      · refine ⟨l1, e, l2 ++ [y], by simp [h1], h2, ?_, ?_, ?_⟩
        · intro x hx
          rcases List.mem_append.mp hx with hx | hx
          · exact h3 x hx
          · simp only [List.mem_singleton] at hx
            subst hx; exact not_lt.mp hlt
        · have : KFloat.lt (KVector3D.dotProduct rnd (accessor y) axis) s.minProjDist = false := by
            rw [hy, h4]; simpa using hlt
          simp only [this, Bool.false_eq_true, if_false]
          exact h4
        · have : KFloat.lt (KVector3D.dotProduct rnd (accessor y) axis) s.minProjDist = false := by
            rw [hy, h4]; simpa using hlt
          simp only [this, Bool.false_eq_true, if_false]
          exact h5

/-- On a non-empty sequence with exact projections, `findExtremalAlongAxis` returns on each
side the mutated first element whose projection is extremal: the sequence splits around that
element into strictly smaller (greater) projections before it and no greater (smaller)
projections after it. -/
theorem findExtremalAlongAxis_split {E : Type} (seq : List E) (axis : KVector3D α)
    (accessor : E → KVector3D α)
    (mutator : KVector3D α → KFloat α → KVector3D α → KVector3D α)
    (hne : seq ≠ [])
    (hd : ∀ e ∈ seq, (KVector3D.dotProduct rnd (accessor e) axis).isFinite = true) :
    (∃ l1 e l2, seq = l1 ++ e :: l2 ∧
      (∀ x ∈ l1, (KVector3D.dotProduct rnd (accessor x) axis).value <
        (KVector3D.dotProduct rnd (accessor e) axis).value) ∧
      (∀ x ∈ l2, (KVector3D.dotProduct rnd (accessor x) axis).value ≤
        (KVector3D.dotProduct rnd (accessor e) axis).value) ∧
      (findExtremalAlongAxis rnd seq axis accessor mutator).max =
        mutator (accessor e) (KVector3D.dotProduct rnd (accessor e) axis) axis) ∧
    (∃ l1 e l2, seq = l1 ++ e :: l2 ∧
      (∀ x ∈ l1, (KVector3D.dotProduct rnd (accessor e) axis).value <
        (KVector3D.dotProduct rnd (accessor x) axis).value) ∧
      (∀ x ∈ l2, (KVector3D.dotProduct rnd (accessor e) axis).value ≤
        (KVector3D.dotProduct rnd (accessor x) axis).value) ∧
      (findExtremalAlongAxis rnd seq axis accessor mutator).min =
        mutator (accessor e) (KVector3D.dotProduct rnd (accessor e) axis) axis) := by
  cases seq with
  | nil => exact absurd rfl hne
  | cons y ys =>
    have hy := KFloat.eq_fin_of_isFinite (hd y (List.mem_cons_self y ys))
    have hys : ∀ e ∈ ys, (KVector3D.dotProduct rnd (accessor e) axis).isFinite = true :=
      fun e he => hd e (List.mem_cons_of_mem y he)
    have hgt : KFloat.gt (KVector3D.dotProduct rnd (accessor y) axis) (.ninf : KFloat α) = true := by
      rw [hy]; rfl
    have hlt : KFloat.lt (KVector3D.dotProduct rnd (accessor y) axis) (.pinf : KFloat α) = true := by
      rw [hy]; rfl
    have h := findExtremalAlongAxis_foldl_inv axis accessor mutator ys [y]
      (findExtremalAlongAxisStep rnd axis mutator findExtremalAlongAxisInit (accessor y)) hys
      ⟨[], y, [], rfl, by simp, by simp, by
        rw [findExtremalAlongAxisStep_eq]
        simp only [findExtremalAlongAxisInit, KFloat.infinity, KFloat.neg, hgt, if_true]
        exact ⟨hy, trivial⟩⟩
      ⟨[], y, [], rfl, by simp, by simp, by
        rw [findExtremalAlongAxisStep_eq]
        simp only [findExtremalAlongAxisInit, KFloat.infinity, hlt, if_true]
        exact ⟨hy, trivial⟩⟩
    simpa [findExtremalAlongAxis] using h

/-- C2, amended: for a non-empty sequence and an axis such that the projection
`dot(p, axis)` the code computes for every accessed point is finite (no overflow, no `NaN`),
`findExtremalAlongAxis` with the default (identity) mutator returns a `max` and a `min` that
are accessed points of the sequence, and the computed projection of every accessed point
lies between those of `min` and `max`.  This holds whatever the rounding of the format. -/
theorem findExtremalAlongAxis_default_extremal (rnd : α → KFloat α) {E : Type}
    (seq : List E) (axis : KVector3D α) (accessor : E → KVector3D α) (hne : seq ≠ [])
    (hd : ∀ e ∈ seq, (KVector3D.dotProduct rnd (accessor e) axis).isFinite = true) :
    (findExtremalAlongAxis rnd seq axis accessor DefaultMutator).max ∈ seq.map accessor ∧
    (findExtremalAlongAxis rnd seq axis accessor DefaultMutator).min ∈ seq.map accessor ∧
    ∀ e ∈ seq,
      KFloat.le
        (KVector3D.dotProduct rnd
          (findExtremalAlongAxis rnd seq axis accessor DefaultMutator).min axis)
        (KVector3D.dotProduct rnd (accessor e) axis) = true ∧
      KFloat.le (KVector3D.dotProduct rnd (accessor e) axis)
        (KVector3D.dotProduct rnd
          (findExtremalAlongAxis rnd seq axis accessor DefaultMutator).max axis) = true := by
  obtain ⟨⟨l1, a, l2, h1, h2, h3, h4⟩, ⟨k1, b, k2, g1, g2, g3, g4⟩⟩ :=
    findExtremalAlongAxis_split seq axis accessor DefaultMutator hne hd
  have ha : a ∈ seq := by rw [h1]; simp
  have hb : b ∈ seq := by rw [g1]; simp
  simp only [DefaultMutator] at h4 g4
  refine ⟨?_, ?_, ?_⟩
  · rw [h4]; exact List.mem_map.mpr ⟨a, ha, rfl⟩
  · rw [g4]; exact List.mem_map.mpr ⟨b, hb, rfl⟩
  · intro e he
    rw [h4, g4, KFloat.eq_fin_of_isFinite (hd e he), KFloat.eq_fin_of_isFinite (hd a ha),
      KFloat.eq_fin_of_isFinite (hd b hb)]
    simp only [KFloat.le_fin_fin, decide_eq_true_eq]
    constructor
    · have he2 := he
      rw [g1] at he2
      rcases List.mem_append.mp he2 with hx | hx
      · exact le_of_lt (g2 e hx)
      · rcases List.mem_cons.mp hx with hx | hx
        · rw [hx]
        · exact g3 e hx
    · have he2 := he
      rw [h1] at he2
      rcases List.mem_append.mp he2 with hx | hx
      · exact le_of_lt (h2 e hx)
      · rcases List.mem_cons.mp hx with hx | hx
        · rw [hx]
        · exact h3 e hx

theorem samplePoints_ne_nil : samplePoints ≠ [] := by simp [samplePoints]

theorem samplePoints_isFinite : ∀ e ∈ samplePoints, (DefaultAccessor e).isFinite = true := by
  intro e he
  simp only [samplePoints, List.mem_cons, List.mem_singleton, List.not_mem_nil, or_false] at he
  rcases he with rfl | rfl <;> rfl

theorem sampleAxis_isFinite : sampleAxis.isFinite = true := rfl

/-- In binary32 the projections of `(1,0,0)` and `(-1,0,0)` on `(1,0,0)` are `1` and `-1`. -/
theorem samplePoints_dot32 :
    KVector3D.dotProduct KFloat.round32 (KVector3D.ofCoords 1 0 0) sampleAxis = .fin 1 ∧
    KVector3D.dotProduct KFloat.round32 (KVector3D.ofCoords (-1) 0 0) sampleAxis =
      .fin (-1) := by
  simp [KVector3D.dotProduct, sampleAxis, KVector3D.ofCoords, KFloat.round32_zero,
    KFloat.round32_one, KFloat.round32_neg_one]

theorem samplePoints_dot32_isFinite :
    ∀ e ∈ samplePoints,
      (KVector3D.dotProduct KFloat.round32 (DefaultAccessor e) sampleAxis).isFinite = true := by
  intro e he
  simp only [samplePoints, List.mem_cons, List.mem_singleton, List.not_mem_nil, or_false] at he
  rcases he with rfl | rfl
  · rw [DefaultAccessor, samplePoints_dot32.1]; rfl
  · rw [DefaultAccessor, samplePoints_dot32.2]; rfl

/-- In binary32 the product `2^127 * 2` overflows: the projections of `(2^127, 0, 0)` and
`(2^127, 1, 0)` on `(2, 0, 0)` are `+infinity`. -/
theorem hugePoint_dot32 :
    KVector3D.dotProduct KFloat.round32 hugePoint doubleAxis = .pinf ∧
    KVector3D.dotProduct KFloat.round32 hugePoint2 doubleAxis = .pinf := by
  have h : KFloat.round32 ((2 : ℚ) ^ 127 * 2) = .pinf := by
    rw [show (2 : ℚ) ^ 127 * 2 = 2 ^ 128 by norm_num, KFloat.round32_two_pow_128]
  constructor
  · simp only [KVector3D.dotProduct, hugePoint, doubleAxis, KVector3D.ofCoords,
      KFloat.mul_fin_fin, h, mul_zero, KFloat.round32_zero]
    rfl
  · simp only [KVector3D.dotProduct, hugePoint2, doubleAxis, KVector3D.ofCoords,
      KFloat.mul_fin_fin, h, mul_zero, KFloat.round32_zero]
    rfl

/-- When the projections of both points of a two-point sequence are `+infinity`, `max` is
taken from the first point and `min` is never assigned. -/
theorem findExtremalAlongAxis_all_pinf
    (mutator : KVector3D α → KFloat α → KVector3D α → KVector3D α) (p q axis : KVector3D α)
    (hp : KVector3D.dotProduct rnd p axis = .pinf)
    (hq : KVector3D.dotProduct rnd q axis = .pinf) :
    findExtremalAlongAxis rnd [p, q] axis DefaultAccessor mutator =
      { max := mutator p .pinf axis, min := KVector3D.zero } := by
  simp [findExtremalAlongAxis, findExtremalAlongAxisStep_eq, findExtremalAlongAxisInit,
    DefaultAccessor, hp, hq, KFloat.gt, KFloat.lt, KFloat.infinity, KFloat.neg]

/-- When the projection of the only point is `+infinity`, `max` is taken from it and `min`
is never assigned. -/
theorem findExtremalAlongAxis_single_pinf
    (mutator : KVector3D α → KFloat α → KVector3D α → KVector3D α) (p axis : KVector3D α)
    (hp : KVector3D.dotProduct rnd p axis = .pinf) :
    findExtremalAlongAxis rnd [p] axis DefaultAccessor mutator =
      { max := mutator p .pinf axis, min := KVector3D.zero } := by
  simp [findExtremalAlongAxis, findExtremalAlongAxisStep_eq, findExtremalAlongAxisInit,
    DefaultAccessor, hp, KFloat.gt, KFloat.lt, KFloat.infinity, KFloat.neg]

/-- C2 fails when the projections overflow: the points `(2^127, 0, 0)` and `(2^127, 1, 0)`
and the axis `(2, 0, 0)` have binary32 coordinates, both projections are `+infinity`, the
comparison `signedDist < minProjDist` is never true, and the `min` returned is the
default-constructed `(0,0,0)`, which is not a point of the sequence. -/
theorem findExtremalAlongAxis_overflow_min_not_element :
    (KFloat.round32 (2 ^ 127) = .fin (2 ^ 127) ∧ KFloat.round32 2 = .fin 2 ∧
      KFloat.round32 1 = .fin 1 ∧ KFloat.round32 0 = .fin 0) ∧
    findExtremalAlongAxis KFloat.round32 [hugePoint, hugePoint2] doubleAxis DefaultAccessor
        DefaultMutator = { max := hugePoint, min := KVector3D.ofCoords 0 0 0 } ∧
    (findExtremalAlongAxis KFloat.round32 [hugePoint, hugePoint2] doubleAxis DefaultAccessor
        DefaultMutator).min ∉ [hugePoint, hugePoint2].map DefaultAccessor := by
  have hres : findExtremalAlongAxis KFloat.round32 [hugePoint, hugePoint2] doubleAxis
      DefaultAccessor DefaultMutator = { max := hugePoint, min := KVector3D.ofCoords 0 0 0 } :=
    findExtremalAlongAxis_all_pinf DefaultMutator hugePoint hugePoint2 doubleAxis
      hugePoint_dot32.1 hugePoint_dot32.2
  refine ⟨⟨KFloat.round32_two_pow_127, KFloat.round32_two, KFloat.round32_one,
    KFloat.round32_zero⟩, hres, ?_⟩
  rw [hres]
  intro hmem
  simp only [List.map_cons, List.map_nil, DefaultAccessor, List.mem_cons, List.mem_singleton,
    List.not_mem_nil, or_false, hugePoint, hugePoint2, KVector3D.ofCoords,
    KVector3D.mk.injEq, KFloat.fin.injEq] at hmem
  rcases hmem with ⟨h, -⟩ | ⟨h, -⟩ <;> norm_num at h

/-- C2 amended, in binary32, at the points `(1,0,0)`, `(-1,0,0)` and the axis `(1,0,0)`. -/
theorem findExtremalAlongAxis_default_extremal_witness :
    (samplePoints ≠ [] ∧
      ∀ e ∈ samplePoints,
        (KVector3D.dotProduct KFloat.round32 (DefaultAccessor e) sampleAxis).isFinite =
          true) ∧
    ((findExtremalAlongAxis KFloat.round32 samplePoints sampleAxis DefaultAccessor
          DefaultMutator).max ∈ samplePoints.map DefaultAccessor ∧
      (findExtremalAlongAxis KFloat.round32 samplePoints sampleAxis DefaultAccessor
          DefaultMutator).min ∈ samplePoints.map DefaultAccessor ∧
      ∀ e ∈ samplePoints,
        KFloat.le
          (KVector3D.dotProduct KFloat.round32
            (findExtremalAlongAxis KFloat.round32 samplePoints sampleAxis DefaultAccessor
              DefaultMutator).min
            sampleAxis)
          (KVector3D.dotProduct KFloat.round32 (DefaultAccessor e) sampleAxis) = true ∧
        KFloat.le (KVector3D.dotProduct KFloat.round32 (DefaultAccessor e) sampleAxis)
          (KVector3D.dotProduct KFloat.round32
            (findExtremalAlongAxis KFloat.round32 samplePoints sampleAxis DefaultAccessor
              DefaultMutator).max
            sampleAxis) = true) :=
  ⟨⟨samplePoints_ne_nil, samplePoints_dot32_isFinite⟩,
    findExtremalAlongAxis_default_extremal KFloat.round32 samplePoints sampleAxis
      DefaultAccessor samplePoints_ne_nil samplePoints_dot32_isFinite⟩

end Extremal

/-! ## `findAverageCentroid`: the arithmetic mean -/

section Centroid

variable {α : Type} [LinearOrderedField α]

theorem KVector3D.eq_of_isFinite (v : KVector3D α) (hv : v.isFinite = true) :
    v = ⟨.fin v.x.value, .fin v.y.value, .fin v.z.value⟩ := by
  obtain ⟨h1, h2, h3⟩ := (KVector3D.isFinite_iff v).mp hv
  obtain ⟨x, y, z⟩ := v
  simp only [KVector3D.mk.injEq]
  exact ⟨KFloat.eq_fin_of_isFinite h1, KFloat.eq_fin_of_isFinite h2,
    KFloat.eq_fin_of_isFinite h3⟩

/-- In exact arithmetic the accumulation loop `centroid += accessor(*begin)` adds up each
coordinate. -/
theorem sum_foldl {E : Type} (seq : List E) (accessor : E → KVector3D α)
    (hfin : ∀ e ∈ seq, (accessor e).isFinite = true) (a b c : α) :
    seq.foldl (fun c e => KVector3D.add KFloat.fin c (accessor e)) ⟨.fin a, .fin b, .fin c⟩ =
      ⟨.fin (a + (seq.map fun e => ((accessor e).coord 0).value).sum),
        .fin (b + (seq.map fun e => ((accessor e).coord 1).value).sum),
        .fin (c + (seq.map fun e => ((accessor e).coord 2).value).sum)⟩ := by
  induction seq generalizing a b c with
  | nil => simp
  | cons y ys ih =>
    have hy := KVector3D.eq_of_isFinite _ (hfin y (List.mem_cons_self y ys))
    have hys : ∀ e ∈ ys, (accessor e).isFinite = true :=
      fun e he => hfin e (List.mem_cons_of_mem y he)
    have hstep : KVector3D.add KFloat.fin ⟨.fin a, .fin b, .fin c⟩ (accessor y) =
        ⟨.fin (a + (accessor y).x.value), .fin (b + (accessor y).y.value),
          .fin (c + (accessor y).z.value)⟩ := by
      rw [hy]; rfl
    rw [List.foldl_cons, hstep, ih hys]
    simp [KVector3D.coord, add_assoc]

theorem length_cast_ne_zero {E : Type} (seq : List E) (hne : seq ≠ []) :
    (seq.length : α) ≠ 0 := by
  have h : seq.length ≠ 0 := fun h => hne (List.length_eq_zero.mp h)
  exact_mod_cast h

theorem findAverageCentroid_eq_mean {E : Type} (seq : List E) (accessor : E → KVector3D α)
    (hne : seq ≠ []) (hfin : ∀ e ∈ seq, (accessor e).isFinite = true) :
    findAverageCentroid KFloat.fin seq accessor =
      ⟨.fin (meanCoord seq accessor 0), .fin (meanCoord seq accessor 1),
        .fin (meanCoord seq accessor 2)⟩ := by
  have hn := length_cast_ne_zero (α := α) seq hne
  simp only [findAverageCentroid, KVector3D.zero, sum_foldl seq accessor hfin, zero_add,
    KVector3D.divScalar, KFloat.ofCount, KFloat.div_fin_fin _ _ _ hn, meanCoord]

theorem KFloat.round32_three : KFloat.round32 3 = .fin 3 := by
  have hb : KFloat.binade |(3 : ℚ)| = 1 := by
    rw [KFloat.binade, KFloat.log2_eq _ 1 (by norm_num) (by norm_num) (by norm_num)]; rfl
  simp only [KFloat.round32, hb]
  norm_num [KFloat.roundHalfEven]

/-- On two copies of `(a, 0, 0)` whose sum `a + a` overflows, `findAverageCentroid` returns
`(+infinity, 0, 0)`. -/
theorem findAverageCentroid_overflow (rnd : α → KFloat α) (a : α) (h0 : rnd 0 = .fin 0)
    (h2 : rnd 2 = .fin 2) (ha : rnd a = .fin a) (haa : rnd (a + a) = .pinf) :
    findAverageCentroid rnd [KVector3D.ofCoords a 0 0, KVector3D.ofCoords a 0 0]
      DefaultAccessor = ⟨.pinf, .fin 0, .fin 0⟩ := by
  have h2' : rnd ((1 : α) + 1) = .fin 2 := by rw [one_add_one_eq_two, h2]
  simp [findAverageCentroid, KVector3D.zero, KVector3D.add, KVector3D.divScalar,
    KVector3D.ofCoords, DefaultAccessor, KFloat.ofCount, h0, h2, h2', ha, haa, KFloat.add,
    KFloat.div]

/-- C3 fails in binary32.  On `(1,0,0), (0,0,0), (0,0,0)` the quotient `1/3` is rounded:
the first component returned is `11184811 / 2^25`, not the mean `1/3`.  On two copies of
`(2^127, 0, 0)` the sum overflows: the first component returned is `+infinity`, not the
mean `2^127`. -/
theorem findAverageCentroid_not_mean :
    findAverageCentroid KFloat.round32
        [KVector3D.ofCoords 1 0 0, KVector3D.ofCoords 0 0 0, KVector3D.ofCoords 0 0 0]
        DefaultAccessor = KVector3D.ofCoords (11184811 / 33554432) 0 0 ∧
    (11184811 / 33554432 : ℚ) ≠ (1 + 0 + 0) / 3 ∧
    findAverageCentroid KFloat.round32 [hugePoint, hugePoint] DefaultAccessor =
      ⟨.pinf, .fin 0, .fin 0⟩ := by
  refine ⟨?_, by norm_num, ?_⟩
  · have h3 : KFloat.round32 ((1 : ℚ) + 1 + 1) = .fin 3 := by
      rw [show (1 : ℚ) + 1 + 1 = 3 by norm_num, KFloat.round32_three]
    have h13 : KFloat.round32 (3 : ℚ)⁻¹ = .fin (11184811 / 33554432) := by
      rw [show (3 : ℚ)⁻¹ = 1 / 3 by norm_num, KFloat.round32_third]
    simp [findAverageCentroid, KVector3D.zero, KVector3D.add, KVector3D.divScalar,
      KVector3D.ofCoords, DefaultAccessor, KFloat.ofCount, KFloat.round32_zero,
      KFloat.round32_one, h3, KFloat.round32_three, KFloat.div, h13]
  · exact findAverageCentroid_overflow KFloat.round32 (2 ^ 127) KFloat.round32_zero
      KFloat.round32_two KFloat.round32_two_pow_127
      (by rw [show (2 : ℚ) ^ 127 + 2 ^ 127 = 2 ^ 128 by norm_num, KFloat.round32_two_pow_128])

/-- C3, amended: in exact arithmetic (no rounding, no overflow), for every non-empty
sequence of finite points, each component of the vector returned by `findAverageCentroid`
is the sum of that component over the accessed points divided by their number; and on
`(0,0,0), (2,0,0)` the result is `(1,0,0)`, in exact arithmetic and in binary32. -/
theorem findAverageCentroid_mean :
    (∀ (E : Type) (seq : List E) (accessor : E → KVector3D α), seq ≠ [] →
      (∀ e ∈ seq, (accessor e).isFinite = true) →
      ∀ i : Fin 3, (findAverageCentroid KFloat.fin seq accessor).coord i =
        .fin ((seq.map fun e => ((accessor e).coord i).value).sum / (seq.length : α))) ∧
    findAverageCentroid KFloat.fin [KVector3D.ofCoords (0 : α) 0 0, KVector3D.ofCoords 2 0 0]
      DefaultAccessor = KVector3D.ofCoords 1 0 0 ∧
    findAverageCentroid KFloat.round32 [KVector3D.ofCoords 0 0 0, KVector3D.ofCoords 2 0 0]
      DefaultAccessor = KVector3D.ofCoords 1 0 0 := by
  refine ⟨?_, ?_, ?_⟩
  · intro E seq accessor hne hfin i
    rw [findAverageCentroid_eq_mean seq accessor hne hfin]
    fin_cases i <;> rfl
  · rw [findAverageCentroid_eq_mean _ _ (by simp)
      (by
        intro e he
        simp only [List.mem_cons, List.mem_singleton, List.not_mem_nil, or_false] at he
        rcases he with rfl | rfl <;> rfl)]
    simp only [meanCoord, KVector3D.coord, DefaultAccessor, KVector3D.ofCoords, List.map_cons,
      List.map_nil, KFloat.value, List.sum_cons, List.sum_nil, List.length_cons,
      List.length_nil, KVector3D.mk.injEq, KFloat.fin.injEq]
    norm_num
  · have h2 : KFloat.round32 ((1 : ℚ) + 1) = .fin 2 := by
      rw [one_add_one_eq_two, KFloat.round32_two]
    simp [findAverageCentroid, KVector3D.zero, KVector3D.add, KVector3D.divScalar,
      KVector3D.ofCoords, DefaultAccessor, KFloat.ofCount, KFloat.round32_zero,
      KFloat.round32_one, KFloat.round32_two, h2, KFloat.div]

/-- C3 amended, at the points `(1,0,0)`, `(-1,0,0)` over the rationals: the centroid is the
origin. -/
theorem findAverageCentroid_mean_witness :
    (samplePoints ≠ [] ∧ ∀ e ∈ samplePoints, (DefaultAccessor e).isFinite = true) ∧
    ∀ i : Fin 3, (findAverageCentroid KFloat.fin samplePoints DefaultAccessor).coord i =
      .fin ((samplePoints.map fun e => ((DefaultAccessor e).coord i).value).sum /
        (samplePoints.length : ℚ)) :=
  ⟨⟨samplePoints_ne_nil, samplePoints_isFinite⟩,
    findAverageCentroid_mean.1 _ samplePoints DefaultAccessor samplePoints_ne_nil
      samplePoints_isFinite⟩

end Centroid

/-! ## `covarianceMatrix` -/

section Covariance

variable {α : Type} [LinearOrderedField α]

/-- In exact arithmetic the second loop of `covarianceMatrix` adds up the six products of
centred coordinates. -/
theorem covarianceMatrixStep_foldl {E : Type} (seq : List E) (accessor : E → KVector3D α)
    (hfin : ∀ e ∈ seq, (accessor e).isFinite = true) (cx cy cz : α) (a b c d f g : α) :
    seq.foldl (fun e p => covarianceMatrixStep KFloat.fin ⟨.fin cx, .fin cy, .fin cz⟩ e (accessor p))
        ⟨.fin a, .fin b, .fin c, .fin d, .fin f, .fin g⟩ =
      ⟨.fin (a + (seq.map fun e =>
          ((accessor e).x.value - cx) * ((accessor e).x.value - cx)).sum),
        .fin (b + (seq.map fun e =>
          ((accessor e).y.value - cy) * ((accessor e).y.value - cy)).sum),
        .fin (c + (seq.map fun e =>
          ((accessor e).z.value - cz) * ((accessor e).z.value - cz)).sum),
        .fin (d + (seq.map fun e =>
          ((accessor e).x.value - cx) * ((accessor e).y.value - cy)).sum),
        .fin (f + (seq.map fun e =>
          ((accessor e).x.value - cx) * ((accessor e).z.value - cz)).sum),
        .fin (g + (seq.map fun e =>
          ((accessor e).y.value - cy) * ((accessor e).z.value - cz)).sum)⟩ := by
  induction seq generalizing a b c d f g with
  | nil => simp
  | cons y ys ih =>
    have hy := KVector3D.eq_of_isFinite _ (hfin y (List.mem_cons_self y ys))
    have hys : ∀ e ∈ ys, (accessor e).isFinite = true :=
      fun e he => hfin e (List.mem_cons_of_mem y he)
    have hstep : covarianceMatrixStep KFloat.fin ⟨.fin cx, .fin cy, .fin cz⟩
        ⟨.fin a, .fin b, .fin c, .fin d, .fin f, .fin g⟩ (accessor y) =
        ⟨.fin (a + ((accessor y).x.value - cx) * ((accessor y).x.value - cx)),
          .fin (b + ((accessor y).y.value - cy) * ((accessor y).y.value - cy)),
          .fin (c + ((accessor y).z.value - cz) * ((accessor y).z.value - cz)),
          .fin (d + ((accessor y).x.value - cx) * ((accessor y).y.value - cy)),
          .fin (f + ((accessor y).x.value - cx) * ((accessor y).z.value - cz)),
          .fin (g + ((accessor y).y.value - cy) * ((accessor y).z.value - cz))⟩ := by
      rw [hy]
      simp [covarianceMatrixStep, KVector3D.sub, KFloat.value]
    rw [List.foldl_cons, hstep, ih hys]
    simp [add_assoc]

omit [LinearOrderedField α] in
/-- The nine assignments at the end of `covarianceMatrix`, read back element by element. -/
theorem covarianceMatrix_sets (m : KMatrix3x3 α) (a b c d f g : KFloat α) (i j : Fin 3) :
    ((((((((m.set 0 0 a).set 1 1 b).set 2 2 c).set 1 0 d).set 0 1 d).set 2 0 f).set 0 2
        f).set 2 1 g).set 1 2 g i j =
      match i, j with
      | 0, 0 => a
      | 1, 1 => b
      | 2, 2 => c
      | 0, 1 => d
      | 1, 0 => d
      | 0, 2 => f
      | 2, 0 => f
      | 1, 2 => g
      | 2, 1 => g := by
  fin_cases i <;> fin_cases j <;> simp [KMatrix3x3.set]

theorem covarianceMatrix_eq_spec {E : Type} (covariance0 : KMatrix3x3 α) (seq : List E)
    (accessor : E → KVector3D α) (hne : seq ≠ [])
    (hfin : ∀ e ∈ seq, (accessor e).isFinite = true) (i j : Fin 3) :
    covarianceMatrix KFloat.fin covariance0 seq accessor i j = .fin (covarianceSpec seq accessor i j) := by
  have hn := length_cast_ne_zero (α := α) seq hne
  simp only [covarianceMatrix, covarianceMatrix_sets, KVector3D.zero,
    sum_foldl seq accessor hfin, zero_add, KVector3D.divScalar, KFloat.ofCount,
    KFloat.div_fin_fin _ _ _ hn, covarianceMatrixStep_foldl seq accessor hfin,
    KFloat.mul_fin_fin, covarianceSpec, meanCoord]
  fin_cases i <;> fin_cases j <;> simp [KVector3D.coord, mul_comm]

/-- C4, amended: in exact arithmetic (no rounding, no overflow), for every non-empty
sequence of `n` finite points, every element `[i][j]` of the matrix returned by
`covarianceMatrix` is `(1/n)` times the sum over the accessed points `p` of
`(p[i] - m[i]) * (p[j] - m[j])`, where `m[i]` is the sum of the `i`-th coordinates over
`n`. -/
theorem covarianceMatrix_population_covariance {E : Type} (covariance0 : KMatrix3x3 α)
    (seq : List E) (accessor : E → KVector3D α) (hne : seq ≠ [])
    (hfin : ∀ e ∈ seq, (accessor e).isFinite = true) (i j : Fin 3) :
    covarianceMatrix KFloat.fin covariance0 seq accessor i j =
      .fin (1 / (seq.length : α) *
        (seq.map fun e =>
          (((accessor e).coord i).value -
              (seq.map fun e => ((accessor e).coord i).value).sum / (seq.length : α)) *
            (((accessor e).coord j).value -
              (seq.map fun e => ((accessor e).coord j).value).sum / (seq.length : α))).sum) :=
  covarianceMatrix_eq_spec covariance0 seq accessor hne hfin i j

/-- C4 amended, at the points `(1,0,0)`, `(-1,0,0)` over the rationals: the variance of the
first coordinate is `1`. -/
theorem covarianceMatrix_population_covariance_witness :
    (samplePoints ≠ [] ∧ ∀ e ∈ samplePoints, (DefaultAccessor e).isFinite = true) ∧
    covarianceMatrix KFloat.fin (fun _ _ => .nan) samplePoints DefaultAccessor 0 0 = .fin 1 := by
  refine ⟨⟨samplePoints_ne_nil, samplePoints_isFinite⟩, ?_⟩
  rw [covarianceMatrix_population_covariance (fun _ _ => .nan) samplePoints DefaultAccessor
    samplePoints_ne_nil samplePoints_isFinite 0 0]
  simp only [KVector3D.coord, DefaultAccessor, samplePoints, KVector3D.ofCoords,
    List.map_cons, List.map_nil, KFloat.value, List.sum_cons, List.sum_nil, List.length_cons,
    List.length_nil, KFloat.fin.injEq]
  norm_num

/-- On two copies of `(a, 0, 0)` whose sum `a + a` overflows, the mean is infinite, the
centred first coordinate is `-infinity`, and `covarianceMatrix` returns `+infinity` at
`[0][0]` and `NaN` at `[0][1]`. -/
theorem covarianceMatrix_overflow (rnd : α → KFloat α) (covariance0 : KMatrix3x3 α) (a : α)
    (h0 : rnd 0 = .fin 0) (h2 : rnd 2 = .fin 2) (hh : rnd (1 / 2) = .fin (1 / 2))
    (ha : rnd a = .fin a) (haa : rnd (a + a) = .pinf) :
    covarianceMatrix rnd covariance0 [KVector3D.ofCoords a 0 0, KVector3D.ofCoords a 0 0]
        DefaultAccessor 0 0 = .pinf ∧
    covarianceMatrix rnd covariance0 [KVector3D.ofCoords a 0 0, KVector3D.ofCoords a 0 0]
        DefaultAccessor 0 1 = .nan := by
  have h2' : rnd ((1 : α) + 1) = .fin 2 := by rw [one_add_one_eq_two, h2]
  have hh' : rnd (2 : α)⁻¹ = .fin (1 / 2) := by rw [← one_div, hh]
  have h20 : ¬ (2 : α) < 0 := by norm_num
  have h12 : (0 : α) < 2⁻¹ := by norm_num
  constructor <;>
    simp [covarianceMatrix, covarianceMatrix_sets, covarianceMatrixStep, KVector3D.zero,
      KVector3D.add, KVector3D.sub, KVector3D.divScalar, KVector3D.ofCoords, DefaultAccessor,
      KFloat.ofCount, h0, h2, h2', hh', ha, haa, h20, h12, KFloat.add, KFloat.sub, KFloat.neg,
      KFloat.mul, KFloat.div]

/-- C4 fails in binary32 when the sum of the points overflows: on two copies of
`(2^127, 0, 0)`, whose population covariance is `0`, the code returns `+infinity` at
`[0][0]` and `NaN` at `[0][1]`. -/
theorem covarianceMatrix_not_population_covariance :
    covarianceSpec [hugePoint, hugePoint] DefaultAccessor 0 0 = 0 ∧
    covarianceMatrix KFloat.round32 (fun _ _ => .fin 0) [hugePoint, hugePoint]
        DefaultAccessor 0 0 = .pinf ∧
    covarianceMatrix KFloat.round32 (fun _ _ => .fin 0) [hugePoint, hugePoint]
        DefaultAccessor 0 1 = .nan := by
  have h := covarianceMatrix_overflow KFloat.round32 (fun _ _ => .fin 0) (2 ^ 127)
    KFloat.round32_zero KFloat.round32_two KFloat.round32_half KFloat.round32_two_pow_127
    (by rw [show (2 : ℚ) ^ 127 + 2 ^ 127 = 2 ^ 128 by norm_num, KFloat.round32_two_pow_128])
  refine ⟨?_, h.1, h.2⟩
  simp only [covarianceSpec, meanCoord, hugePoint, KVector3D.coord, DefaultAccessor,
    KVector3D.ofCoords, KFloat.value, List.map_cons, List.map_nil, List.sum_cons,
    List.sum_nil, List.length_cons, List.length_nil]
  norm_num

theorem KFloat.eq_self_iff (a : KFloat α) : KFloat.eq a a = true ↔ a ≠ .nan := by
  cases a <;> simp [KFloat.eq]

/-- C5 fails on the empty sequence, in binary32 as in exact arithmetic: there `k = 1/0` is
infinite, every sum is `0`, and each element `k * 0` of the returned matrix is `NaN`, which
does not compare equal to itself. -/
theorem covarianceMatrix_empty_not_eq :
    covarianceMatrix KFloat.round32 (fun _ _ => .fin 0) ([] : List (KVector3D ℚ))
        DefaultAccessor 0 1 = .nan ∧
    covarianceMatrix KFloat.round32 (fun _ _ => .fin 0) ([] : List (KVector3D ℚ))
        DefaultAccessor 1 0 = .nan ∧
    KFloat.eq
      (covarianceMatrix KFloat.round32 (fun _ _ => .fin 0) ([] : List (KVector3D ℚ))
        DefaultAccessor 0 1)
      (covarianceMatrix KFloat.round32 (fun _ _ => .fin 0) ([] : List (KVector3D ℚ))
        DefaultAccessor 1 0) = false := by
  simp [covarianceMatrix, covarianceMatrix_sets, KFloat.ofCount, KFloat.round32_zero,
    KFloat.div, KFloat.mul, KFloat.eq]

/-- C5, amended: for all inputs, the empty sequence included, and whatever the rounding, the
elements `[i][j]` and `[j][i]` of the matrix returned by `covarianceMatrix` hold the same
value, and the comparison `cov[i][j] == cov[j][i]` is true exactly when that value is not
`NaN`. -/
theorem covarianceMatrix_symmetric (rnd : α → KFloat α) {E : Type}
    (covariance0 : KMatrix3x3 α) (seq : List E) (accessor : E → KVector3D α) (i j : Fin 3) :
    covarianceMatrix rnd covariance0 seq accessor i j =
      covarianceMatrix rnd covariance0 seq accessor j i ∧
    (KFloat.eq (covarianceMatrix rnd covariance0 seq accessor i j)
        (covarianceMatrix rnd covariance0 seq accessor j i) = true ↔
      covarianceMatrix rnd covariance0 seq accessor i j ≠ .nan) := by
  have h : covarianceMatrix rnd covariance0 seq accessor i j =
      covarianceMatrix rnd covariance0 seq accessor j i := by
    simp only [covarianceMatrix, covarianceMatrix_sets]
    fin_cases i <;> fin_cases j <;> rfl
  refine ⟨h, ?_⟩
  rw [← h]
  exact KFloat.eq_self_iff _

end Covariance

/-! ## `findExtremalAlongAxes` -/

section Axes

variable {α : Type} [LinearOrderedField α] {rnd : α → KFloat α}

omit [LinearOrderedField α] in
theorem push_back_foldl {A B : Type} (f : A → B) (axes : List A) (results : List B) :
    axes.foldl (fun results a => results ++ [f a]) results = results ++ axes.map f := by
  induction axes generalizing results with
  | nil => simp
  | cons a as ih => simp [ih]

theorem findExtremalAlongAxes_eq_map {E A : Type} (vecs : List E) (axes : List A)
    (vAccessor : E → KVector3D α) (aAccessor : A → KVector3D α)
    (mutator : KVector3D α → KFloat α → KVector3D α → KVector3D α) :
    findExtremalAlongAxes rnd vecs axes vAccessor aAccessor mutator =
      axes.map fun a => findExtremalAlongAxis rnd vecs (aAccessor a) vAccessor mutator := by
  simp [findExtremalAlongAxes, push_back_foldl]

/-- C6: for every point sequence, axis sequence and mutator (and whatever the rounding of
the arithmetic), `findExtremalAlongAxes` returns a sequence of the length of the axis
sequence whose `i`-th element is `findExtremalAlongAxis` on the `i`-th axis; for the two
axes `[axisA, axisB]` it returns the two-element sequence of the query on `axisA` followed
by the query on `axisB`. -/
theorem findExtremalAlongAxes_pointwise (rnd : α → KFloat α) {E A : Type} (vecs : List E)
    (axes : List A) (vAccessor : E → KVector3D α) (aAccessor : A → KVector3D α)
    (mutator : KVector3D α → KFloat α → KVector3D α → KVector3D α) :
    (findExtremalAlongAxes rnd vecs axes vAccessor aAccessor mutator).length = axes.length ∧
    (∀ i : Fin axes.length,
      (findExtremalAlongAxes rnd vecs axes vAccessor aAccessor mutator)[i.val]? =
        some (findExtremalAlongAxis rnd vecs (aAccessor (axes.get i)) vAccessor mutator)) ∧
    ∀ axisA axisB : A,
      findExtremalAlongAxes rnd vecs [axisA, axisB] vAccessor aAccessor mutator =
        [findExtremalAlongAxis rnd vecs (aAccessor axisA) vAccessor mutator,
          findExtremalAlongAxis rnd vecs (aAccessor axisB) vAccessor mutator] := by
  refine ⟨?_, ?_, ?_⟩
  · simp [findExtremalAlongAxes_eq_map]
  · intro i
    simp [findExtremalAlongAxes_eq_map]
  · intro axisA axisB
    simp [findExtremalAlongAxes_eq_map]

end Axes

/-! ## Projection mutator and first-wins ties -/

section Projection

variable {α : Type} [LinearOrderedField α] {rnd : α → KFloat α}

theorem mem_split_le {E : Type} (d : E → α) (seq l1 l2 : List E) (e x : E)
    (hs : seq = l1 ++ e :: l2) (h1 : ∀ y ∈ l1, d y < d e) (h2 : ∀ y ∈ l2, d y ≤ d e)
    (hx : x ∈ seq) : d x ≤ d e := by
  rw [hs] at hx
  rcases List.mem_append.mp hx with hx | hx
  · exact le_of_lt (h1 x hx)
  · rcases List.mem_cons.mp hx with hx | hx
    · rw [hx]
    · exact h2 x hx

theorem mem_split_ge {E : Type} (d : E → α) (seq l1 l2 : List E) (e x : E)
    (hs : seq = l1 ++ e :: l2) (h1 : ∀ y ∈ l1, d e < d y) (h2 : ∀ y ∈ l2, d e ≤ d y)
    (hx : x ∈ seq) : d e ≤ d x := by
  rw [hs] at hx
  rcases List.mem_append.mp hx with hx | hx
  · exact le_of_lt (h1 x hx)
  · rcases List.mem_cons.mp hx with hx | hx
    · rw [hx]
    · exact h2 x hx

/-- In binary32 the projected query on `(1,0,0)`, `(-1,0,0)` along `(1,0,0)`. -/
theorem samplePoints_projected32 :
    findExtremalProjectedPointsAlongAxis KFloat.round32 samplePoints sampleAxis
        DefaultAccessor =
      { min := KVector3D.ofCoords (-1) 0 0, max := KVector3D.ofCoords 1 0 0 } := by
  simp only [findExtremalProjectedPointsAlongAxis, findExtremalAlongAxis, samplePoints,
    List.foldl, findExtremalAlongAxisStep_eq, DefaultAccessor, samplePoints_dot32.1,
    samplePoints_dot32.2]
  simp [findExtremalAlongAxisInit, AxisMutator, sampleAxis, KVector3D.ofCoords,
    KVector3D.smul, KFloat.gt, KFloat.infinity, KFloat.neg, KFloat.lt, KFloat.round32_zero,
    KFloat.round32_one, KFloat.round32_neg_one]

/-- C7 fails when the projection overflows: for the binary32 point `(2^127, 0, 0)` and the
axis `(2, 0, 0)` the only projection is `+infinity`, so that `dmin * axis` is
`(+infinity, NaN, NaN)`, but the `min` returned is the default-constructed `(0,0,0)`: the
comparison `signedDist < minProjDist` is never true. -/
theorem findExtremalProjectedPointsAlongAxis_overflow_min :
    KVector3D.dotProduct KFloat.round32 hugePoint doubleAxis = .pinf ∧
    KVector3D.smul KFloat.round32 (KVector3D.dotProduct KFloat.round32 hugePoint doubleAxis)
        doubleAxis = ⟨.pinf, .nan, .nan⟩ ∧
    (findExtremalProjectedPointsAlongAxis KFloat.round32 [hugePoint] doubleAxis
        DefaultAccessor).min = KVector3D.ofCoords 0 0 0 := by
  refine ⟨hugePoint_dot32.1, ?_, ?_⟩
  · rw [hugePoint_dot32.1]
    simp [KVector3D.smul, doubleAxis, KVector3D.ofCoords, KFloat.mul]
  · exact congrArg MinMax.min
      (findExtremalAlongAxis_single_pinf (AxisMutator KFloat.round32) hugePoint doubleAxis
        hugePoint_dot32.1)

/-- C7, amended: for a non-empty sequence and an axis such that the projection
`dot(p, axis)` the code computes for every accessed point is finite (no overflow, no `NaN`),
`findExtremalProjectedPointsAlongAxis` (the projection mutator) returns
`max = dmax * axis` and `min = dmin * axis`, where `dmax` and `dmin` are the greatest and
the least of the computed projections and the products are those of the format, whatever its
rounding; and in binary32, for the points `(1,0,0)`, `(-1,0,0)` and the axis `(1,0,0)`, it
returns `min = (-1,0,0)` and `max = (1,0,0)`. -/
theorem findExtremalProjectedPointsAlongAxis_projection :
    (∀ (rnd : α → KFloat α) (E : Type) (seq : List E) (axis : KVector3D α)
      (accessor : E → KVector3D α), seq ≠ [] →
      (∀ e ∈ seq, (KVector3D.dotProduct rnd (accessor e) axis).isFinite = true) →
      ∃ emax ∈ seq, ∃ emin ∈ seq,
        (∀ x ∈ seq,
          KFloat.le (KVector3D.dotProduct rnd (accessor x) axis)
            (KVector3D.dotProduct rnd (accessor emax) axis) = true ∧
          KFloat.le (KVector3D.dotProduct rnd (accessor emin) axis)
            (KVector3D.dotProduct rnd (accessor x) axis) = true) ∧
        (findExtremalProjectedPointsAlongAxis rnd seq axis accessor).max =
          KVector3D.smul rnd (KVector3D.dotProduct rnd (accessor emax) axis) axis ∧
        (findExtremalProjectedPointsAlongAxis rnd seq axis accessor).min =
          KVector3D.smul rnd (KVector3D.dotProduct rnd (accessor emin) axis) axis) ∧
    findExtremalProjectedPointsAlongAxis KFloat.round32
        [KVector3D.ofCoords 1 0 0, KVector3D.ofCoords (-1) 0 0]
        (KVector3D.ofCoords 1 0 0) DefaultAccessor =
      { min := KVector3D.ofCoords (-1) 0 0, max := KVector3D.ofCoords 1 0 0 } := by
  constructor
  · intro rnd E seq axis accessor hne hd
    obtain ⟨⟨l1, a, l2, h1, h2, h3, h4⟩, ⟨k1, b, k2, g1, g2, g3, g4⟩⟩ :=
      findExtremalAlongAxis_split seq axis accessor (AxisMutator rnd) hne hd
    have ha : a ∈ seq := by rw [h1]; simp
    have hb : b ∈ seq := by rw [g1]; simp
    refine ⟨a, ha, b, hb, ?_, h4, g4⟩
    intro x hx
    rw [KFloat.eq_fin_of_isFinite (hd x hx), KFloat.eq_fin_of_isFinite (hd a ha),
      KFloat.eq_fin_of_isFinite (hd b hb)]
    simp only [KFloat.le_fin_fin, decide_eq_true_eq]
    exact ⟨mem_split_le (fun e => (KVector3D.dotProduct rnd (accessor e) axis).value) seq l1
        l2 a x h1 h2 h3 hx,
      mem_split_ge (fun e => (KVector3D.dotProduct rnd (accessor e) axis).value) seq k1 k2 b
        x g1 g2 g3 hx⟩
  · exact samplePoints_projected32

/-- C7 amended, in binary32, at the points `(1,0,0)`, `(-1,0,0)` and the axis `(1,0,0)`. -/
theorem findExtremalProjectedPointsAlongAxis_projection_witness :
    (samplePoints ≠ [] ∧
      ∀ e ∈ samplePoints,
        (KVector3D.dotProduct KFloat.round32 (DefaultAccessor e) sampleAxis).isFinite =
          true) ∧
    ∃ emax ∈ samplePoints, ∃ emin ∈ samplePoints,
      (∀ x ∈ samplePoints,
        KFloat.le (KVector3D.dotProduct KFloat.round32 (DefaultAccessor x) sampleAxis)
          (KVector3D.dotProduct KFloat.round32 (DefaultAccessor emax) sampleAxis) = true ∧
        KFloat.le (KVector3D.dotProduct KFloat.round32 (DefaultAccessor emin) sampleAxis)
          (KVector3D.dotProduct KFloat.round32 (DefaultAccessor x) sampleAxis) = true) ∧
      (findExtremalProjectedPointsAlongAxis KFloat.round32 samplePoints sampleAxis
          DefaultAccessor).max =
        KVector3D.smul KFloat.round32
          (KVector3D.dotProduct KFloat.round32 (DefaultAccessor emax) sampleAxis) sampleAxis ∧
      (findExtremalProjectedPointsAlongAxis KFloat.round32 samplePoints sampleAxis
          DefaultAccessor).min =
        KVector3D.smul KFloat.round32
          (KVector3D.dotProduct KFloat.round32 (DefaultAccessor emin) sampleAxis) sampleAxis :=
  ⟨⟨samplePoints_ne_nil, samplePoints_dot32_isFinite⟩,
    findExtremalProjectedPointsAlongAxis_projection.1 KFloat.round32 _ samplePoints sampleAxis
      DefaultAccessor samplePoints_ne_nil samplePoints_dot32_isFinite⟩

omit [LinearOrderedField α] in
theorem getElem?_split_self {E : Type} (l1 l2 : List E) (e : E) :
    (l1 ++ e :: l2)[l1.length]? = some e := by
  rw [List.getElem?_append_right (le_refl l1.length)]
  simp

omit [LinearOrderedField α] in
theorem mem_of_getElem?_split_lt {E : Type} (l1 l2 : List E) (e x : E) (j : Nat)
    (hj : j < l1.length) (hx : (l1 ++ e :: l2)[j]? = some x) : x ∈ l1 := by
  rw [List.getElem?_append_left hj] at hx
  exact List.getElem?_mem hx

/-- C8, amended: ties are resolved first-wins.  For a non-empty sequence and an axis such
that the projection the code computes for every accessed point is finite (no overflow, no
`NaN`), the `max` returned by `findExtremalAlongAxis` with the default mutator is the
accessed element at an index `k` whose computed projection is the greatest of all, and no
element at an index below `k` has that projection; likewise the `min` is the accessed
element at the smallest index whose computed projection is the least of all.  This holds
whatever the rounding of the format. -/
theorem findExtremalAlongAxis_first_wins (rnd : α → KFloat α) {E : Type} (seq : List E)
    (axis : KVector3D α) (accessor : E → KVector3D α) (hne : seq ≠ [])
    (hd : ∀ e ∈ seq, (KVector3D.dotProduct rnd (accessor e) axis).isFinite = true) :
    (∃ (k : Nat) (e : E), seq[k]? = some e ∧
      (findExtremalAlongAxis rnd seq axis accessor DefaultMutator).max = accessor e ∧
      (∀ x ∈ seq, KFloat.le (KVector3D.dotProduct rnd (accessor x) axis)
        (KVector3D.dotProduct rnd (accessor e) axis) = true) ∧
      ∀ (j : Nat) (x : E), seq[j]? = some x →
        KVector3D.dotProduct rnd (accessor x) axis =
          KVector3D.dotProduct rnd (accessor e) axis →
        k ≤ j) ∧
    (∃ (k : Nat) (e : E), seq[k]? = some e ∧
      (findExtremalAlongAxis rnd seq axis accessor DefaultMutator).min = accessor e ∧
      (∀ x ∈ seq, KFloat.le (KVector3D.dotProduct rnd (accessor e) axis)
        (KVector3D.dotProduct rnd (accessor x) axis) = true) ∧
      ∀ (j : Nat) (x : E), seq[j]? = some x →
        KVector3D.dotProduct rnd (accessor x) axis =
          KVector3D.dotProduct rnd (accessor e) axis →
        k ≤ j) := by
  obtain ⟨⟨l1, a, l2, h1, h2, h3, h4⟩, ⟨k1, b, k2, g1, g2, g3, g4⟩⟩ :=
    findExtremalAlongAxis_split seq axis accessor DefaultMutator hne hd
  have ha : a ∈ seq := by rw [h1]; simp
  have hb : b ∈ seq := by rw [g1]; simp
  constructor
  · refine ⟨l1.length, a, ?_, h4, ?_, ?_⟩
    · rw [h1]; exact getElem?_split_self l1 l2 a
    · intro x hx
      rw [KFloat.eq_fin_of_isFinite (hd x hx), KFloat.eq_fin_of_isFinite (hd a ha)]
      simp only [KFloat.le_fin_fin, decide_eq_true_eq]
      exact mem_split_le (fun e => (KVector3D.dotProduct rnd (accessor e) axis).value) seq l1
        l2 a x h1 h2 h3 hx
    · intro j x hj hdot
      by_contra hlt
      rw [h1] at hj
      have hx := mem_of_getElem?_split_lt l1 l2 a x j (not_le.mp hlt) hj
      have hlt2 := h2 x hx
      rw [hdot] at hlt2
      exact lt_irrefl _ hlt2
  · refine ⟨k1.length, b, ?_, g4, ?_, ?_⟩
    · rw [g1]; exact getElem?_split_self k1 k2 b
    · intro x hx
      rw [KFloat.eq_fin_of_isFinite (hd x hx), KFloat.eq_fin_of_isFinite (hd b hb)]
      simp only [KFloat.le_fin_fin, decide_eq_true_eq]
      exact mem_split_ge (fun e => (KVector3D.dotProduct rnd (accessor e) axis).value) seq k1
        k2 b x g1 g2 g3 hx
    · intro j x hj hdot
      by_contra hlt
      rw [g1] at hj
      have hx := mem_of_getElem?_split_lt k1 k2 b x j (not_le.mp hlt) hj
      have hlt2 := g2 x hx
      rw [hdot] at hlt2
      exact lt_irrefl _ hlt2

/-- C8 fails when the projections overflow: for the binary32 points `(2^127, 1, 0)` and
`(2^127, 0, 0)` and the axis `(2, 0, 0)` both projections are `+infinity`, and the `min`
returned is `(0,0,0)`, which is the element at no index of the sequence. -/
theorem findExtremalAlongAxis_overflow_min_no_index :
    (∀ x ∈ [hugePoint2, hugePoint],
      KVector3D.dotProduct KFloat.round32 (DefaultAccessor x) doubleAxis = .pinf) ∧
    (findExtremalAlongAxis KFloat.round32 [hugePoint2, hugePoint] doubleAxis DefaultAccessor
        DefaultMutator).min = KVector3D.ofCoords 0 0 0 ∧
    ∀ (k : Nat) (e : KVector3D ℚ), [hugePoint2, hugePoint][k]? = some e →
      (findExtremalAlongAxis KFloat.round32 [hugePoint2, hugePoint] doubleAxis
        DefaultAccessor DefaultMutator).min ≠ DefaultAccessor e := by
  have hres : (findExtremalAlongAxis KFloat.round32 [hugePoint2, hugePoint] doubleAxis
      DefaultAccessor DefaultMutator).min = KVector3D.ofCoords 0 0 0 :=
    congrArg MinMax.min
      (findExtremalAlongAxis_all_pinf DefaultMutator hugePoint2 hugePoint doubleAxis
        hugePoint_dot32.2 hugePoint_dot32.1)
  refine ⟨?_, hres, ?_⟩
  · intro x hx
    simp only [List.mem_cons, List.mem_singleton, List.not_mem_nil, or_false] at hx
    rcases hx with rfl | rfl
    · exact hugePoint_dot32.2
    · exact hugePoint_dot32.1
  · intro k e hk heq
    have hmem : e ∈ [hugePoint2, hugePoint] := List.getElem?_mem hk
    rw [hres] at heq
    simp only [List.mem_cons, List.mem_singleton, List.not_mem_nil, or_false] at hmem
    rcases hmem with rfl | rfl
    · simp only [DefaultAccessor, hugePoint2, KVector3D.ofCoords, KVector3D.mk.injEq,
        KFloat.fin.injEq] at heq
      have h := heq.1
      norm_num at h
    · simp only [DefaultAccessor, hugePoint, KVector3D.ofCoords, KVector3D.mk.injEq,
        KFloat.fin.injEq] at heq
      have h := heq.1
      norm_num at h

/-- When the computed projections of the two points of a sequence are the same finite
value, both `max` and `min` are taken from the first point. -/
theorem findExtremalAlongAxis_tie
    (mutator : KVector3D α → KFloat α → KVector3D α → KVector3D α) (p q axis : KVector3D α)
    (d : α) (hp : KVector3D.dotProduct rnd p axis = .fin d)
    (hq : KVector3D.dotProduct rnd q axis = .fin d) :
    findExtremalAlongAxis rnd [p, q] axis DefaultAccessor mutator =
      { max := mutator p (.fin d) axis, min := mutator p (.fin d) axis } := by
  simp [findExtremalAlongAxis, findExtremalAlongAxisStep_eq, findExtremalAlongAxisInit,
    DefaultAccessor, hp, hq, KFloat.gt, KFloat.lt, KFloat.infinity, KFloat.neg]

theorem KFloat.round32_two_pow_24 : KFloat.round32 16777216 = .fin 16777216 := by
  have hb : KFloat.binade |(16777216 : ℚ)| = 24 := by
    rw [KFloat.binade, KFloat.log2_eq _ 24 (by norm_num) (by norm_num) (by norm_num)]; rfl
  simp only [KFloat.round32, hb]
  norm_num [KFloat.roundHalfEven]

/-- In binary32 the projections of `(2^24, 0, 0)` and `(2^24, 1, 0)` on `(1, 1, 0)` are both
`2^24`: the exact projection `2^24 + 1` of the second point is not a binary32 value and is
rounded to `2^24`. -/
theorem roundingTiePoints_dot32 :
    KVector3D.dotProduct KFloat.round32 (KVector3D.ofCoords 16777216 0 0) diagonalAxis =
      .fin 16777216 ∧
    KVector3D.dotProduct KFloat.round32 (KVector3D.ofCoords 16777216 1 0) diagonalAxis =
      .fin 16777216 := by
  have h1 : KFloat.round32 ((16777216 : ℚ) + 1) = .fin 16777216 := by
    rw [show (16777216 : ℚ) + 1 = 16777217 by norm_num, KFloat.round32_tie]
  simp [KVector3D.dotProduct, diagonalAxis, KVector3D.ofCoords, KFloat.round32_zero,
    KFloat.round32_one, KFloat.round32_two_pow_24, h1]

theorem roundingTiePoints_dot32_isFinite :
    ∀ e ∈ roundingTiePoints,
      (KVector3D.dotProduct KFloat.round32 (DefaultAccessor e) diagonalAxis).isFinite =
        true := by
  intro e he
  simp only [roundingTiePoints, List.mem_cons, List.mem_singleton, List.not_mem_nil,
    or_false] at he
  rcases he with rfl | rfl
  · rw [DefaultAccessor, roundingTiePoints_dot32.1]; rfl
  · rw [DefaultAccessor, roundingTiePoints_dot32.2]; rfl

/-- C8 amended, in binary32, at the points `(2^24, 0, 0)`, `(2^24, 1, 0)` and the axis
`(1, 1, 0)`: the two computed projections tie at `2^24` and the first point is returned as
`max`. -/
theorem findExtremalAlongAxis_first_wins_witness :
    (roundingTiePoints ≠ [] ∧
      ∀ e ∈ roundingTiePoints,
        (KVector3D.dotProduct KFloat.round32 (DefaultAccessor e) diagonalAxis).isFinite =
          true) ∧
    (∃ (k : Nat) (e : KVector3D ℚ), roundingTiePoints[k]? = some e ∧
      (findExtremalAlongAxis KFloat.round32 roundingTiePoints diagonalAxis DefaultAccessor
        DefaultMutator).max = DefaultAccessor e ∧
      (∀ x ∈ roundingTiePoints,
        KFloat.le (KVector3D.dotProduct KFloat.round32 (DefaultAccessor x) diagonalAxis)
          (KVector3D.dotProduct KFloat.round32 (DefaultAccessor e) diagonalAxis) = true) ∧
      ∀ (j : Nat) (x : KVector3D ℚ), roundingTiePoints[j]? = some x →
        KVector3D.dotProduct KFloat.round32 (DefaultAccessor x) diagonalAxis =
          KVector3D.dotProduct KFloat.round32 (DefaultAccessor e) diagonalAxis →
        k ≤ j) ∧
    (findExtremalAlongAxis KFloat.round32 roundingTiePoints diagonalAxis DefaultAccessor
      DefaultMutator).max = KVector3D.ofCoords 16777216 0 0 :=
  ⟨⟨List.cons_ne_nil _ _, roundingTiePoints_dot32_isFinite⟩,
    (findExtremalAlongAxis_first_wins KFloat.round32 roundingTiePoints diagonalAxis
      DefaultAccessor (List.cons_ne_nil _ _) roundingTiePoints_dot32_isFinite).1,
    congrArg MinMax.max
      (findExtremalAlongAxis_tie DefaultMutator (KVector3D.ofCoords 16777216 0 0)
        (KVector3D.ofCoords 16777216 1 0) diagonalAxis 16777216 roundingTiePoints_dot32.1
        roundingTiePoints_dot32.2)⟩

theorem tiePoints_ne_nil : tiePoints ≠ [] := by simp [tiePoints]

theorem tiePoints_isFinite : ∀ e ∈ tiePoints, (DefaultAccessor e).isFinite = true := by
  intro e he
  simp only [tiePoints, List.mem_cons, List.mem_singleton, List.not_mem_nil, or_false] at he
  rcases he with rfl | rfl | rfl <;> rfl

end Projection

/-! ## `maxSeperatedAlongAxis` against the single-axis query -/

section Separated

variable {α : Type} [LinearOrderedField α] {rnd : α → KFloat α}

theorem maxSeperatedAlongAxisStep_eq (axis : KVector3D α) (s : SeparatedState α)
    (p : KVector3D α) :
    maxSeperatedAlongAxisStep rnd axis s p =
      { maxProjDist :=
          if KFloat.gt (KVector3D.dotProduct rnd p axis) s.maxProjDist then KVector3D.dotProduct rnd p axis
          else s.maxProjDist
        minProjDist :=
          if KFloat.lt (KVector3D.dotProduct rnd p axis) s.minProjDist then KVector3D.dotProduct rnd p axis
          else s.minProjDist
        min := if KFloat.lt (KVector3D.dotProduct rnd p axis) s.minProjDist then p else s.min
        max := if KFloat.gt (KVector3D.dotProduct rnd p axis) s.maxProjDist then p else s.max } := by
  obtain ⟨a, b, c, d⟩ := s
  cases h1 : KFloat.gt (KVector3D.dotProduct rnd p axis) a <;>
    cases h2 : KFloat.lt (KVector3D.dotProduct rnd p axis) b <;>
    simp [maxSeperatedAlongAxisStep, h1, h2]

/-- The two loops run in lockstep: from states that agree they reach states that agree. -/
theorem maxSeperatedAlongAxis_foldl_sim (rnd : α → KFloat α) {E : Type} (f : E → KVector3D α) (axis : KVector3D α)
    (rest : List E) (t : SeparatedState α) (s : ExtremalState α)
    (h1 : t.maxProjDist = s.maxProjDist) (h2 : t.minProjDist = s.minProjDist)
    (h3 : t.min = s.maxMin.min) (h4 : t.max = s.maxMin.max) :
    (rest.foldl (fun s e => maxSeperatedAlongAxisStep rnd axis s (f e)) t).min =
      (rest.foldl (fun s e => findExtremalAlongAxisStep rnd axis DefaultMutator s (f e))
        s).maxMin.min ∧
    (rest.foldl (fun s e => maxSeperatedAlongAxisStep rnd axis s (f e)) t).max =
      (rest.foldl (fun s e => findExtremalAlongAxisStep rnd axis DefaultMutator s (f e))
        s).maxMin.max := by
  induction rest generalizing t s with
  | nil => exact ⟨h3, h4⟩
  | cons y ys ih =>
    simp only [List.foldl_cons]
    apply ih
    · simp [maxSeperatedAlongAxisStep_eq, findExtremalAlongAxisStep_eq, h1]
    · simp [maxSeperatedAlongAxisStep_eq, findExtremalAlongAxisStep_eq, h2]
    · simp [maxSeperatedAlongAxisStep_eq, findExtremalAlongAxisStep_eq, h2, h3, DefaultMutator]
    · simp [maxSeperatedAlongAxisStep_eq, findExtremalAlongAxisStep_eq, h1, h4, DefaultMutator]
/-- When the projection of the only point is `+infinity`, `maxSeperatedAlongAxis` writes the
point to `*max` and leaves `*min` as it was. -/
theorem maxSeperatedAlongAxis_single_pinf (p axis min0 max0 : KVector3D α)
    (hp : KVector3D.dotProduct rnd p axis = .pinf) :
    maxSeperatedAlongAxis rnd [p] DefaultAccessor axis min0 max0 = (min0, p) := by
  simp [maxSeperatedAlongAxis, maxSeperatedAlongAxisStep_eq, DefaultAccessor, hp, KFloat.gt,
    KFloat.lt, KFloat.infinity, KFloat.neg]

/-- C9 fails when the projection overflows: for the binary32 point `(2^127, 0, 0)`, the axis
`(2, 0, 0)` and output cells that held `(7,7,7)` and `(9,9,9)` before the call, the
projection is `+infinity`, `maxSeperatedAlongAxis` leaves `(7,7,7)` in `*min`, and the `min`
returned by `findExtremalPointsAlongAxis` is `(0,0,0)`. -/
theorem maxSeperatedAlongAxis_overflow_keeps_min :
    KVector3D.dotProduct KFloat.round32 (DefaultAccessor hugePoint) doubleAxis = .pinf ∧
    maxSeperatedAlongAxis KFloat.round32 [hugePoint] DefaultAccessor doubleAxis
        (KVector3D.ofCoords 7 7 7) (KVector3D.ofCoords 9 9 9) =
      (KVector3D.ofCoords 7 7 7, hugePoint) ∧
    (findExtremalPointsAlongAxis KFloat.round32 [hugePoint] doubleAxis DefaultAccessor).min =
      KVector3D.ofCoords 0 0 0 ∧
    maxSeperatedAlongAxis KFloat.round32 [hugePoint] DefaultAccessor doubleAxis
        (KVector3D.ofCoords 7 7 7) (KVector3D.ofCoords 9 9 9) ≠
      ((findExtremalPointsAlongAxis KFloat.round32 [hugePoint] doubleAxis
          DefaultAccessor).min,
        (findExtremalPointsAlongAxis KFloat.round32 [hugePoint] doubleAxis
          DefaultAccessor).max) := by
  have h1 := maxSeperatedAlongAxis_single_pinf hugePoint doubleAxis
    (KVector3D.ofCoords 7 7 7) (KVector3D.ofCoords 9 9 9) hugePoint_dot32.1
  have h2 : (findExtremalPointsAlongAxis KFloat.round32 [hugePoint] doubleAxis
      DefaultAccessor).min = KVector3D.ofCoords 0 0 0 :=
    congrArg MinMax.min
      (findExtremalAlongAxis_single_pinf DefaultMutator hugePoint doubleAxis
        hugePoint_dot32.1)
  refine ⟨hugePoint_dot32.1, h1, h2, ?_⟩
  rw [h1, h2]
  intro h
  have h3 := congrArg (fun q : KVector3D ℚ × KVector3D ℚ => q.1.x) h
  simp [KVector3D.ofCoords] at h3

/-- C9, amended: for a non-empty sequence and an axis such that the projection the code
computes for every accessed point is finite (no overflow, no `NaN`), whatever the output
cells held before the call and whatever the rounding of the format, the values that
`maxSeperatedAlongAxis` leaves in `*min` and `*max` are the `min` and `max` fields returned
by `findExtremalPointsAlongAxis` on the same sequence, axis and accessor. -/
theorem maxSeperatedAlongAxis_eq_findExtremalPointsAlongAxis (rnd : α → KFloat α) {E : Type}
    (seq : List E) (f : E → KVector3D α) (axis : KVector3D α) (min0 max0 : KVector3D α)
    (hne : seq ≠ [])
    (hd : ∀ e ∈ seq, (KVector3D.dotProduct rnd (f e) axis).isFinite = true) :
    maxSeperatedAlongAxis rnd seq f axis min0 max0 =
      ((findExtremalPointsAlongAxis rnd seq axis f).min,
        (findExtremalPointsAlongAxis rnd seq axis f).max) := by
  cases seq with
  | nil => exact absurd rfl hne
  | cons y ys =>
    have hy := KFloat.eq_fin_of_isFinite (hd y (List.mem_cons_self y ys))
    have hgt : KFloat.gt (KVector3D.dotProduct rnd (f y) axis) (.ninf : KFloat α) = true := by
      rw [hy]; rfl
    have hlt : KFloat.lt (KVector3D.dotProduct rnd (f y) axis) (.pinf : KFloat α) = true := by
      rw [hy]; rfl
    have h := maxSeperatedAlongAxis_foldl_sim rnd f axis ys
      (maxSeperatedAlongAxisStep rnd axis
        { maxProjDist := KFloat.neg KFloat.infinity, minProjDist := KFloat.infinity,
          min := min0, max := max0 } (f y))
      (findExtremalAlongAxisStep rnd axis DefaultMutator findExtremalAlongAxisInit (f y))
      (by simp [maxSeperatedAlongAxisStep_eq, findExtremalAlongAxisStep_eq,
        findExtremalAlongAxisInit])
      (by simp [maxSeperatedAlongAxisStep_eq, findExtremalAlongAxisStep_eq,
        findExtremalAlongAxisInit])
      (by simp [maxSeperatedAlongAxisStep_eq, findExtremalAlongAxisStep_eq,
        findExtremalAlongAxisInit, KFloat.infinity, hlt, DefaultMutator])
      (by simp [maxSeperatedAlongAxisStep_eq, findExtremalAlongAxisStep_eq,
        findExtremalAlongAxisInit, KFloat.infinity, KFloat.neg, hgt, DefaultMutator])
    simp only [maxSeperatedAlongAxis, findExtremalPointsAlongAxis, findExtremalAlongAxis,
      List.foldl_cons, Prod.mk.injEq]
    exact h

/-- C9 amended, in binary32, at the points `(1,0,0)`, `(-1,0,0)` and the axis `(1,0,0)`,
with output cells that held `(7,7,7)` and `(9,9,9)` before the call. -/
theorem maxSeperatedAlongAxis_eq_findExtremalPointsAlongAxis_witness :
    (samplePoints ≠ [] ∧
      ∀ e ∈ samplePoints,
        (KVector3D.dotProduct KFloat.round32 (DefaultAccessor e) sampleAxis).isFinite =
          true) ∧
    maxSeperatedAlongAxis KFloat.round32 samplePoints DefaultAccessor sampleAxis
        (KVector3D.ofCoords 7 7 7) (KVector3D.ofCoords 9 9 9) =
      ((findExtremalPointsAlongAxis KFloat.round32 samplePoints sampleAxis
          DefaultAccessor).min,
        (findExtremalPointsAlongAxis KFloat.round32 samplePoints sampleAxis
          DefaultAccessor).max) :=
  ⟨⟨samplePoints_ne_nil, samplePoints_dot32_isFinite⟩,
    maxSeperatedAlongAxis_eq_findExtremalPointsAlongAxis KFloat.round32 samplePoints
      DefaultAccessor sampleAxis _ _ samplePoints_ne_nil samplePoints_dot32_isFinite⟩

end Separated

/-! ## Single-element sequences -/

section Single

variable {α : Type} [LinearOrderedField α] {rnd : α → KFloat α}

/-- In binary32 the projection of `(2^127, 2^127, 0)` on `(1, 1, 0)` overflows: the sum
`2^127 + 2^127` is rounded to `+infinity`. -/
theorem hugeDiagonal_dot32 :
    KVector3D.dotProduct KFloat.round32 hugeDiagonal diagonalAxis = .pinf := by
  have h : KFloat.round32 ((2 : ℚ) ^ 127 + 2 ^ 127) = .pinf := by
    rw [show (2 : ℚ) ^ 127 + 2 ^ 127 = 2 ^ 128 by norm_num, KFloat.round32_two_pow_128]
  simp only [KVector3D.dotProduct, hugeDiagonal, diagonalAxis, KVector3D.ofCoords,
    KFloat.mul_fin_fin, mul_one, mul_zero, KFloat.round32_two_pow_127, KFloat.add_fin_fin, h,
    KFloat.round32_zero]
  rfl

/-- C10 fails for the extremal query when the projection overflows: the coordinates of
`p = (2^127, 2^127, 0)` and of the axis `(1, 1, 0)` are binary32 values, the projection
`2^127 + 2^127` is `+infinity`, and `findExtremalPointsAlongAxis` on the single point `p`
returns `max = p` but `min = (0,0,0)`, which is not `p`. -/
theorem single_element_overflow_min :
    (KFloat.round32 (2 ^ 127) = .fin (2 ^ 127) ∧ KFloat.round32 1 = .fin 1 ∧
      KFloat.round32 0 = .fin 0) ∧
    KVector3D.dotProduct KFloat.round32 (DefaultAccessor hugeDiagonal) diagonalAxis =
      .pinf ∧
    findExtremalPointsAlongAxis KFloat.round32 [hugeDiagonal] diagonalAxis DefaultAccessor =
      { max := hugeDiagonal, min := KVector3D.ofCoords 0 0 0 } ∧
    (findExtremalPointsAlongAxis KFloat.round32 [hugeDiagonal] diagonalAxis
      DefaultAccessor).min ≠ DefaultAccessor hugeDiagonal := by
  have hres : findExtremalPointsAlongAxis KFloat.round32 [hugeDiagonal] diagonalAxis
      DefaultAccessor = { max := hugeDiagonal, min := KVector3D.ofCoords 0 0 0 } :=
    findExtremalAlongAxis_single_pinf DefaultMutator hugeDiagonal diagonalAxis
      hugeDiagonal_dot32
  refine ⟨⟨KFloat.round32_two_pow_127, KFloat.round32_one, KFloat.round32_zero⟩,
    hugeDiagonal_dot32, hres, ?_⟩
  rw [hres]
  intro h
  have h3 := congrArg KVector3D.x h
  simp only [DefaultAccessor, hugeDiagonal, KVector3D.ofCoords, KFloat.fin.injEq] at h3
  norm_num at h3

/-- C10, amended: for a single-element sequence whose accessed point `p` has finite
coordinates, `findMinMaxBounds` returns `min = max = p`; when moreover the projection
`dot(p, axis)` the code computes is finite (no overflow, no `NaN`),
`findExtremalPointsAlongAxis` returns `min = max = p`; and when the coordinates of `p` and
the number `1` are values of the format (rounding leaves them unchanged),
`findAverageCentroid` returns `p`.  This holds whatever the rounding of the format. -/
theorem single_element (rnd : α → KFloat α) {E : Type} (e : E) (accessor : E → KVector3D α)
    (axis : KVector3D α) (hfin : (accessor e).isFinite = true) :
    findMinMaxBounds [e] accessor = { min := accessor e, max := accessor e } ∧
    ((KVector3D.dotProduct rnd (accessor e) axis).isFinite = true →
      findExtremalPointsAlongAxis rnd [e] axis accessor =
        { min := accessor e, max := accessor e }) ∧
    ((∀ i : Fin 3, rnd ((accessor e).coord i).value = (accessor e).coord i) →
      rnd 1 = .fin 1 →
      findAverageCentroid rnd [e] accessor = accessor e) := by
  obtain ⟨a, b, c, hp⟩ : ∃ a b c : α, accessor e = ⟨.fin a, .fin b, .fin c⟩ :=
    ⟨_, _, _, KVector3D.eq_of_isFinite _ hfin⟩
  refine ⟨?_, ?_, ?_⟩
  · simp [findMinMaxBounds, findMinMaxBoundsStep_eq, KFloat.infinity, KFloat.neg, KFloat.gt,
      hp]
  · intro hd0
    have hd := KFloat.eq_fin_of_isFinite hd0
    have hgt : KFloat.gt (KVector3D.dotProduct rnd (accessor e) axis) (.ninf : KFloat α) =
        true := by
      rw [hd]; rfl
    have hlt : KFloat.lt (KVector3D.dotProduct rnd (accessor e) axis) (.pinf : KFloat α) =
        true := by
      rw [hd]; rfl
    simp [findExtremalPointsAlongAxis, findExtremalAlongAxis, findExtremalAlongAxisStep_eq,
      findExtremalAlongAxisInit, KFloat.infinity, KFloat.neg, hgt, hlt, DefaultMutator]
  · intro hrep h1
    have ha : rnd a = .fin a := by simpa [hp, KVector3D.coord] using hrep 0
    have hb : rnd b = .fin b := by simpa [hp, KVector3D.coord] using hrep 1
    have hc : rnd c = .fin c := by simpa [hp, KVector3D.coord] using hrep 2
    simp [findAverageCentroid, KVector3D.zero, KVector3D.add, KVector3D.divScalar,
      KFloat.ofCount, KFloat.div, hp, ha, hb, hc, h1]

/-- C10 amended, in binary32, at the single point `(-1,0,0)` and the axis `(1,0,0)`. -/
theorem single_element_witness :
    (DefaultAccessor (KVector3D.ofCoords (-1 : ℚ) 0 0)).isFinite = true ∧
    findMinMaxBounds [KVector3D.ofCoords (-1 : ℚ) 0 0] DefaultAccessor =
      { min := KVector3D.ofCoords (-1) 0 0, max := KVector3D.ofCoords (-1) 0 0 } ∧
    findExtremalPointsAlongAxis KFloat.round32 [KVector3D.ofCoords (-1) 0 0] sampleAxis
        DefaultAccessor =
      { min := KVector3D.ofCoords (-1) 0 0, max := KVector3D.ofCoords (-1) 0 0 } ∧
    findAverageCentroid KFloat.round32 [KVector3D.ofCoords (-1) 0 0] DefaultAccessor =
      KVector3D.ofCoords (-1) 0 0 :=
  have h := single_element KFloat.round32 (KVector3D.ofCoords (-1 : ℚ) 0 0) DefaultAccessor
    sampleAxis rfl
  ⟨rfl, h.1,
    h.2.1 (by rw [DefaultAccessor, samplePoints_dot32.2]; rfl),
    h.2.2
      (by
        intro i
        fin_cases i
        · exact KFloat.round32_neg_one
        · exact KFloat.round32_zero
        · exact KFloat.round32_zero)
      KFloat.round32_one⟩

end Single

/-! ## `findMinMaxBounds`: the box is tight; the empty box -/

section Tight

variable {α : Type} [LinearOrderedField α]

theorem foldl_min_mem (xs : List α) (a : α) : xs.foldl min a = a ∨ xs.foldl min a ∈ xs := by
  induction xs generalizing a with
  | nil => exact Or.inl rfl
  | cons x xs ih =>
    rw [List.foldl_cons]
    rcases ih (min a x) with h | h
    · rcases min_choice a x with h2 | h2
      · exact Or.inl (by rw [h, h2])
      · exact Or.inr (by rw [h, h2]; exact List.mem_cons_self x xs)
    · exact Or.inr (List.mem_cons_of_mem x h)

theorem foldl_max_mem (xs : List α) (a : α) : xs.foldl max a = a ∨ xs.foldl max a ∈ xs := by
  induction xs generalizing a with
  | nil => exact Or.inl rfl
  | cons x xs ih =>
    rw [List.foldl_cons]
    rcases ih (max a x) with h | h
    · rcases max_choice a x with h2 | h2
      · exact Or.inl (by rw [h, h2])
      · exact Or.inr (by rw [h, h2]; exact List.mem_cons_self x xs)
    · exact Or.inr (List.mem_cons_of_mem x h)

theorem KFloat.runMin_runMax_mem (l : List (KFloat α)) (hne : l ≠ [])
    (hfin : ∀ v ∈ l, v.isFinite = true) :
    KFloat.runMin .pinf l ∈ l ∧ KFloat.runMax .ninf l ∈ l := by
  rw [KFloat.map_eq_map_fin l hfin]
  cases h : l.map KFloat.value with
  | nil => simp at h; exact absurd h hne
  | cons x xs =>
    simp only [List.map_cons]
    rw [KFloat.runMin_pinf_cons, KFloat.runMax_ninf_cons]
    constructor
    · rcases foldl_min_mem xs x with h1 | h1
      · rw [h1]; exact List.mem_cons_self _ _
      · exact List.mem_cons_of_mem _ (List.mem_map.mpr ⟨_, h1, rfl⟩)
    · rcases foldl_max_mem xs x with h1 | h1
      · rw [h1]; exact List.mem_cons_self _ _
      · exact List.mem_cons_of_mem _ (List.mem_map.mpr ⟨_, h1, rfl⟩)

omit [LinearOrderedField α] in
theorem KVector3D.coord_isFinite (v : KVector3D α) (hv : v.isFinite = true) (i : Fin 3) :
    (v.coord i).isFinite = true := by
  obtain ⟨h1, h2, h3⟩ := (KVector3D.isFinite_iff v).mp hv
  fin_cases i
  · exact h1
  · exact h2
  · exact h3

theorem findMinMaxBounds_coord {E : Type} (seq : List E) (accessor : E → KVector3D α)
    (i : Fin 3) :
    (findMinMaxBounds seq accessor).min.coord i =
        KFloat.runMin .pinf (seq.map fun e => (accessor e).coord i) ∧
      (findMinMaxBounds seq accessor).max.coord i =
        KFloat.runMax .ninf (seq.map fun e => (accessor e).coord i) := by
  simp only [findMinMaxBounds, findMinMaxBounds_foldl, KFloat.infinity, KFloat.neg]
  fin_cases i <;> exact ⟨rfl, rfl⟩

/-- C11: for a non-empty sequence of points with exact coordinates, each component of the
`min` returned by `findMinMaxBounds` is the least value of that coordinate over the accessed
points (it is the coordinate of some accessed point and it is `<=` the coordinate of every
one), and each component of `max` is the greatest value of that coordinate. -/
theorem findMinMaxBounds_tight {E : Type} (seq : List E) (accessor : E → KVector3D α)
    (hne : seq ≠ []) (hfin : ∀ e ∈ seq, (accessor e).isFinite = true) (i : Fin 3) :
    ((∃ e ∈ seq, (findMinMaxBounds seq accessor).min.coord i = (accessor e).coord i) ∧
      ∀ e ∈ seq,
        KFloat.le ((findMinMaxBounds seq accessor).min.coord i) ((accessor e).coord i) = true) ∧
    ((∃ e ∈ seq, (findMinMaxBounds seq accessor).max.coord i = (accessor e).coord i) ∧
      ∀ e ∈ seq,
        KFloat.le ((accessor e).coord i) ((findMinMaxBounds seq accessor).max.coord i) = true) := by
  have hl : (seq.map fun e => (accessor e).coord i) ≠ [] := by simpa using hne
  have hf : ∀ v ∈ seq.map (fun e => (accessor e).coord i), v.isFinite = true := by
    intro v hv
    obtain ⟨e, he, rfl⟩ := List.mem_map.mp hv
    exact KVector3D.coord_isFinite _ (hfin e he) i
  obtain ⟨hmin, hmax⟩ := findMinMaxBounds_coord seq accessor i
  obtain ⟨m1, m2⟩ := KFloat.runMin_runMax_mem _ hl hf
  obtain ⟨-, b⟩ := KFloat.runMin_runMax_spec _ hl hf
  rw [hmin, hmax]
  refine ⟨⟨?_, fun e he => (b _ (List.mem_map.mpr ⟨e, he, rfl⟩)).1⟩,
    ⟨?_, fun e he => (b _ (List.mem_map.mpr ⟨e, he, rfl⟩)).2⟩⟩
  · obtain ⟨e, he, h⟩ := List.mem_map.mp m1
    exact ⟨e, he, h.symm⟩
  · obtain ⟨e, he, h⟩ := List.mem_map.mp m2
    exact ⟨e, he, h.symm⟩

/-- C11, at the points `(1,0,0)`, `(1,5,0)`, `(-1,0,0)` over the rationals, for the second
coordinate: the bounds are `0` and `5`. -/
theorem findMinMaxBounds_tight_witness :
    (tiePoints ≠ [] ∧ ∀ e ∈ tiePoints, (DefaultAccessor e).isFinite = true) ∧
    (((∃ e ∈ tiePoints,
          (findMinMaxBounds tiePoints DefaultAccessor).min.coord 1 = (DefaultAccessor e).coord 1) ∧
        ∀ e ∈ tiePoints,
          KFloat.le ((findMinMaxBounds tiePoints DefaultAccessor).min.coord 1)
            ((DefaultAccessor e).coord 1) = true) ∧
      ((∃ e ∈ tiePoints,
          (findMinMaxBounds tiePoints DefaultAccessor).max.coord 1 = (DefaultAccessor e).coord 1) ∧
        ∀ e ∈ tiePoints,
          KFloat.le ((DefaultAccessor e).coord 1)
            ((findMinMaxBounds tiePoints DefaultAccessor).max.coord 1) = true)) ∧
    (findMinMaxBounds tiePoints DefaultAccessor).min.coord 1 = .fin 0 ∧
    (findMinMaxBounds tiePoints DefaultAccessor).max.coord 1 = .fin 5 := by
  refine ⟨⟨tiePoints_ne_nil, tiePoints_isFinite⟩,
    findMinMaxBounds_tight tiePoints DefaultAccessor tiePoints_ne_nil tiePoints_isFinite 1, ?_, ?_⟩
  · rw [(findMinMaxBounds_coord tiePoints DefaultAccessor 1).1]
    norm_num [KFloat.runMin, tiePoints, KVector3D.ofCoords, DefaultAccessor, KFloat.gt,
      KVector3D.coord]
  · rw [(findMinMaxBounds_coord tiePoints DefaultAccessor 1).2]
    norm_num [KFloat.runMax, tiePoints, KVector3D.ofCoords, DefaultAccessor, KVector3D.coord]

/-- C12: on the empty sequence `findMinMaxBounds` returns the inverted box: every component
of `min` is `+infinity` and every component of `max` is `-infinity`. -/
theorem findMinMaxBounds_empty {E : Type} (accessor : E → KVector3D α) :
    findMinMaxBounds ([] : List E) accessor =
      { min := ⟨.pinf, .pinf, .pinf⟩, max := ⟨.ninf, .ninf, .ninf⟩ } := rfl

end Tight

/-! ## The centroid lies in the bounding box -/

section CentroidInBox

variable {α : Type} [LinearOrderedField α]

theorem length_mul_le_sum (ys : List α) (m : α) (h : ∀ y ∈ ys, m ≤ y) :
    (ys.length : α) * m ≤ ys.sum := by
  induction ys with
  | nil => simp
  | cons y ys ih =>
    have h1 := ih (fun z hz => h z (List.mem_cons_of_mem y hz))
    have h2 := h y (List.mem_cons_self y ys)
    simp only [List.length_cons, List.sum_cons, Nat.cast_add, Nat.cast_one]
    linarith

theorem sum_le_length_mul (ys : List α) (m : α) (h : ∀ y ∈ ys, y ≤ m) :
    ys.sum ≤ (ys.length : α) * m := by
  induction ys with
  | nil => simp
  | cons y ys ih =>
    have h1 := ih (fun z hz => h z (List.mem_cons_of_mem y hz))
    have h2 := h y (List.mem_cons_self y ys)
    simp only [List.length_cons, List.sum_cons, Nat.cast_add, Nat.cast_one]
    linarith

theorem mean_between (ys : List α) (hne : ys ≠ []) (lo hi : α)
    (h : ∀ y ∈ ys, lo ≤ y ∧ y ≤ hi) :
    lo ≤ ys.sum / (ys.length : α) ∧ ys.sum / (ys.length : α) ≤ hi := by
  have hn : (0 : α) < (ys.length : α) := by
    have h0 : 0 < ys.length := List.length_pos.mpr hne
    exact_mod_cast h0
  constructor
  · rw [le_div_iff₀ hn, mul_comm]
    exact length_mul_le_sum ys lo (fun y hy => (h y hy).1)
  · rw [div_le_iff₀ hn, mul_comm]
    exact sum_le_length_mul ys hi (fun y hy => (h y hy).2)

/-- C17: in exact arithmetic (the rounding is the identity), for a non-empty sequence of
points with exact coordinates, the point returned by `findAverageCentroid` lies in the box
returned by `findMinMaxBounds` on the same sequence: in each component,
`bounds.min <= centroid <= bounds.max`. -/
theorem findAverageCentroid_in_bounds {E : Type} (seq : List E) (accessor : E → KVector3D α)
    (hne : seq ≠ []) (hfin : ∀ e ∈ seq, (accessor e).isFinite = true) (i : Fin 3) :
    KFloat.le ((findMinMaxBounds seq accessor).min.coord i)
        ((findAverageCentroid KFloat.fin seq accessor).coord i) = true ∧
      KFloat.le ((findAverageCentroid KFloat.fin seq accessor).coord i)
        ((findMinMaxBounds seq accessor).max.coord i) = true := by
  have hl : (seq.map fun e => (accessor e).coord i) ≠ [] := by simpa using hne
  have hf : ∀ v ∈ seq.map (fun e => (accessor e).coord i), v.isFinite = true := by
    intro v hv
    obtain ⟨e, he, rfl⟩ := List.mem_map.mp hv
    exact KVector3D.coord_isFinite _ (hfin e he) i
  obtain ⟨hmin, hmax⟩ := findMinMaxBounds_coord seq accessor i
  obtain ⟨m1, m2⟩ := KFloat.runMin_runMax_mem _ hl hf
  obtain ⟨-, b⟩ := KFloat.runMin_runMax_spec _ hl hf
  have hlo := KFloat.eq_fin_of_isFinite (hf _ m1)
  have hhi := KFloat.eq_fin_of_isFinite (hf _ m2)
  have hc : (findAverageCentroid KFloat.fin seq accessor).coord i = .fin (meanCoord seq accessor i) := by
    rw [findAverageCentroid_eq_mean seq accessor hne hfin]
    fin_cases i <;> rfl
  have hb : ∀ y ∈ seq.map (fun e => ((accessor e).coord i).value),
      (KFloat.runMin .pinf (seq.map fun e => (accessor e).coord i)).value ≤ y ∧
      y ≤ (KFloat.runMax .ninf (seq.map fun e => (accessor e).coord i)).value := by
    intro y hy
    obtain ⟨e, he, rfl⟩ := List.mem_map.mp hy
    have hb1 := b _ (List.mem_map.mpr ⟨e, he, rfl⟩)
    have hv := KFloat.eq_fin_of_isFinite (KVector3D.coord_isFinite _ (hfin e he) i)
    rw [hlo, hhi, hv] at hb1
    simpa using hb1
  have hm := mean_between (seq.map fun e => ((accessor e).coord i).value)
    (by simpa using hne) _ _ hb
  rw [List.length_map] at hm
  rw [hmin, hmax, hc, hlo, hhi]
  simpa [meanCoord] using hm

/-- C17, at the points `(1,0,0)`, `(1,5,0)`, `(-1,0,0)` over the rationals, for the second
coordinate. -/
theorem findAverageCentroid_in_bounds_witness :
    (tiePoints ≠ [] ∧ ∀ e ∈ tiePoints, (DefaultAccessor e).isFinite = true) ∧
    KFloat.le ((findMinMaxBounds tiePoints DefaultAccessor).min.coord 1)
        ((findAverageCentroid KFloat.fin tiePoints DefaultAccessor).coord 1) = true ∧
      KFloat.le ((findAverageCentroid KFloat.fin tiePoints DefaultAccessor).coord 1)
        ((findMinMaxBounds tiePoints DefaultAccessor).max.coord 1) = true :=
  ⟨⟨tiePoints_ne_nil, tiePoints_isFinite⟩,
    findAverageCentroid_in_bounds tiePoints DefaultAccessor tiePoints_ne_nil
      tiePoints_isFinite 1⟩

end CentroidInBox

/-! ## The covariance matrix is positive semi-definite -/

section Semidefinite

variable {α : Type} [LinearOrderedField α]

theorem KFloat.value_fin (x : α) : (KFloat.fin x).value = x := rfl

/-- The quadratic form of a sum of outer products is a sum of squares. -/
theorem quadratic_form_sum {E : Type} (seq : List E) (g : E → Fin 3 → α) (k : α)
    (v : Fin 3 → α) :
    ∑ i, ∑ j, v i * (k * (seq.map fun e => g e i * g e j).sum) * v j =
      k * (seq.map fun e => (∑ i, v i * g e i) * (∑ i, v i * g e i)).sum := by
  induction seq with
  | nil => simp
  | cons e es ih =>
    simp only [Fin.sum_univ_three] at ih ⊢
    simp only [List.map_cons, List.sum_cons]
    linear_combination ih

theorem sum_mul_self_nonneg {E : Type} (seq : List E) (h : E → α) :
    0 ≤ (seq.map fun e => h e * h e).sum := by
  apply List.sum_nonneg
  intro x hx
  obtain ⟨e, -, rfl⟩ := List.mem_map.mp hx
  exact mul_self_nonneg _

theorem meanCoord_of_all_eq {E : Type} (seq : List E) (accessor : E → KVector3D α)
    (hne : seq ≠ []) (e0 : E) (hall : ∀ e ∈ seq, accessor e = accessor e0) (i : Fin 3) :
    meanCoord seq accessor i = ((accessor e0).coord i).value := by
  have h := mean_between (seq.map fun e => ((accessor e).coord i).value)
    (by simpa using hne) ((accessor e0).coord i).value ((accessor e0).coord i).value
    (by
      intro y hy
      obtain ⟨e, he, rfl⟩ := List.mem_map.mp hy
      rw [hall e he]
      exact ⟨le_refl _, le_refl _⟩)
  rw [List.length_map] at h
  exact le_antisymm h.2 h.1

/-- C18: in exact arithmetic (the rounding is the identity), for a non-empty sequence of
points with exact coordinates, the matrix `C` returned by `covarianceMatrix` has exact
entries and is positive semi-definite: for every vector `v`
the sum over `i, j` of `v[i] * C[i][j] * v[j]` is `>= 0`; its diagonal entries are `>= 0`;
and it is the zero matrix when all accessed points are equal. -/
theorem covarianceMatrix_positive_semidefinite {E : Type} (covariance0 : KMatrix3x3 α)
    (seq : List E) (accessor : E → KVector3D α) (hne : seq ≠ [])
    (hfin : ∀ e ∈ seq, (accessor e).isFinite = true) :
    (∀ i j, (covarianceMatrix KFloat.fin covariance0 seq accessor i j).isFinite = true) ∧
    (∀ v : Fin 3 → α,
      0 ≤ ∑ i, ∑ j, v i * (covarianceMatrix KFloat.fin covariance0 seq accessor i j).value * v j) ∧
    (∀ i, KFloat.le (.fin 0) (covarianceMatrix KFloat.fin covariance0 seq accessor i i) = true) ∧
    ((∀ e ∈ seq, ∀ e2 ∈ seq, accessor e = accessor e2) →
      ∀ i j, covarianceMatrix KFloat.fin covariance0 seq accessor i j = .fin 0) := by
  have hC := covarianceMatrix_eq_spec covariance0 seq accessor hne hfin
  have hn : (0 : α) ≤ 1 / (seq.length : α) := by
    apply div_nonneg zero_le_one
    exact_mod_cast Nat.zero_le _
  refine ⟨?_, ?_, ?_, ?_⟩
  · intro i j
    rw [hC]; rfl
  · intro v
    simp only [hC, KFloat.value_fin, covarianceSpec]
    rw [quadratic_form_sum seq
      (fun e i => ((accessor e).coord i).value - meanCoord seq accessor i)]
    exact mul_nonneg hn (sum_mul_self_nonneg seq _)
  · intro i
    rw [hC]
    simp only [KFloat.le_fin_fin, decide_eq_true_eq, covarianceSpec]
    exact mul_nonneg hn (sum_mul_self_nonneg seq _)
  · intro hall i j
    obtain ⟨e0, he0⟩ := List.exists_mem_of_ne_nil seq hne
    have hall0 : ∀ e ∈ seq, accessor e = accessor e0 := fun e he => hall e he e0 he0
    rw [hC]
    simp only [covarianceSpec, KFloat.fin.injEq]
    have hz : (seq.map fun e =>
        (((accessor e).coord i).value - meanCoord seq accessor i) *
          (((accessor e).coord j).value - meanCoord seq accessor j)).sum = 0 := by
      apply List.sum_eq_zero
      intro x hx
      obtain ⟨e, he, rfl⟩ := List.mem_map.mp hx
      rw [meanCoord_of_all_eq seq accessor hne e0 hall0 i, hall0 e he]
      simp
    rw [hz, mul_zero]

/-- C18, at the points `(1,0,0)`, `(-1,0,0)` over the rationals. -/
theorem covarianceMatrix_positive_semidefinite_witness :
    (samplePoints ≠ [] ∧ ∀ e ∈ samplePoints, (DefaultAccessor e).isFinite = true) ∧
    (∀ v : Fin 3 → ℚ,
      0 ≤ ∑ i, ∑ j,
        v i * (covarianceMatrix KFloat.fin (fun _ _ => .nan) samplePoints DefaultAccessor i j).value * v j) ∧
    ∀ i, KFloat.le (.fin 0)
      (covarianceMatrix KFloat.fin (fun _ _ => .nan) samplePoints DefaultAccessor i i) = true :=
  ⟨⟨samplePoints_ne_nil, samplePoints_isFinite⟩,
    (covarianceMatrix_positive_semidefinite (fun _ _ => .nan) samplePoints DefaultAccessor
      samplePoints_ne_nil samplePoints_isFinite).2.1,
    (covarianceMatrix_positive_semidefinite (fun _ _ => .nan) samplePoints DefaultAccessor
      samplePoints_ne_nil samplePoints_isFinite).2.2.1⟩

end Semidefinite

/-! ## Negating the axis -/

section Negation

variable {α : Type} [LinearOrderedField α] {rnd : α → KFloat α}

theorem KFloat.lt_neg_neg (a b : KFloat α) :
    KFloat.lt (KFloat.neg a) (KFloat.neg b) = KFloat.lt b a := by
  cases a <;> cases b <;> simp [KFloat.lt, KFloat.neg]

theorem KFloat.neg_neg (a : KFloat α) : KFloat.neg (KFloat.neg a) = a := by
  cases a <;> simp [KFloat.neg]

/-- Exact arithmetic rounds symmetrically. -/
theorem KFloat.fin_neg (x : α) : KFloat.fin (-x) = KFloat.neg (KFloat.fin x) := rfl

/-- The binary32 rounding is symmetric: the value nearest to `-x` is the opposite of the
value nearest to `x`. -/
theorem KFloat.round32_neg (x : ℚ) : KFloat.round32 (-x) = KFloat.neg (KFloat.round32 x) := by
  rcases lt_trichotomy x 0 with h | h | h
  · have h1 : (0 : ℚ) < -x := by linarith
    have h2 : ¬ (0 : ℚ) < x := by linarith
    simp only [KFloat.round32, abs_neg, neg_eq_zero, h.ne, h1, h2, if_true, if_false]
    split_ifs <;> simp [KFloat.neg]
  · subst h
    simp [KFloat.round32, KFloat.neg]
  · have h1 : ¬ (0 : ℚ) < -x := by linarith
    simp only [KFloat.round32, abs_neg, neg_eq_zero, h.ne.symm, h1, h, if_true, if_false]
    split_ifs <;> simp [KFloat.neg]

theorem KFloat.add_neg_neg (hodd : ∀ x, rnd (-x) = KFloat.neg (rnd x)) (a b : KFloat α) :
    KFloat.add rnd (KFloat.neg a) (KFloat.neg b) = KFloat.neg (KFloat.add rnd a b) := by
  cases a <;> cases b <;>
    first
      | rfl
      | (simp only [KFloat.add, KFloat.neg]; rw [← neg_add]; exact hodd _)

theorem KFloat.mul_neg (hodd : ∀ x, rnd (-x) = KFloat.neg (rnd x)) (a b : KFloat α) :
    KFloat.mul rnd a (KFloat.neg b) = KFloat.neg (KFloat.mul rnd a b) := by
  cases a <;> cases b <;> simp only [KFloat.mul, KFloat.neg] <;>
    first
      | rfl
      | (rw [← neg_mul_eq_mul_neg]; exact hodd _)
      | (rename_i x
         rcases lt_trichotomy x 0 with h | h | h
         · simp [h, h.not_lt, KFloat.neg]
         · simp [h, KFloat.neg]
         · simp [h, h.not_lt, KFloat.neg])

theorem KVector3D.dotProduct_neg (hodd : ∀ x, rnd (-x) = KFloat.neg (rnd x))
    (v w : KVector3D α) :
    KVector3D.dotProduct rnd v (KVector3D.neg w) =
      KFloat.neg (KVector3D.dotProduct rnd v w) := by
  simp only [KVector3D.dotProduct, KVector3D.neg, KFloat.mul_neg hodd, KFloat.add_neg_neg hodd]

/-- The loops on `axis` and on `-axis` run in lockstep with the two sides exchanged. -/
theorem findExtremalAlongAxis_foldl_neg {E : Type}
    (hodd : ∀ x, rnd (-x) = KFloat.neg (rnd x)) (axis : KVector3D α)
    (accessor : E → KVector3D α) (rest : List E) (s t : ExtremalState α)
    (h1 : t.maxProjDist = KFloat.neg s.minProjDist)
    (h2 : t.minProjDist = KFloat.neg s.maxProjDist)
    (h3 : t.maxMin.max = s.maxMin.min) (h4 : t.maxMin.min = s.maxMin.max) :
    (rest.foldl (fun s e => findExtremalAlongAxisStep rnd (KVector3D.neg axis) DefaultMutator
        s (accessor e)) t).maxMin.max =
      (rest.foldl (fun s e => findExtremalAlongAxisStep rnd axis DefaultMutator s
        (accessor e)) s).maxMin.min ∧
    (rest.foldl (fun s e => findExtremalAlongAxisStep rnd (KVector3D.neg axis) DefaultMutator
        s (accessor e)) t).maxMin.min =
      (rest.foldl (fun s e => findExtremalAlongAxisStep rnd axis DefaultMutator s
        (accessor e)) s).maxMin.max := by
  induction rest generalizing s t with
  | nil => exact ⟨h3, h4⟩
  | cons y ys ih =>
    simp only [List.foldl_cons]
    have hgt : ∀ a b : KFloat α, KFloat.gt (KFloat.neg a) (KFloat.neg b) = KFloat.lt a b :=
      fun a b => by rw [KFloat.gt, KFloat.lt_neg_neg]
    have hlt : ∀ a b : KFloat α, KFloat.lt (KFloat.neg a) (KFloat.neg b) = KFloat.gt a b :=
      fun a b => by rw [KFloat.gt, KFloat.lt_neg_neg]
    apply ih
    · simp only [findExtremalAlongAxisStep_eq, KVector3D.dotProduct_neg hodd, h1, hgt]
      split_ifs <;> rfl
    · simp only [findExtremalAlongAxisStep_eq, KVector3D.dotProduct_neg hodd, h2, hlt]
      split_ifs <;> rfl
    · simp only [findExtremalAlongAxisStep_eq, KVector3D.dotProduct_neg hodd, h1, hgt, h3,
        DefaultMutator]
    · simp only [findExtremalAlongAxisStep_eq, KVector3D.dotProduct_neg hodd, h2, hlt, h4,
        DefaultMutator]

/-- C20: negating the axis exchanges the two extremes, ties included: for every sequence
and axis, the `max` returned by `findExtremalPointsAlongAxis` on `-axis` is the `min` it
returns on `axis`, and the `min` on `-axis` is the `max` on `axis`.  This holds in exact
arithmetic, in binary32, and for every format whose rounding is symmetric
(`rnd (-x) = -(rnd x)`), overflow and `NaN` included. -/
theorem findExtremalPointsAlongAxis_neg :
    (∀ (E : Type) (seq : List E) (axis : KVector3D α) (accessor : E → KVector3D α),
      (findExtremalPointsAlongAxis KFloat.fin seq (KVector3D.neg axis) accessor).max =
          (findExtremalPointsAlongAxis KFloat.fin seq axis accessor).min ∧
        (findExtremalPointsAlongAxis KFloat.fin seq (KVector3D.neg axis) accessor).min =
          (findExtremalPointsAlongAxis KFloat.fin seq axis accessor).max) ∧
    (∀ (E : Type) (seq : List E) (axis : KVector3D ℚ) (accessor : E → KVector3D ℚ),
      (findExtremalPointsAlongAxis KFloat.round32 seq (KVector3D.neg axis) accessor).max =
          (findExtremalPointsAlongAxis KFloat.round32 seq axis accessor).min ∧
        (findExtremalPointsAlongAxis KFloat.round32 seq (KVector3D.neg axis) accessor).min =
          (findExtremalPointsAlongAxis KFloat.round32 seq axis accessor).max) ∧
    ∀ (rnd : α → KFloat α), (∀ x, rnd (-x) = KFloat.neg (rnd x)) →
      ∀ (E : Type) (seq : List E) (axis : KVector3D α) (accessor : E → KVector3D α),
        (findExtremalPointsAlongAxis rnd seq (KVector3D.neg axis) accessor).max =
            (findExtremalPointsAlongAxis rnd seq axis accessor).min ∧
          (findExtremalPointsAlongAxis rnd seq (KVector3D.neg axis) accessor).min =
            (findExtremalPointsAlongAxis rnd seq axis accessor).max :=
  ⟨fun _ seq axis accessor =>
      findExtremalAlongAxis_foldl_neg KFloat.fin_neg axis accessor seq
        findExtremalAlongAxisInit findExtremalAlongAxisInit rfl rfl rfl rfl,
    fun _ seq axis accessor =>
      findExtremalAlongAxis_foldl_neg KFloat.round32_neg axis accessor seq
        findExtremalAlongAxisInit findExtremalAlongAxisInit rfl rfl rfl rfl,
    fun _ hodd _ seq axis accessor =>
      findExtremalAlongAxis_foldl_neg hodd axis accessor seq
        findExtremalAlongAxisInit findExtremalAlongAxisInit rfl rfl rfl rfl⟩

/-- C20 for a symmetric rounding, at the binary32 rounding, the points `(1,0,0)`,
`(-1,0,0)` and the axis `(1,0,0)`. -/
theorem findExtremalPointsAlongAxis_neg_witness :
    (∀ x, KFloat.round32 (-x) = KFloat.neg (KFloat.round32 x)) ∧
    (findExtremalPointsAlongAxis KFloat.round32 samplePoints (KVector3D.neg sampleAxis)
        DefaultAccessor).max =
      (findExtremalPointsAlongAxis KFloat.round32 samplePoints sampleAxis
        DefaultAccessor).min ∧
    (findExtremalPointsAlongAxis KFloat.round32 samplePoints (KVector3D.neg sampleAxis)
        DefaultAccessor).min =
      (findExtremalPointsAlongAxis KFloat.round32 samplePoints sampleAxis
        DefaultAccessor).max :=
  ⟨KFloat.round32_neg,
    (findExtremalPointsAlongAxis_neg (α := ℚ)).2.2 KFloat.round32 KFloat.round32_neg _
      samplePoints sampleAxis DefaultAccessor⟩

end Negation

/-! ## `calculateCentroid`: each index runs the projected single-axis query -/

section CalculateCentroid

variable {α : Type} [LinearOrderedField α] (rnd : α → KFloat α)

theorem calculateCentroidAxisStep_axisState {N : Nat} (axes : Fin N → KVector3D α)
    (p : KVector3D α) (s : CentroidState α N) (i j : Fin N) :
    (calculateCentroidAxisStep rnd axes p s i).axisState j =
      if j = i then findExtremalAlongAxisStep rnd (axes i) (AxisMutator rnd) (s.axisState i) p
      else s.axisState j := by
  obtain ⟨a, b, c, d⟩ := s
  rw [findExtremalAlongAxisStep_eq]
  by_cases hji : j = i
  · subst hji
    cases h1 : KFloat.gt (KVector3D.dotProduct rnd p (axes j)) (c j) <;>
      cases h2 : KFloat.lt (KVector3D.dotProduct rnd p (axes j)) (d j) <;>
      simp [calculateCentroidAxisStep, CentroidState.axisState, AxisMutator, h1, h2]
  · cases h1 : KFloat.gt (KVector3D.dotProduct rnd p (axes i)) (c i) <;>
      cases h2 : KFloat.lt (KVector3D.dotProduct rnd p (axes i)) (d i) <;>
      simp [calculateCentroidAxisStep, CentroidState.axisState, h1, h2, hji,
        Function.update_noteq hji]

theorem calculateCentroid_indices_foldl {N : Nat} (axes : Fin N → KVector3D α)
    (p : KVector3D α) (l : List (Fin N)) (hl : l.Nodup) (s : CentroidState α N) (j : Fin N) :
    (l.foldl (calculateCentroidAxisStep rnd axes p) s).axisState j =
      if j ∈ l then findExtremalAlongAxisStep rnd (axes j) (AxisMutator rnd) (s.axisState j) p
      else s.axisState j := by
  induction l generalizing s with
  | nil => simp
  | cons i l ih =>
    obtain ⟨hi, hl2⟩ := List.nodup_cons.mp hl
    rw [List.foldl_cons, ih hl2, calculateCentroidAxisStep_axisState]
    by_cases hji : j = i
    · subst hji
      simp [hi]
    · simp [hji]

theorem calculateCentroidPointStep_axisState {N : Nat} (axes : Fin N → KVector3D α)
    (s : CentroidState α N) (p : KVector3D α) (j : Fin N) :
    (calculateCentroidPointStep rnd axes s p).axisState j =
      findExtremalAlongAxisStep rnd (axes j) (AxisMutator rnd) (s.axisState j) p := by
  rw [calculateCentroidPointStep,
    calculateCentroid_indices_foldl rnd axes p _ (List.nodup_finRange N) s j]
  simp

theorem calculateCentroid_foldl_axisState {E : Type} {N : Nat} (axes : Fin N → KVector3D α)
    (f : E → KVector3D α) (seq : List E) (s : CentroidState α N) (j : Fin N) :
    (seq.foldl (fun s e => calculateCentroidPointStep rnd axes s (f e)) s).axisState j =
      seq.foldl (fun t e => findExtremalAlongAxisStep rnd (axes j) (AxisMutator rnd) t (f e))
        (s.axisState j) := by
  induction seq generalizing s with
  | nil => rfl
  | cons e es ih =>
    rw [List.foldl_cons, List.foldl_cons, ih, calculateCentroidPointStep_axisState]

/-- After the projection loop, `maximum[j]` and `minimum[j]` are the `max` and `min`
returned by `findExtremalProjectedPointsAlongAxis` on `axes[j]`. -/
theorem calculateCentroid_projection_loop {E : Type} {N : Nat} (axes : Fin N → KVector3D α)
    (f : E → KVector3D α) (seq : List E) (j : Fin N) :
    (seq.foldl (fun s e => calculateCentroidPointStep rnd axes s (f e))
        (calculateCentroidInit N)).maximum j =
      (findExtremalProjectedPointsAlongAxis rnd seq (axes j) f).max ∧
    (seq.foldl (fun s e => calculateCentroidPointStep rnd axes s (f e))
        (calculateCentroidInit N)).minimum j =
      (findExtremalProjectedPointsAlongAxis rnd seq (axes j) f).min := by
  have h := calculateCentroid_foldl_axisState rnd axes f seq (calculateCentroidInit N) j
  have h0 : (calculateCentroidInit N : CentroidState α N).axisState j =
      findExtremalAlongAxisInit := rfl
  rw [h0] at h
  constructor
  · exact congrArg (fun t => t.maxMin.max) h
  · exact congrArg (fun t => t.maxMin.min) h

/-- With at least three axes the call returns: the centroid is the sum, started at
`(0,0,0)`, of the midpoints of the first three axes, and `extents` is assigned at the indices
`0, 1, 2` only. -/
theorem calculateCentroid_eq {E : Type} (sqrt : α → α) (N : Nat) (hN : 3 ≤ N) (seq : List E)
    (f : E → KVector3D α) (axes : Fin N → KVector3D α) (extents : Fin N → KFloat α) :
    calculateCentroid rnd sqrt N seq f axes extents =
      some
        (KVector3D.add rnd
          (KVector3D.add rnd
            (KVector3D.add rnd (KVector3D.ofCoords 0 0 0)
              (axisMidpoint rnd
                (findExtremalProjectedPointsAlongAxis rnd seq (axes ⟨0, by omega⟩) f)))
            (axisMidpoint rnd (findExtremalProjectedPointsAlongAxis rnd seq (axes ⟨1, by omega⟩) f)))
          (axisMidpoint rnd (findExtremalProjectedPointsAlongAxis rnd seq (axes ⟨2, by omega⟩) f)),
        Function.update
          (Function.update
            (Function.update extents ⟨0, by omega⟩
              (axisExtent rnd sqrt
                (findExtremalProjectedPointsAlongAxis rnd seq (axes ⟨0, by omega⟩) f)))
            ⟨1, by omega⟩
            (axisExtent rnd sqrt (findExtremalProjectedPointsAlongAxis rnd seq (axes ⟨1, by omega⟩) f)))
          ⟨2, by omega⟩
          (axisExtent rnd sqrt (findExtremalProjectedPointsAlongAxis rnd seq (axes ⟨2, by omega⟩) f))) := by
  have h0 : 0 < N := by omega
  have h1 : 1 < N := by omega
  have h2 : 2 < N := by omega
  simp only [calculateCentroid, List.foldlM_cons, List.foldlM_nil, calculateCentroidFinalStep,
    dif_pos h0, dif_pos h1, dif_pos h2, Option.bind_eq_bind, Option.some_bind, Option.pure_def,
    (calculateCentroid_projection_loop rnd axes f seq _).1,
    (calculateCentroid_projection_loop rnd axes f seq _).2, axisMidpoint, axisExtent]

/-- C14: for every `N >= 3`, every sequence and every array of `N` axes, the point returned
by `calculateCentroid<N>` is the sum, started at `(0,0,0)`, over exactly `i = 0, 1, 2` of
`(max_i + min_i) / 2`, where `(min_i, max_i)` is the result of
`findExtremalProjectedPointsAlongAxis` on `axes[i]`; arrays of axes that agree at the indices
`0, 1, 2` give the same returned point. -/
theorem calculateCentroid_first_three {E : Type} (sqrt : α → α) (N : Nat) (hN : 3 ≤ N)
    (seq : List E) (f : E → KVector3D α) (axes : Fin N → KVector3D α)
    (extents : Fin N → KFloat α) :
    (calculateCentroid rnd sqrt N seq f axes extents).map Prod.fst =
      some
        (KVector3D.add rnd
          (KVector3D.add rnd
            (KVector3D.add rnd (KVector3D.ofCoords 0 0 0)
              (KVector3D.divScalar rnd
                (KVector3D.add rnd
                  (findExtremalProjectedPointsAlongAxis rnd seq (axes ⟨0, by omega⟩) f).max
                  (findExtremalProjectedPointsAlongAxis rnd seq (axes ⟨0, by omega⟩) f).min)
                (.fin 2)))
            (KVector3D.divScalar rnd
              (KVector3D.add rnd
                (findExtremalProjectedPointsAlongAxis rnd seq (axes ⟨1, by omega⟩) f).max
                (findExtremalProjectedPointsAlongAxis rnd seq (axes ⟨1, by omega⟩) f).min)
              (.fin 2)))
          (KVector3D.divScalar rnd
            (KVector3D.add rnd
              (findExtremalProjectedPointsAlongAxis rnd seq (axes ⟨2, by omega⟩) f).max
              (findExtremalProjectedPointsAlongAxis rnd seq (axes ⟨2, by omega⟩) f).min)
            (.fin 2))) ∧
    ∀ axes2 : Fin N → KVector3D α, (∀ i : Fin N, i.val < 3 → axes2 i = axes i) →
      (calculateCentroid rnd sqrt N seq f axes2 extents).map Prod.fst =
        (calculateCentroid rnd sqrt N seq f axes extents).map Prod.fst := by
  constructor
  · rw [calculateCentroid_eq rnd sqrt N hN]
    rfl
  · intro axes2 h
    have e0 : axes2 ⟨0, by omega⟩ = axes ⟨0, by omega⟩ := h _ (by simp)
    have e1 : axes2 ⟨1, by omega⟩ = axes ⟨1, by omega⟩ := h _ (by simp)
    have e2 : axes2 ⟨2, by omega⟩ = axes ⟨2, by omega⟩ := h _ (by simp)
    rw [calculateCentroid_eq rnd sqrt N hN, calculateCentroid_eq rnd sqrt N hN]
    simp only [Option.map_some', e0, e1, e2]

theorem boxPoints_ne_nil : boxPoints ≠ [] := by simp [boxPoints]

theorem boxPoints_isFinite : ∀ e ∈ boxPoints, (DefaultAccessor e).isFinite = true := by
  intro e he
  simp only [boxPoints, List.mem_cons, List.mem_singleton, List.not_mem_nil, or_false] at he
  rcases he with rfl | rfl <;> rfl

theorem unitAxes_isFinite : ∀ i, (unitAxes i).isFinite = true := by
  intro i
  fin_cases i <;> rfl

theorem boxPoints_projected (i : Fin 3) :
    findExtremalProjectedPointsAlongAxis KFloat.fin boxPoints (unitAxes i) DefaultAccessor =
      match i with
      | 0 => { max := KVector3D.ofCoords 3 0 0, min := KVector3D.ofCoords 1 0 0 }
      | 1 => { max := KVector3D.ofCoords 0 2 0, min := KVector3D.ofCoords 0 0 0 }
      | 2 => { max := KVector3D.ofCoords 0 0 3, min := KVector3D.ofCoords 0 0 1 } := by
  fin_cases i <;>
    simp [findExtremalProjectedPointsAlongAxis, findExtremalAlongAxis,
      findExtremalAlongAxisStep_eq, findExtremalAlongAxisInit, AxisMutator, DefaultAccessor,
      boxPoints, unitAxes, KVector3D.ofCoords, KVector3D.dotProduct, KVector3D.smul, KFloat.gt,
      KFloat.infinity, KFloat.neg, KFloat.lt]

/-- C14, at `N = 3`, the points `(1,2,3)`, `(3,0,1)` and the coordinate axes over the
rationals: the returned point is `(2,1,2)`. -/
theorem calculateCentroid_first_three_witness :
    3 ≤ 3 ∧
    (calculateCentroid KFloat.fin Rat.sqrt 3 boxPoints DefaultAccessor unitAxes (fun _ => .nan)).map
        Prod.fst = some (KVector3D.ofCoords 2 1 2) := by
  refine ⟨le_refl 3, ?_⟩
  rw [(calculateCentroid_first_three KFloat.fin Rat.sqrt 3 (le_refl 3) boxPoints DefaultAccessor unitAxes
    (fun _ => .nan)).1]
  rw [boxPoints_projected ⟨0, by omega⟩, boxPoints_projected ⟨1, by omega⟩,
    boxPoints_projected ⟨2, by omega⟩]
  simp only [KVector3D.ofCoords, KVector3D.add, KVector3D.divScalar, KFloat.add_fin_fin,
    KFloat.div_fin_fin _ _ _ (two_ne_zero : (2 : ℚ) ≠ 0), Option.some.injEq, KVector3D.mk.injEq,
    KFloat.fin.injEq]
  norm_num

/-- The projected single-axis query in terms of the greatest and least projections `D` and
`d`: it returns `max = D * axis` and `min = d * axis`. -/
theorem findExtremalProjectedPointsAlongAxis_spec {E : Type} (seq : List E)
    (axis : KVector3D α) (f : E → KVector3D α) (hne : seq ≠ [])
    (hfin : ∀ e ∈ seq, (f e).isFinite = true) (haxis : axis.isFinite = true) :
    ∃ D d : α,
      ((∃ e ∈ seq, KVector3D.dotProduct KFloat.fin (f e) axis = .fin D) ∧
        ∀ e ∈ seq, KFloat.le (KVector3D.dotProduct KFloat.fin (f e) axis) (.fin D) = true) ∧
      ((∃ e ∈ seq, KVector3D.dotProduct KFloat.fin (f e) axis = .fin d) ∧
        ∀ e ∈ seq, KFloat.le (.fin d) (KVector3D.dotProduct KFloat.fin (f e) axis) = true) ∧
      d ≤ D ∧
      findExtremalProjectedPointsAlongAxis KFloat.fin seq axis f =
        { max := KVector3D.smul KFloat.fin (.fin D) axis, min := KVector3D.smul KFloat.fin (.fin d) axis } := by
  have hd : ∀ e ∈ seq, (KVector3D.dotProduct KFloat.fin (f e) axis).isFinite = true :=
    fun e he => KVector3D.dotProduct_isFinite _ _ (hfin e he) haxis
  obtain ⟨⟨l1, a, l2, h1, h2, h3, h4⟩, ⟨k1, b, k2, g1, g2, g3, g4⟩⟩ :=
    findExtremalAlongAxis_split seq axis f (AxisMutator KFloat.fin) hne hd
  have ha : a ∈ seq := by rw [h1]; simp
  have hb : b ∈ seq := by rw [g1]; simp
  have hle := mem_split_le (fun e => (KVector3D.dotProduct KFloat.fin (f e) axis).value) seq l1 l2 a
  have hge := mem_split_ge (fun e => (KVector3D.dotProduct KFloat.fin (f e) axis).value) seq k1 k2 b
  refine ⟨(KVector3D.dotProduct KFloat.fin (f a) axis).value, (KVector3D.dotProduct KFloat.fin (f b) axis).value,
    ⟨⟨a, ha, KFloat.eq_fin_of_isFinite (hd a ha)⟩, ?_⟩,
    ⟨⟨b, hb, KFloat.eq_fin_of_isFinite (hd b hb)⟩, ?_⟩, hge a g1 g2 g3 ha, ?_⟩
  · intro e he
    rw [KFloat.eq_fin_of_isFinite (hd e he)]
    simpa using hle e h1 h2 h3 he
  · intro e he
    rw [KFloat.eq_fin_of_isFinite (hd e he)]
    simpa using hge e g1 g2 g3 he
  · have hmax : (findExtremalProjectedPointsAlongAxis KFloat.fin seq axis f).max =
        KVector3D.smul KFloat.fin (.fin (KVector3D.dotProduct KFloat.fin (f a) axis).value) axis := by
      rw [← KFloat.eq_fin_of_isFinite (hd a ha)]; exact h4
    have hmin : (findExtremalProjectedPointsAlongAxis KFloat.fin seq axis f).min =
        KVector3D.smul KFloat.fin (.fin (KVector3D.dotProduct KFloat.fin (f b) axis).value) axis := by
      rw [← KFloat.eq_fin_of_isFinite (hd b hb)]; exact g4
    rw [← hmax, ← hmin]

theorem KFloat.sqrt_mul_self (sqrt : α → α) (hsqrt : ∀ x : α, 0 ≤ x → sqrt (x * x) = x)
    (X t : α) (ht : 0 ≤ t) (hX : X = t * t) : KFloat.sqrt KFloat.fin sqrt (.fin X) = .fin t := by
  have h0 : ¬ X < 0 := by rw [hX]; exact not_lt.mpr (mul_self_nonneg t)
  simp only [KFloat.sqrt, h0, if_false]
  rw [hX, hsqrt t ht]

/-- C19, amended: in exact arithmetic (the rounding is the identity), for `N = 3`, a
non-empty sequence of points with exact coordinates and three axes that are exactly
orthonormal (`dot(axes[i], axes[j])` is `1` for `i = j` and `0` otherwise),
`calculateCentroid<3>` returns the centre of the oriented bounding box: for each `i`, with
`dmax` and `dmin` the greatest and least projections `dot(p, axes[i])` over the points,
`dot(centroid, axes[i]) = (dmax + dmin) / 2` and `extents[i] = dmax - dmin`, provided the
square root used by `length()` satisfies `sqrt (x * x) = x` for `x >= 0`. -/
theorem calculateCentroid_box_centre {E : Type} (sqrt : α → α)
    (hsqrt : ∀ x : α, 0 ≤ x → sqrt (x * x) = x) (seq : List E) (f : E → KVector3D α)
    (axes : Fin 3 → KVector3D α) (extents : Fin 3 → KFloat α) (hne : seq ≠ [])
    (hfin : ∀ e ∈ seq, (f e).isFinite = true) (haxes : ∀ i, (axes i).isFinite = true)
    (horth : ∀ i j, KVector3D.dotProduct KFloat.fin (axes i) (axes j) = .fin (if i = j then 1 else 0)) :
    ∃ c ext, calculateCentroid KFloat.fin sqrt 3 seq f axes extents = some (c, ext) ∧
      ∀ i : Fin 3, ∃ dmax dmin : α,
        ((∃ e ∈ seq, KVector3D.dotProduct KFloat.fin (f e) (axes i) = .fin dmax) ∧
          ∀ e ∈ seq, KFloat.le (KVector3D.dotProduct KFloat.fin (f e) (axes i)) (.fin dmax) = true) ∧
        ((∃ e ∈ seq, KVector3D.dotProduct KFloat.fin (f e) (axes i) = .fin dmin) ∧
          ∀ e ∈ seq, KFloat.le (.fin dmin) (KVector3D.dotProduct KFloat.fin (f e) (axes i)) = true) ∧
        KVector3D.dotProduct KFloat.fin c (axes i) = .fin ((dmax + dmin) / 2) ∧
        ext i = .fin (dmax - dmin) := by
  obtain ⟨D0, d0, hgr0, hls0, hle0, hq0⟩ :=
    findExtremalProjectedPointsAlongAxis_spec seq (axes ⟨0, by omega⟩) f hne hfin (haxes _)
  obtain ⟨D1, d1, hgr1, hls1, hle1, hq1⟩ :=
    findExtremalProjectedPointsAlongAxis_spec seq (axes ⟨1, by omega⟩) f hne hfin (haxes _)
  obtain ⟨D2, d2, hgr2, hls2, hle2, hq2⟩ :=
    findExtremalProjectedPointsAlongAxis_spec seq (axes ⟨2, by omega⟩) f hne hfin (haxes _)
  obtain ⟨x0, y0, z0, ha0⟩ : ∃ x y z : α, axes ⟨0, by omega⟩ = ⟨.fin x, .fin y, .fin z⟩ :=
    ⟨_, _, _, KVector3D.eq_of_isFinite _ (haxes _)⟩
  obtain ⟨x1, y1, z1, ha1⟩ : ∃ x y z : α, axes ⟨1, by omega⟩ = ⟨.fin x, .fin y, .fin z⟩ :=
    ⟨_, _, _, KVector3D.eq_of_isFinite _ (haxes _)⟩
  obtain ⟨x2, y2, z2, ha2⟩ : ∃ x y z : α, axes ⟨2, by omega⟩ = ⟨.fin x, .fin y, .fin z⟩ :=
    ⟨_, _, _, KVector3D.eq_of_isFinite _ (haxes _)⟩
  have o00 := horth ⟨0, by omega⟩ ⟨0, by omega⟩
  have o11 := horth ⟨1, by omega⟩ ⟨1, by omega⟩
  have o22 := horth ⟨2, by omega⟩ ⟨2, by omega⟩
  have o01 := horth ⟨0, by omega⟩ ⟨1, by omega⟩
  have o02 := horth ⟨0, by omega⟩ ⟨2, by omega⟩
  have o12 := horth ⟨1, by omega⟩ ⟨2, by omega⟩
  rw [ha0] at o00 o01 o02
  rw [ha1] at o11 o01 o12
  rw [ha2] at o22 o02 o12
  simp only [KVector3D.dotProduct, KFloat.mul_fin_fin, KFloat.add_fin_fin, KFloat.fin.injEq,
    Fin.mk.injEq, if_true] at o00 o11 o22
  simp only [KVector3D.dotProduct, KFloat.mul_fin_fin, KFloat.add_fin_fin, KFloat.fin.injEq,
    Fin.mk.injEq] at o01 o02 o12
  norm_num at o01 o02 o12
  have h2 : (2 : α) ≠ 0 := two_ne_zero
  refine ⟨_, _, calculateCentroid_eq KFloat.fin sqrt 3 (le_refl 3) seq f axes extents, ?_⟩
  rw [hq0, hq1, hq2, ha0, ha1, ha2]
  rintro ⟨i, hi⟩
  interval_cases i
  · refine ⟨D0, d0, hgr0, hls0, ?_, ?_⟩
    · simp only [axisMidpoint, KVector3D.smul, KVector3D.add, KVector3D.divScalar,
        KFloat.mul_fin_fin, KFloat.add_fin_fin, KFloat.div_fin_fin _ _ _ h2, KVector3D.ofCoords,
        KVector3D.dotProduct, ha0, KFloat.fin.injEq]
      linear_combination ((D0 + d0) / 2) * o00 + ((D1 + d1) / 2) * o01 + ((D2 + d2) / 2) * o02
    · simp only [axisExtent, KVector3D.smul, KVector3D.sub, KVector3D.length,
        KFloat.mul_fin_fin, KFloat.add_fin_fin, KFloat.sub_fin_fin, Function.update,
        Fin.mk.injEq, dite_eq_ite]
      norm_num
      apply KFloat.sqrt_mul_self sqrt hsqrt _ _ (sub_nonneg.mpr hle0)
      linear_combination ((D0 - d0) * (D0 - d0)) * o00
  · refine ⟨D1, d1, hgr1, hls1, ?_, ?_⟩
    · simp only [axisMidpoint, KVector3D.smul, KVector3D.add, KVector3D.divScalar,
        KFloat.mul_fin_fin, KFloat.add_fin_fin, KFloat.div_fin_fin _ _ _ h2, KVector3D.ofCoords,
        KVector3D.dotProduct, ha1, KFloat.fin.injEq]
      linear_combination ((D0 + d0) / 2) * o01 + ((D1 + d1) / 2) * o11 + ((D2 + d2) / 2) * o12
    · simp only [axisExtent, KVector3D.smul, KVector3D.sub, KVector3D.length,
        KFloat.mul_fin_fin, KFloat.add_fin_fin, KFloat.sub_fin_fin, Function.update,
        Fin.mk.injEq, dite_eq_ite]
      norm_num
      apply KFloat.sqrt_mul_self sqrt hsqrt _ _ (sub_nonneg.mpr hle1)
      linear_combination ((D1 - d1) * (D1 - d1)) * o11
  · refine ⟨D2, d2, hgr2, hls2, ?_, ?_⟩
    · simp only [axisMidpoint, KVector3D.smul, KVector3D.add, KVector3D.divScalar,
        KFloat.mul_fin_fin, KFloat.add_fin_fin, KFloat.div_fin_fin _ _ _ h2, KVector3D.ofCoords,
        KVector3D.dotProduct, ha2, KFloat.fin.injEq]
      linear_combination ((D0 + d0) / 2) * o02 + ((D1 + d1) / 2) * o12 + ((D2 + d2) / 2) * o22
    · simp only [axisExtent, KVector3D.smul, KVector3D.sub, KVector3D.length,
        KFloat.mul_fin_fin, KFloat.add_fin_fin, KFloat.sub_fin_fin, Function.update,
        Fin.mk.injEq, dite_eq_ite]
      norm_num
      apply KFloat.sqrt_mul_self sqrt hsqrt _ _ (sub_nonneg.mpr hle2)
      linear_combination ((D2 - d2) * (D2 - d2)) * o22

theorem rat_sqrt_mul_self : ∀ x : ℚ, 0 ≤ x → Rat.sqrt (x * x) = x := by
  intro x hx
  rw [Rat.sqrt_eq, abs_of_nonneg hx]

theorem unitAxes_orthonormal :
    ∀ i j, KVector3D.dotProduct KFloat.fin (unitAxes i) (unitAxes j) = .fin (if i = j then 1 else 0) := by
  intro i j
  fin_cases i <;> fin_cases j <;>
    simp [unitAxes, KVector3D.ofCoords, KVector3D.dotProduct]

/-- C19 amended, in exact arithmetic, at the points `(1,2,3)`, `(3,0,1)` and the coordinate
axes over the rationals, with the rational square root. -/
theorem calculateCentroid_box_centre_witness :
    ((∀ x : ℚ, 0 ≤ x → Rat.sqrt (x * x) = x) ∧ boxPoints ≠ [] ∧
      (∀ e ∈ boxPoints, (DefaultAccessor e).isFinite = true) ∧
      (∀ i, (unitAxes i).isFinite = true) ∧
      ∀ i j, KVector3D.dotProduct KFloat.fin (unitAxes i) (unitAxes j) = .fin (if i = j then 1 else 0)) ∧
    ∃ c ext,
      calculateCentroid KFloat.fin Rat.sqrt 3 boxPoints DefaultAccessor unitAxes (fun _ => .nan) =
        some (c, ext) ∧
      ∀ i : Fin 3, ∃ dmax dmin : ℚ,
        ((∃ e ∈ boxPoints,
            KVector3D.dotProduct KFloat.fin (DefaultAccessor e) (unitAxes i) = .fin dmax) ∧
          ∀ e ∈ boxPoints,
            KFloat.le (KVector3D.dotProduct KFloat.fin (DefaultAccessor e) (unitAxes i)) (.fin dmax) =
              true) ∧
        ((∃ e ∈ boxPoints,
            KVector3D.dotProduct KFloat.fin (DefaultAccessor e) (unitAxes i) = .fin dmin) ∧
          ∀ e ∈ boxPoints,
            KFloat.le (.fin dmin) (KVector3D.dotProduct KFloat.fin (DefaultAccessor e) (unitAxes i)) =
              true) ∧
        KVector3D.dotProduct KFloat.fin c (unitAxes i) = .fin ((dmax + dmin) / 2) ∧
        ext i = .fin (dmax - dmin) :=
  ⟨⟨rat_sqrt_mul_self, boxPoints_ne_nil, boxPoints_isFinite, unitAxes_isFinite,
      unitAxes_orthonormal⟩,
    calculateCentroid_box_centre Rat.sqrt rat_sqrt_mul_self boxPoints DefaultAccessor unitAxes
      (fun _ => .nan) boxPoints_ne_nil boxPoints_isFinite unitAxes_isFinite
      unitAxes_orthonormal⟩

/-- C13 at `N = 4`: with four axes `(1,0,0)` and the points `(1,2,3)`, `(3,0,1)`, the call
returns, but `extents[3]` still holds what it held before the call (here `7`), although the
projected extremes along `axes[3]` are `(3,0,0)` and `(1,0,0)`, at distance `2`: the last
loop runs over `i < 3`, not over `i < N`.  The arithmetic plays no part: `extents[3]` is
left at `7` whatever the rounding and the square root. -/
theorem calculateCentroid_extent_not_assigned :
    (∃ c ext,
      calculateCentroid KFloat.fin Rat.sqrt 4 boxPoints DefaultAccessor (fun _ => unitAxes 0)
          (fun _ => .fin 7) = some (c, ext) ∧
      ext 3 = .fin 7 ∧
      axisExtent KFloat.fin Rat.sqrt
          (findExtremalProjectedPointsAlongAxis KFloat.fin boxPoints (unitAxes 0)
            DefaultAccessor) =
        .fin 2) ∧
    ∀ (rnd : ℚ → KFloat ℚ) (sqrt : ℚ → ℚ),
      ∃ c ext,
        calculateCentroid rnd sqrt 4 boxPoints DefaultAccessor (fun _ => unitAxes 0)
            (fun _ => .fin 7) = some (c, ext) ∧
        ext 3 = .fin 7 := by
  have hext : ∀ (rnd : ℚ → KFloat ℚ) (sqrt : ℚ → ℚ),
      ∃ c ext,
        calculateCentroid rnd sqrt 4 boxPoints DefaultAccessor (fun _ => unitAxes 0)
            (fun _ => .fin 7) = some (c, ext) ∧
        ext 3 = .fin 7 := by
    intro rnd sqrt
    refine ⟨_, _,
      calculateCentroid_eq rnd sqrt 4 (by omega) boxPoints DefaultAccessor _ _, ?_⟩
    rw [Function.update_noteq (by decide), Function.update_noteq (by decide),
      Function.update_noteq (by decide)]
  refine ⟨?_, hext⟩
  obtain ⟨c, ext, h1, h2⟩ := hext KFloat.fin Rat.sqrt
  refine ⟨c, ext, h1, h2, ?_⟩
  rw [boxPoints_projected 0]
  simp only [axisExtent, KVector3D.ofCoords, KVector3D.sub, KVector3D.length,
    KFloat.sub_fin_fin, KFloat.mul_fin_fin, KFloat.add_fin_fin]
  apply KFloat.sqrt_mul_self Rat.sqrt rat_sqrt_mul_self _ 2 (by norm_num)
  norm_num

/-- With fewer than three axes the last loop of `calculateCentroid<N>` reads `maximum[i]`
past the end of the array: at `N = 2` the call has no defined result. -/
theorem calculateCentroid_two_axes :
    calculateCentroid KFloat.fin Rat.sqrt 2 boxPoints DefaultAccessor (fun _ => unitAxes 0)
      (fun _ => .fin 7) = none := by
  simp [calculateCentroid, calculateCentroidFinalStep]

/-- On a single point whose computed projection is finite, both sides of the single-axis
query are taken from that point. -/
theorem findExtremalAlongAxis_single_fin
    (mutator : KVector3D α → KFloat α → KVector3D α → KVector3D α) (p axis : KVector3D α)
    (d : α) (hp : KVector3D.dotProduct rnd p axis = .fin d) :
    findExtremalAlongAxis rnd [p] axis DefaultAccessor mutator =
      { max := mutator p (.fin d) axis, min := mutator p (.fin d) axis } := by
  simp [findExtremalAlongAxis, findExtremalAlongAxisStep_eq, findExtremalAlongAxisInit,
    DefaultAccessor, hp, KFloat.gt, KFloat.lt, KFloat.infinity, KFloat.neg]

/-- The projections of `(a, 0, 0)` on the coordinate axes are `a`, `0`, `0` when `0` and `a`
are values of the format. -/
theorem unitAxes_dot (rnd : ℚ → KFloat ℚ) (a : ℚ) (h0 : rnd 0 = .fin 0)
    (ha : rnd a = .fin a) :
    KVector3D.dotProduct rnd (KVector3D.ofCoords a 0 0) (unitAxes 0) = .fin a ∧
    KVector3D.dotProduct rnd (KVector3D.ofCoords a 0 0) (unitAxes 1) = .fin 0 ∧
    KVector3D.dotProduct rnd (KVector3D.ofCoords a 0 0) (unitAxes 2) = .fin 0 := by
  simp [KVector3D.dotProduct, unitAxes, KVector3D.ofCoords, h0, ha]

/-- When the sum `a + a` overflows, the centroid that `calculateCentroid<3>` returns for the
single point `(a, 0, 0)` and the coordinate axes has first coordinate `+infinity`. -/
theorem calculateCentroid_overflow (rnd : ℚ → KFloat ℚ) (sqrt : ℚ → ℚ) (a : ℚ)
    (h0 : rnd 0 = .fin 0) (ha : rnd a = .fin a) (haa : rnd (a + a) = .pinf)
    (extents : Fin 3 → KFloat ℚ) :
    (calculateCentroid rnd sqrt 3 [KVector3D.ofCoords a 0 0] DefaultAccessor unitAxes
        extents).map Prod.fst = some ⟨.pinf, .fin 0, .fin 0⟩ := by
  obtain ⟨d0, d1, d2⟩ := unitAxes_dot rnd a h0 ha
  have q0 : findExtremalProjectedPointsAlongAxis rnd [KVector3D.ofCoords a 0 0]
      (unitAxes ⟨0, by omega⟩) DefaultAccessor = _ :=
    findExtremalAlongAxis_single_fin rnd (AxisMutator rnd) _ _ _ d0
  have q1 : findExtremalProjectedPointsAlongAxis rnd [KVector3D.ofCoords a 0 0]
      (unitAxes ⟨1, by omega⟩) DefaultAccessor = _ :=
    findExtremalAlongAxis_single_fin rnd (AxisMutator rnd) _ _ _ d1
  have q2 : findExtremalProjectedPointsAlongAxis rnd [KVector3D.ofCoords a 0 0]
      (unitAxes ⟨2, by omega⟩) DefaultAccessor = _ :=
    findExtremalAlongAxis_single_fin rnd (AxisMutator rnd) _ _ _ d2
  have h20 : ¬ (2 : ℚ) < 0 := by norm_num
  rw [calculateCentroid_eq rnd sqrt 3 (le_refl 3), q0, q1, q2]
  simp [axisMidpoint, AxisMutator, KVector3D.smul, KVector3D.add, KVector3D.divScalar,
    KVector3D.ofCoords, unitAxes, KFloat.add, KFloat.div, h0, ha, haa, h20]

theorem unitAxes_orthonormal32 :
    ∀ i j, KVector3D.dotProduct KFloat.round32 (unitAxes i) (unitAxes j) =
      .fin (if i = j then 1 else 0) := by
  intro i j
  fin_cases i <;> fin_cases j <;>
    simp [unitAxes, KVector3D.ofCoords, KVector3D.dotProduct, KFloat.round32_zero,
      KFloat.round32_one]

/-- C19 fails in binary32 when the sum `max + min` overflows: the coordinate axes are
exactly orthonormal and the single point `(2^127, 0, 0)` has binary32 coordinates, its only
projection on `axes[0]` is `2^127`, so that `(dmax + dmin) / 2 = 2^127`; but the centroid
that `calculateCentroid<3>` returns is `(+infinity, 0, 0)`, whose projection on `axes[0]` is
`+infinity`. -/
theorem calculateCentroid_overflow_not_centre :
    (∀ i j, KVector3D.dotProduct KFloat.round32 (unitAxes i) (unitAxes j) =
      .fin (if i = j then 1 else 0)) ∧
    KVector3D.dotProduct KFloat.round32 (DefaultAccessor hugePoint) (unitAxes 0) =
      .fin (2 ^ 127) ∧
    (calculateCentroid KFloat.round32 Rat.sqrt 3 [hugePoint] DefaultAccessor unitAxes
        (fun _ => .nan)).map Prod.fst = some ⟨.pinf, .fin 0, .fin 0⟩ ∧
    KVector3D.dotProduct KFloat.round32 ⟨.pinf, .fin 0, .fin 0⟩ (unitAxes 0) = .pinf ∧
    (KFloat.pinf : KFloat ℚ) ≠ .fin ((2 ^ 127 + 2 ^ 127) / 2) := by
  have haa : KFloat.round32 ((2 : ℚ) ^ 127 + 2 ^ 127) = .pinf := by
    rw [show (2 : ℚ) ^ 127 + 2 ^ 127 = 2 ^ 128 by norm_num, KFloat.round32_two_pow_128]
  refine ⟨unitAxes_orthonormal32,
    (unitAxes_dot KFloat.round32 (2 ^ 127) KFloat.round32_zero KFloat.round32_two_pow_127).1,
    calculateCentroid_overflow KFloat.round32 Rat.sqrt (2 ^ 127) KFloat.round32_zero
      KFloat.round32_two_pow_127 haa _, ?_, ?_⟩
  · simp [KVector3D.dotProduct, unitAxes, KVector3D.ofCoords, KFloat.mul, KFloat.add,
      KFloat.round32_zero]
  · intro h
    cases h

end CalculateCentroid

end Karma

/-! ## The buffer wrapper -/

/-- C15: `reserve` only grows the buffer.  For every element size, buffer state and element
count `n` whose byte size `elementSize * n` fits `size_t`, after `reserve(n)` the buffer is
created and its size is at least `elementSize * n`; and a buffer that was already created
with at least that size is left unchanged. -/
theorem OpenGLDynamicBuffer.reserve_grows (w elementSize : Nat) (b : OpenGLBuffer) (n : Nat)
    (hfit : elementSize * n < 2 ^ w) :
    ((OpenGLDynamicBuffer.reserve w elementSize b n).isCreated = true ∧
      elementSize * n ≤ (OpenGLDynamicBuffer.reserve w elementSize b n).size) ∧
    (b.isCreated = true → elementSize * n ≤ b.size →
      OpenGLDynamicBuffer.reserve w elementSize b n = b) := by
  obtain ⟨created, size⟩ := b
  simp only [OpenGLDynamicBuffer.reserve, OpenGLBuffer.isCreated, OpenGLBuffer.allocate,
    Nat.mod_eq_of_lt hfit]
  refine ⟨?_, ?_⟩
  · cases created
    · simp
    · by_cases h : size < elementSize * n
      · simp [h]
      · simp [h, not_lt.mp h]
  · intro hc hs
    simp [hc, not_lt.mpr hs]

/-- C15, for 4-byte elements with 64-bit `size_t`: a created buffer of 8 bytes asked for 5
elements grows to 20 bytes. -/
theorem OpenGLDynamicBuffer.reserve_grows_witness :
    4 * 5 < 2 ^ 64 ∧
    OpenGLDynamicBuffer.reserve 64 4 { created := true, size := 8 } 5 =
      { created := true, size := 20 } ∧
    (((OpenGLDynamicBuffer.reserve 64 4 { created := true, size := 8 } 5).isCreated = true ∧
        4 * 5 ≤ (OpenGLDynamicBuffer.reserve 64 4 { created := true, size := 8 } 5).size) ∧
      ((OpenGLBuffer.mk true 8).isCreated = true → 4 * 5 ≤ (OpenGLBuffer.mk true 8).size →
        OpenGLDynamicBuffer.reserve 64 4 { created := true, size := 8 } 5 =
          { created := true, size := 8 })) :=
  ⟨by norm_num, by decide,
    OpenGLDynamicBuffer.reserve_grows 64 4 { created := true, size := 8 } 5 (by norm_num)⟩

/-- C16 for 4-byte elements: `mapRange(1, 1, access)` asks the base class for the byte
offset `1`, not `4 = 1 * sizeof(Element)`; only the length is scaled. -/
theorem OpenGLDynamicBuffer.mapRange_offset_not_scaled (access : Nat) :
    OpenGLDynamicBuffer.mapRange 64 4 (fun offset length flags => (offset, length, flags))
        1 1 access = (1, 4, access) ∧
    OpenGLDynamicBuffer.mapRange 64 4 (fun offset length flags => (offset, length, flags))
        1 1 access ≠ (1 * 4, 1 * 4, access) := by
  constructor
  · rfl
  · simp [OpenGLDynamicBuffer.mapRange]
